import Mathlib

/-!
# Address validation pipeline: a verification development

Shallow embedding of the address-validation core of the repository
(`src/utils/confidenceScore.js`, `src/utils/addressNormalizer.js`,
`src/utils/validation.js`, `src/config/env.js`,
`src/services/addressValidation.service.js`,
`src/services/providers/addressProvider.interface.js`,
`src/services/providers/google.provider.js`, `src/utils/errorHandler.js`,
`src/controllers/validateAddress.controller.js`).

Modelling conventions.

* JavaScript numbers are exact rationals (`ℚ`), and `NaN` where it can arise;
  the decimal literals of the source (`0.4`, `0.85`, ...) denote the
  corresponding fractions.  Binary floating point is not modelled: where the
  exact score is half-way between two hundredths the source's double falls
  just below it, so the rounded confidence is only stated away from those
  scores.
* JavaScript strings are Lean strings, processed as lists of characters.  The
  case mappings are exact on ASCII; outside ASCII only the characters whose
  mapping lands in ASCII are mapped, every other one is left unchanged.
* A value that may be `null` or `undefined` is an `Option`.
* A call that may throw returns `Except String _`; the error carries the
  `message` of the thrown `Error`.  For the `async` method `validateAddress`
  an `Except.error` is a rejected promise.
* An object literal used as a lookup table is given by its written keys; the
  expression `table[key]` is `getProperty table key`, which also finds the
  properties that the literal inherits from `Object.prototype`.  Such a
  property is a function or an object: a value that may be one is a `Dynamic`.
* `logger.error` only writes to the console and is not part of the model.
* An Express response `res.status(code).json(body)` is the pair of the status
  and the body sent; the calls made to a collaborator are recorded as a list.
-/

namespace AddressValidation

/-! ## JavaScript values -/

/-- A value of the documented type `α`, or a property inherited from
`Object.prototype`.  An inherited property is a function or an object: it is
truthy, it is not a string, and arithmetic on it gives `NaN`. -/
inductive Dynamic (α : Type) where
  | typed (value : α)
  | inherited (name : String)
  deriving DecidableEq

/-- A JavaScript number in the range of the scores, or `NaN`. -/
inductive JSNumber where
  | number (value : ℚ)
  | nan
  deriving DecidableEq

/-- The names of the properties of `Object.prototype`, which every object
literal inherits. -/
def objectPrototypeKeys : List String :=
  ["constructor", "__defineGetter__", "__defineSetter__", "hasOwnProperty",
    "__lookupGetter__", "__lookupSetter__", "isPrototypeOf", "propertyIsEnumerable",
    "toString", "valueOf", "__proto__", "toLocaleString"]

/-- The expression `table[key]` for an object literal `table` given by its
written keys; `none` is `undefined`. -/
def getProperty {α : Type} (table : String → Option α) (key : String) :
    Option (Dynamic α) :=
  match table key with
  | some value => some (.typed value)
  | none => if key ∈ objectPrototypeKeys then some (.inherited key) else none

/-- The text that `Array.prototype.join` prints for an inherited property:
`Object.prototype` itself for `__proto__`, the function `Object` for
`constructor`, a built-in method for every other name. -/
def inheritedText (name : String) : String :=
  if name = "__proto__" then "[object Object]"
  else if name = "constructor" then "function Object() \x7b [native code] \x7d"
  else "function " ++ name ++ "() \x7b [native code] \x7d"

/-! ## `src/utils/confidenceScore.js` -/

/-- Weight `CONFIDENCE_WEIGHTS.GOOGLE_ACCURACY`. -/
def GOOGLE_ACCURACY : ℚ := 4 / 10

/-- Weight `CONFIDENCE_WEIGHTS.COMPONENT_COMPLETENESS_FULL`. -/
def COMPONENT_COMPLETENESS_FULL : ℚ := 4 / 10

/-- Weight `CONFIDENCE_WEIGHTS.COMPONENT_COMPLETENESS_PARTIAL`. -/
def COMPONENT_COMPLETENESS_PARTIAL : ℚ := 3 / 10

/-- Weight `CONFIDENCE_WEIGHTS.EXACT_MATCH_BONUS`. -/
def EXACT_MATCH_BONUS : ℚ := 2 / 10

/-- Weight `CONFIDENCE_WEIGHTS.PARTIAL_MATCH_REDUCED`. -/
def PARTIAL_MATCH_REDUCED : ℚ := 1 / 10

/-- The function `calculateConfidence`: the score starts at `0` and receives
three successive `+=` updates, then is clamped by
`Math.min(1, Math.max(0, score))`. -/
def calculateConfidence (hasAllComponents : Bool) (googleAccuracy : ℚ)
    (isExactMatch : Bool) (componentMatchRatio : ℚ) : ℚ :=
  let score : ℚ := 0
  let score := score + googleAccuracy * GOOGLE_ACCURACY
  let score :=
    if hasAllComponents then score + COMPONENT_COMPLETENESS_FULL
    else score + componentMatchRatio * COMPONENT_COMPLETENESS_PARTIAL
  let score :=
    if isExactMatch then score + EXACT_MATCH_BONUS
    else score + componentMatchRatio * PARTIAL_MATCH_REDUCED
  min 1 (max 0 score)

/-- The call `calculateConfidence(...)` with a `googleAccuracy` that may be an
inherited property: the product `googleAccuracy * 0.4` is then `NaN`, and so
are the three sums and the results of `Math.max` and `Math.min`. -/
def calculateConfidenceOf (hasAllComponents : Bool) (googleAccuracy : Dynamic ℚ)
    (isExactMatch : Bool) (componentMatchRatio : ℚ) : JSNumber :=
  match googleAccuracy with
  | .typed accuracy =>
    .number (calculateConfidence hasAllComponents accuracy isExactMatch componentMatchRatio)
  | .inherited _ => .nan

/-- The written keys of the table `accuracyMap`. -/
def accuracyMap (locationType : String) : Option ℚ :=
  if locationType = "ROOFTOP" then some 1
  else if locationType = "RANGE_INTERPOLATED" then some (85 / 100)
  else if locationType = "GEOMETRIC_CENTER" then some (7 / 10)
  else if locationType = "APPROXIMATE" then some (5 / 10)
  else none

/-- The function `mapGoogleLocationTypeToAccuracy`: `accuracyMap[locationType] || 0.3`.
Every written entry is non-zero and every inherited property is truthy, so `||`
only fires when the lookup is `undefined`. -/
def mapGoogleLocationTypeToAccuracy (locationType : String) : Dynamic ℚ :=
  match getProperty accuracyMap locationType with
  | some value => value
  | none => .typed (3 / 10)

/-! ## JavaScript string primitives -/

/-- The characters matched by the regular-expression class `\s`, which are also
the characters removed by `String.prototype.trim` (ECMAScript `WhiteSpace` and
`LineTerminator`). -/
def isWhiteSpace (c : Char) : Bool :=
  let n := c.toNat
  n = 0x09 || n = 0x0A || n = 0x0B || n = 0x0C || n = 0x0D || n = 0x20 ||
  n = 0xA0 || n = 0x1680 || (0x2000 ≤ n && n ≤ 0x200A) || n = 0x2028 ||
  n = 0x2029 || n = 0x202F || n = 0x205F || n = 0x3000 || n = 0xFEFF

/-- Lower-case mapping of one character as done by `toLowerCase`: the ASCII
letters, and the two non-ASCII characters whose lower-case form contains an
ASCII letter (KELVIN SIGN and LATIN CAPITAL LETTER I WITH DOT ABOVE).  Every
other non-ASCII character is left unchanged. -/
def lowerChar (c : Char) : List Char :=
  if c.toNat = 0x212A then ['k']
  else if c.toNat = 0x0130 then ['i', Char.ofNat 0x0307]
  else [c.toLower]

/-- Upper-case mapping of one character as done by `toUpperCase`: the ASCII
letters, and the non-ASCII characters whose upper-case form consists of ASCII
letters (dotless i, long s, sharp s and the Latin ligatures).  Every other
non-ASCII character is left unchanged. -/
def upperChar (c : Char) : List Char :=
  let n := c.toNat
  if n = 0x0131 then ['I']
  else if n = 0x017F then ['S']
  else if n = 0x00DF then ['S', 'S']
  else if n = 0xFB00 then ['F', 'F']
  else if n = 0xFB01 then ['F', 'I']
  else if n = 0xFB02 then ['F', 'L']
  else if n = 0xFB03 then ['F', 'F', 'I']
  else if n = 0xFB04 then ['F', 'F', 'L']
  else if n = 0xFB05 then ['S', 'T']
  else if n = 0xFB06 then ['S', 'T']
  else [c.toUpper]

/-- The method `String.prototype.toLowerCase` on a list of characters. -/
def toLowerCase : List Char → List Char
  | [] => []
  | c :: cs => lowerChar c ++ toLowerCase cs

/-- The method `String.prototype.toUpperCase` on a list of characters. -/
def toUpperCase : List Char → List Char
  | [] => []
  | c :: cs => upperChar c ++ toUpperCase cs

/-- The method `String.prototype.trim` on a list of characters. -/
def trim (s : List Char) : List Char :=
  ((s.dropWhile isWhiteSpace).reverse.dropWhile isWhiteSpace).reverse

/-- Worker of `splitWhitespace`; the flag tells whether the previous character
belonged to a separator (a maximal run matched by `\s+`). -/
def splitGo : Bool → List Char → List (List Char)
  | _, [] => [[]]
  | inSep, c :: cs =>
    if isWhiteSpace c then
      if inSep then splitGo true cs else [] :: splitGo true cs
    else
      match splitGo false cs with
      | [] => [[c]]
      | w :: ws => (c :: w) :: ws

/-- The call `str.split(/\s+/)`: the pieces between maximal runs of white
space; a run at the start or at the end of the string yields an empty piece,
and the empty string yields one empty piece. -/
def splitWhitespace (s : List Char) : List (List Char) :=
  splitGo false s

/-- The call `words.join(' ')`. -/
def joinSpace : List (List Char) → List Char
  | [] => []
  | [w] => w
  | w :: ws => w ++ ' ' :: joinSpace ws

/-- The expression `word.charAt(0).toUpperCase() + word.slice(1)`. -/
def capitalize : List Char → List Char
  | [] => []
  | c :: cs => upperChar c ++ cs

/-- The call `s.includes(t)`: `t` occurs in `s` as a contiguous substring. -/
def includes : List Char → List Char → Bool
  | [], t => t.isEmpty
  | c :: cs, t => t.isPrefixOf (c :: cs) || includes cs t

/-! ## `src/utils/validation.js` -/

/-- The function `isValidNonEmptyString`:
`typeof value === 'string' && value.trim().length > 0`. -/
def isValidNonEmptyString (value : Option String) : Bool :=
  match value with
  | none => false
  | some s => decide ((trim s.data).length > 0)

/-! ## `src/utils/addressNormalizer.js` -/

/-- The written keys of the table `streetTypes` of `normalizeStreet`. -/
def streetTypes (word : String) : Option String :=
  if word = "st" then some "St"
  else if word = "street" then some "St"
  else if word = "ave" then some "Ave"
  else if word = "avenue" then some "Ave"
  else if word = "rd" then some "Rd"
  else if word = "road" then some "Rd"
  else if word = "blvd" then some "Blvd"
  else if word = "boulevard" then some "Blvd"
  else if word = "dr" then some "Dr"
  else if word = "drive" then some "Dr"
  else if word = "ln" then some "Ln"
  else if word = "lane" then some "Ln"
  else if word = "ct" then some "Ct"
  else if word = "court" then some "Ct"
  else if word = "pkwy" then some "Pkwy"
  else if word = "parkway" then some "Pkwy"
  else if word = "pl" then some "Pl"
  else if word = "place" then some "Pl"
  else if word = "cir" then some "Cir"
  else if word = "circle" then some "Cir"
  else none

/-- What the callback of `words.map` returns for the last word, as `join`
prints it: the value of `streetTypes[word]` when it is truthy (every written
entry and every inherited property is), the capitalized word otherwise. -/
def lastWord (word : List Char) : List Char :=
  match getProperty streetTypes (String.mk word) with
  | some (.typed abbr) => abbr.data
  | some (.inherited name) => (inheritedText name).data
  | none => capitalize word

/-- The callback of `words.map` in `normalizeStreet`, applied to the words
from position `index` on; `len` is `words.length`. -/
def normalizeWords (len : Nat) : Nat → List (List Char) → List (List Char)
  | _, [] => []
  | index, word :: rest =>
    (if index = len - 1 then lastWord word
    else capitalize word) :: normalizeWords len (index + 1) rest

/-- The function `normalizeStreet`. -/
def normalizeStreet (street : Option String) : String :=
  match street with
  | none => ""
  | some s =>
    if s = "" then ""
    else
      let words := splitWhitespace (trim (toLowerCase s.data))
      let normalized := normalizeWords words.length 0 words
      String.mk (joinSpace normalized)

/-- The written keys of the table `specialCases` of `normalizeCity`. -/
def specialCases (lower : String) : Option String :=
  if lower = "new york" then some "New York"
  else if lower = "los angeles" then some "Los Angeles"
  else if lower = "san francisco" then some "San Francisco"
  else if lower = "san diego" then some "San Diego"
  else if lower = "las vegas" then some "Las Vegas"
  else none

/-- The function `normalizeCity`.  The value of `specialCases[lower]` is
returned when it is truthy: every written entry is a non-empty string, and an
inherited property is returned as it is. -/
def normalizeCity (city : Option String) : Dynamic String :=
  match city with
  | none => .typed ""
  | some s =>
    if s = "" then .typed ""
    else
      let lower := trim (toLowerCase s.data)
      match getProperty specialCases (String.mk lower) with
      | some special => special
      | none =>
        .typed (String.mk (joinSpace ((splitWhitespace (toLowerCase s.data)).map capitalize)))

/-- The written keys of the table `stateMap` of `normalizeState`. -/
def stateMap (name : String) : Option String :=
  if name = "alabama" then some "AL"
  else if name = "alaska" then some "AK"
  else if name = "arizona" then some "AZ"
  else if name = "arkansas" then some "AR"
  else if name = "california" then some "CA"
  else if name = "colorado" then some "CO"
  else if name = "connecticut" then some "CT"
  else if name = "delaware" then some "DE"
  else if name = "florida" then some "FL"
  else if name = "georgia" then some "GA"
  else if name = "hawaii" then some "HI"
  else if name = "idaho" then some "ID"
  else if name = "illinois" then some "IL"
  else if name = "indiana" then some "IN"
  else if name = "iowa" then some "IA"
  else if name = "kansas" then some "KS"
  else if name = "kentucky" then some "KY"
  else if name = "louisiana" then some "LA"
  else if name = "maine" then some "ME"
  else if name = "maryland" then some "MD"
  else if name = "massachusetts" then some "MA"
  else if name = "michigan" then some "MI"
  else if name = "minnesota" then some "MN"
  else if name = "mississippi" then some "MS"
  else if name = "missouri" then some "MO"
  else if name = "montana" then some "MT"
  else if name = "nebraska" then some "NE"
  else if name = "nevada" then some "NV"
  else if name = "new hampshire" then some "NH"
  else if name = "new jersey" then some "NJ"
  else if name = "new mexico" then some "NM"
  else if name = "new york" then some "NY"
  else if name = "north carolina" then some "NC"
  else if name = "north dakota" then some "ND"
  else if name = "ohio" then some "OH"
  else if name = "oklahoma" then some "OK"
  else if name = "oregon" then some "OR"
  else if name = "pennsylvania" then some "PA"
  else if name = "rhode island" then some "RI"
  else if name = "south carolina" then some "SC"
  else if name = "south dakota" then some "SD"
  else if name = "tennessee" then some "TN"
  else if name = "texas" then some "TX"
  else if name = "utah" then some "UT"
  else if name = "vermont" then some "VT"
  else if name = "virginia" then some "VA"
  else if name = "washington" then some "WA"
  else if name = "west virginia" then some "WV"
  else if name = "wisconsin" then some "WI"
  else if name = "wyoming" then some "WY"
  else if name = "district of columbia" then some "DC"
  else none

/-- The character class `[a-z]`. -/
def isLowerAZ (c : Char) : Bool :=
  decide ('a'.toNat ≤ c.toNat) && decide (c.toNat ≤ 'z'.toNat)

/-- The character class `[0-9]` (the complement of `\D`). -/
def isDigit09 (c : Char) : Bool :=
  decide ('0'.toNat ≤ c.toNat) && decide (c.toNat ≤ '9'.toNat)

/-- The function `normalizeState`; its last line is
`stateMap[normalized] || state.toUpperCase()`, where every written entry is a
non-empty string and an inherited property is truthy. -/
def normalizeState (state : Option String) : Dynamic String :=
  match state with
  | none => .typed ""
  | some s =>
    if s = "" then .typed ""
    else
      let normalized := toLowerCase (trim s.data)
      if normalized.length = 2 ∧ normalized.all isLowerAZ then
        .typed (String.mk (toUpperCase normalized))
      else
        match getProperty stateMap (String.mk normalized) with
        | some abbr => abbr
        | none => .typed (String.mk (toUpperCase s.data))

/-- The function `normalizeZipCode`: `zipCode.replace(/\D/g, '').substring(0, 5)`. -/
def normalizeZipCode (zipCode : Option String) : String :=
  match zipCode with
  | none => ""
  | some s =>
    if s = "" then ""
    else
      let digits := s.data.filter isDigit09
      String.mk (digits.take 5)

/-- The function `normalizeNumber`. -/
def normalizeNumber (number : Option String) : String :=
  match number with
  | none => ""
  | some s => if s = "" then "" else String.mk (trim s.data)

/-! ## `src/config/env.js` -/

/-- The constant `config.confidenceThreshold`. -/
def confidenceThreshold : ℚ := 7 / 10

/-! ## Data model of `src/services/addressValidation.service.js` -/

/-- The typedef `AddressComponents` as returned by a provider (raw values; a
field may be absent) . -/
structure RawComponents where
  number : Option String
  street : Option String
  city : Option String
  state : Option String
  zipCode : Option String
  deriving DecidableEq

/-- The object `standardized` of a validation response. -/
structure AddressComponents where
  number : String
  street : String
  city : String
  state : String
  zipCode : String
  deriving DecidableEq

/-- The object literal `standardized` as `validateAddress` builds it: the
normalized city and state may be inherited properties. -/
structure StandardizedValues where
  number : String
  street : String
  city : Dynamic String
  state : Dynamic String
  zipCode : String
  deriving DecidableEq

/-- The object `standardized` when each of its five values is a string. -/
def StandardizedValues.strings (standardized : StandardizedValues) :
    Option AddressComponents :=
  match standardized.city, standardized.state with
  | .typed city, .typed state =>
    some { number := standardized.number, street := standardized.street, city := city,
           state := state, zipCode := standardized.zipCode }
  | _, _ => none

/-- One entry of `address_components` in a geocoding result. -/
structure AddressComponent where
  long_name : Option String
  short_name : Option String
  types : Option (List String)
  deriving DecidableEq

/-- The object `geometry` of a geocoding result. -/
structure Geometry where
  location_type : Option String
  deriving DecidableEq

/-- One geocoding result; the service itself reads only `formatted_address`,
everything else goes through the provider. -/
structure RawResult where
  formatted_address : Option String
  address_components : Option (List AddressComponent)
  geometry : Option Geometry
  deriving DecidableEq

/-- The typedef `GeocodeResult`: what the provider's `validateAddress`
resolves to. -/
structure GeocodeResult where
  status : Option String
  results : Option (List RawResult)
  deriving DecidableEq

/-- The four operations of `AddressProvider`; each of them may throw. -/
structure Provider where
  validateAddress : String → Except String GeocodeResult
  extractAddressComponents : RawResult → Except String RawComponents
  getLocationType : RawResult → Except String String
  getProviderName : Unit → Except String String

/-- The response object of the service; `reason` is absent on the scored
path. -/
structure ValidationResult where
  status : String
  original : String
  standardized : AddressComponents
  confidence : JSNumber
  provider : String
  reason : Option String
  deriving DecidableEq

/-! ## `AddressValidationService` -/

/-- The expression `Math.round(confidence * 100) / 100`; `Math.round(x)` is
`floor(x + 0.5)`. -/
def roundTwoDecimals (confidence : ℚ) : ℚ :=
  (⌊confidence * 100 + 1 / 2⌋ : ℤ) / 100

/-- The same expression on a confidence that may be `NaN`: `NaN * 100`,
`Math.round(NaN)` and `NaN / 100` are `NaN`. -/
def JSNumber.roundTwoDecimals (confidence : JSNumber) : JSNumber :=
  match confidence with
  | .number value => .number (AddressValidation.roundTwoDecimals value)
  | .nan => .nan

/-- The comparison `confidence < threshold`, which is false on `NaN`. -/
def JSNumber.lt (confidence : JSNumber) (threshold : ℚ) : Bool :=
  match confidence with
  | .number value => decide (value < threshold)
  | .nan => false

/-- The method `createUnverifiableResponse`; the only fallible step is the call
of `getProviderName`. -/
def createUnverifiableResponse (provider : Provider) (address : Option String)
    (reason : String) : Except String ValidationResult := do
  let name ← provider.getProviderName ()
  pure
    { status := "unverifiable"
      original := address.getD ""
      standardized := { street := "", number := "", city := "", state := "", zipCode := "" }
      confidence := .number 0
      provider := name
      reason := some reason }

/-- The method `checkExactMatch`. -/
def checkExactMatch (original formatted : Option String) : Bool :=
  match original, formatted with
  | some o, some f =>
    if o = "" ∨ f = "" then false
    else
      let normalize := fun (str : String) =>
        (toLowerCase str.data).filter (fun c => isLowerAZ c || isDigit09 c)
      let normalizedOriginal := normalize o
      let normalizedFormatted := normalize f
      includes normalizedFormatted normalizedOriginal ||
        includes normalizedOriginal normalizedFormatted
  | _, _ => false

/-- The loop body of `calculateComponentMatchRatio` over the remaining
component values, threading the counters `(matches, total)`. -/
def countMatches (originalLower : List Char) :
    List String → Nat × Nat → Nat × Nat
  | [], acc => acc
  | value :: rest, (matched, total) =>
    if value = "" then countMatches originalLower rest (matched, total)
    else if includes originalLower (toLowerCase value.data) then
      countMatches originalLower rest (matched + 1, total + 1)
    else countMatches originalLower rest (matched, total + 1)

/-- The method `calculateComponentMatchRatio`. -/
def calculateComponentMatchRatio (original : String)
    (standardized : AddressComponents) : ℚ :=
  let originalLower := toLowerCase original.data
  let components :=
    [standardized.number, standardized.street, standardized.city,
      standardized.state, standardized.zipCode]
  let counts := countMatches originalLower components (0, 0)
  if counts.2 > 0 then (counts.1 : ℚ) / (counts.2 : ℚ) else 0

/-- The `&&` chain computing `hasAllComponents`, read as a truth value, on an
object whose five values are strings. -/
def hasAllComponents (standardized : AddressComponents) : Bool :=
  standardized.number != "" && standardized.street != "" &&
    standardized.city != "" && standardized.state != "" &&
    standardized.zipCode != ""

/-- The object literal `standardized` of `validateAddress`: every raw component
goes through its normalizer. -/
def standardize (rawComponents : RawComponents) : StandardizedValues :=
  { number := normalizeNumber rawComponents.number
    street := normalizeStreet rawComponents.street
    city := normalizeCity rawComponents.city
    state := normalizeState rawComponents.state
    zipCode := normalizeZipCode rawComponents.zipCode }

/-- The `try` block of `validateAddress`; an `Except.error` is an exception
that reaches the `catch` clause.  The two cardinality tests and `results[0]`
are one case distinction on the list of results.  `calculateComponentMatchRatio`
calls `value.toLowerCase()` on each of the five values that is truthy: when the
city or the state is an inherited property this is a `TypeError`; otherwise the
five values are strings.  The `&&` chain `hasAllComponents` is evaluated before
that call and only used after it, so it is written after it, on strings. -/
def validateAddressTry (provider : Provider) (address : Option String) :
    Except String ValidationResult :=
  if !isValidNonEmptyString address then
    createUnverifiableResponse provider address "Address is required"
  else do
    let trimmedAddress := String.mk (trim (address.getD "").data)
    let geocodeResult ← provider.validateAddress trimmedAddress
    if geocodeResult.status = some "ZERO_RESULTS" then
      createUnverifiableResponse provider (some trimmedAddress) "No results found"
    else
      match geocodeResult.results with
      | none =>
        createUnverifiableResponse provider (some trimmedAddress) "No results found"
      | some [] =>
        createUnverifiableResponse provider (some trimmedAddress) "No results found"
      | some (_ :: _ :: _) =>
        createUnverifiableResponse provider (some trimmedAddress) "Multiple matches found"
      | some [result] => do
        let rawComponents ← provider.extractAddressComponents result
        let locationType ← provider.getLocationType result
        let googleAccuracy := mapGoogleLocationTypeToAccuracy locationType
        let isExactMatch := checkExactMatch (some trimmedAddress) result.formatted_address
        match (standardize rawComponents).strings with
        | none => throw "value.toLowerCase is not a function"
        | some standardized =>
          let hasAll := hasAllComponents standardized
          let componentMatchRatio := calculateComponentMatchRatio trimmedAddress standardized
          let confidence :=
            calculateConfidenceOf hasAll googleAccuracy isExactMatch componentMatchRatio
          let status :=
            if confidence.lt confidenceThreshold then "unverifiable"
            else if isExactMatch && hasAll then "valid"
            else "corrected"
          let name ← provider.getProviderName ()
          pure
            { status := status
              original := trimmedAddress
              standardized := standardized
              confidence := confidence.roundTwoDecimals
              provider := name
              reason := none }

/-- The method `validateAddress`: the `try` block, and the `catch` clause that
builds the response from the caught error's message.  The result is
`Except.error` exactly when the returned promise is rejected. -/
def validateAddress (provider : Provider) (address : Option String) :
    Except String ValidationResult :=
  match validateAddressTry provider address with
  | .ok response => .ok response
  | .error message =>
    createUnverifiableResponse provider address ("Validation error: " ++ message)

/-! ## `src/services/providers/google.provider.js` -/

/-- The body parsed by `response.json()`. -/
structure UpstreamData where
  status : Option String
  results : Option (List RawResult)
  deriving DecidableEq

/-- What `fetch` resolves to: the fields read by the provider, and the outcome
of `response.json()`, which may throw. -/
structure HttpResponse where
  ok : Bool
  status : Nat
  statusText : String
  json : Except String UpstreamData

/-- The `try` block of `GoogleProvider.validateAddress`; `fetch` is the
upstream call as a function of the `address` query parameter, and may throw. -/
def GoogleProvider.request (fetch : String → Except String HttpResponse)
    (address : String) : Except String GeocodeResult := do
  let response ← fetch (String.mk (trim address.data))
  if !response.ok then
    throw ("Google Geocoding API error: " ++ toString response.status ++ " "
      ++ response.statusText)
  else
    let data ← response.json
    if data.status = some "REQUEST_DENIED" then
      throw "Google Geocoding API key is invalid or quota exceeded"
    else if data.status = some "ZERO_RESULTS" then
      pure { results := some [], status := some "ZERO_RESULTS" }
    else if data.status ≠ some "OK" ∧ data.status ≠ some "ZERO_RESULTS" then
      throw ("Google Geocoding API error: " ++ data.status.getD "undefined")
    else
      pure { results := some (data.results.getD []), status := data.status }

/-- The method `GoogleProvider.validateAddress`: the input check, the `try`
block, and the `catch` clause that rethrows an error whose message contains
`API` and wraps every other one. -/
def GoogleProvider.validateAddress (fetch : String → Except String HttpResponse)
    (address : Option String) : Except String GeocodeResult :=
  if !isValidNonEmptyString address then
    .error "Address is required and must be a non-empty string"
  else
    match GoogleProvider.request fetch (address.getD "") with
    | .ok geocodeResult => .ok geocodeResult
    | .error message =>
      if includes message.data "API".data then .error message
      else .error ("Failed to call Google Geocoding API: " ++ message)

/-- One iteration of the loop of `GoogleProvider.extractAddressComponents`;
reading `includes` of an absent `types` throws a `TypeError`. -/
def GoogleProvider.extractStep (extracted : RawComponents)
    (component : AddressComponent) : Except String RawComponents :=
  match component.types with
  | none => .error "Cannot read properties of undefined (reading 'includes')"
  | some types =>
    if types.contains "street_number" then
      .ok { extracted with number := component.long_name }
    else if types.contains "route" then
      .ok { extracted with street := component.long_name }
    else if types.contains "locality" then
      .ok { extracted with city := component.long_name }
    else if types.contains "administrative_area_level_1" then
      .ok { extracted with state := component.short_name }
    else if types.contains "postal_code" then
      .ok { extracted with zipCode := component.long_name }
    else .ok extracted

/-- The loop of `GoogleProvider.extractAddressComponents`. -/
def GoogleProvider.extractLoop :
    List AddressComponent → RawComponents → Except String RawComponents
  | [], extracted => .ok extracted
  | component :: rest, extracted =>
    match GoogleProvider.extractStep extracted component with
    | .ok next => GoogleProvider.extractLoop rest next
    | .error message => .error message

/-- The method `GoogleProvider.extractAddressComponents`. -/
def GoogleProvider.extractAddressComponents (result : Option RawResult) :
    Except String RawComponents :=
  let empty : RawComponents :=
    { number := some "", street := some "", city := some "", state := some "",
      zipCode := some "" }
  match result with
  | none => .ok empty
  | some r =>
    match r.address_components with
    | none => .ok empty
    | some components => GoogleProvider.extractLoop components empty

/-- The method `GoogleProvider.getLocationType`:
`result?.geometry?.location_type || 'APPROXIMATE'`. -/
def GoogleProvider.getLocationType (result : Option RawResult) : String :=
  match result with
  | none => "APPROXIMATE"
  | some r =>
    match r.geometry with
    | none => "APPROXIMATE"
    | some geometry =>
      match geometry.location_type with
      | none => "APPROXIMATE"
      | some locationType => if locationType = "" then "APPROXIMATE" else locationType

/-- The method `GoogleProvider.getProviderName`. -/
def GoogleProvider.getProviderName : String := "google-geocoding"

/-- The class `GoogleProvider` as a provider of the service, for a given
upstream `fetch`. -/
def googleProvider (fetch : String → Except String HttpResponse) : Provider :=
  { validateAddress := fun address => GoogleProvider.validateAddress fetch (some address)
    extractAddressComponents := fun result =>
      GoogleProvider.extractAddressComponents (some result)
    getLocationType := fun result => .ok (GoogleProvider.getLocationType (some result))
    getProviderName := fun _ => .ok GoogleProvider.getProviderName }

/-- The class `AddressProvider` itself (the abstract interface of
`addressProvider.interface.js`): each of its four methods throws. -/
def abstractProvider : Provider :=
  { validateAddress := fun _ => .error "validateAddress must be implemented by provider"
    extractAddressComponents := fun _ =>
      .error "extractAddressComponents must be implemented by provider"
    getLocationType := fun _ => .error "getLocationType must be implemented by provider"
    getProviderName := fun _ => .error "getProviderName must be implemented by provider" }

/-- The geocoding result used by the service tests `should return valid status
for perfect match` and `should return corrected status for address with typos`. -/
def rooftopResult : RawResult :=
  { formatted_address := some "1600 Amphitheatre Parkway, Mountain View, CA 94043, USA"
    address_components := some
      [ { long_name := some "1600", short_name := none, types := some ["street_number"] },
        { long_name := some "Amphitheatre Parkway", short_name := none,
          types := some ["route"] },
        { long_name := some "Mountain View", short_name := none, types := some ["locality"] },
        { long_name := none, short_name := some "CA",
          types := some ["administrative_area_level_1"] },
        { long_name := some "94043", short_name := none, types := some ["postal_code"] } ]
    geometry := some { location_type := some "ROOFTOP" } }

/-- The raw components returned by the mock of those two tests. -/
def rooftopComponents : RawComponents :=
  { number := some "1600"
    street := some "Amphitheatre Parkway"
    city := some "Mountain View"
    state := some "CA"
    zipCode := some "94043" }

/-- The mock provider of those two tests. -/
def rooftopProvider : Provider :=
  { validateAddress := fun _ => .ok { status := some "OK", results := some [rooftopResult] }
    extractAddressComponents := fun _ => .ok rooftopComponents
    getLocationType := fun _ => .ok "ROOFTOP"
    getProviderName := fun _ => .ok "google-geocoding" }

/-- The geocoding result used by the service test `should return unverifiable
for low confidence`. -/
def approximateResult : RawResult :=
  { formatted_address := some "Approximate Location"
    address_components := some
      [ { long_name := some "City", short_name := none, types := some ["locality"] } ]
    geometry := some { location_type := some "APPROXIMATE" } }

/-- The raw components returned by the mock of that test. -/
def approximateComponents : RawComponents :=
  { number := some "", street := some "", city := some "City", state := some "",
    zipCode := some "" }

/-- The mock provider of that test. -/
def approximateProvider : Provider :=
  { validateAddress := fun _ =>
      .ok { status := some "OK", results := some [approximateResult] }
    extractAddressComponents := fun _ => .ok approximateComponents
    getLocationType := fun _ => .ok "APPROXIMATE"
    getProviderName := fun _ => .ok "google-geocoding" }

/-- The mock provider of the service test `should return unverifiable for zero
results`; its extraction and accuracy operations are never configured. -/
def zeroResultsProvider : Provider :=
  { validateAddress := fun _ => .ok { status := some "ZERO_RESULTS", results := some [] }
    extractAddressComponents := fun _ => .error "not configured"
    getLocationType := fun _ => .error "not configured"
    getProviderName := fun _ => .ok "google-geocoding" }

/-- The two results of the service test `should return unverifiable for
multiple results`. -/
def ambiguousResults : List RawResult :=
  [ { formatted_address := some "Address 1", address_components := none, geometry := none },
    { formatted_address := some "Address 2", address_components := none, geometry := none } ]

/-- The mock provider of that test; its extraction and accuracy operations are
never configured. -/
def ambiguousProvider : Provider :=
  { validateAddress := fun _ => .ok { status := some "OK", results := some ambiguousResults }
    extractAddressComponents := fun _ => .error "not configured"
    getLocationType := fun _ => .error "not configured"
    getProviderName := fun _ => .ok "google-geocoding" }

/-- The mock provider of the service test `should handle provider errors
gracefully`: the lookup rejects with `new Error('API Error')`. -/
def failingProvider : Provider :=
  { validateAddress := fun _ => .error "API Error"
    extractAddressComponents := fun _ => .error "not configured"
    getLocationType := fun _ => .error "not configured"
    getProviderName := fun _ => .ok "google-geocoding" }

/-- An upstream that answers every request with the rooftop result of the
service tests. -/
def rooftopFetch : String → Except String HttpResponse :=
  fun _ =>
    .ok { ok := true, status := 200, statusText := "OK"
          json := .ok { status := some "OK", results := some [rooftopResult] } }

/-- A geocoding result with one entry that lacks its `types` list. -/
def untypedEntryResult : RawResult :=
  { formatted_address := some "1600 Amphitheatre Parkway"
    address_components := some
      [ { long_name := some "1600", short_name := some "1600", types := none } ]
    geometry := none }

/-- The all-empty structure returned by the guards of
`GoogleProvider.extractAddressComponents`. -/
def emptyRawComponents : RawComponents :=
  { number := some "", street := some "", city := some "", state := some "",
    zipCode := some "" }

/-! ## Expected records of the service tests -/

/-- The record returned for the low-confidence test input. -/
def approximateResponse : ValidationResult :=
  { status := "unverifiable"
    original := "city only"
    standardized := { number := "", street := "", city := "City", state := "", zipCode := "" }
    confidence := .number (6 / 10)
    provider := "google-geocoding"
    reason := none }

/-- The record returned for the input of the test `should return corrected
status for address with typos`. -/
def typoResponse : ValidationResult :=
  { status := "corrected"
    original := "1600 amphitheatre pkwy mountain view ca"
    standardized :=
      { number := "1600", street := "Amphitheatre Pkwy", city := "Mountain View",
        state := "CA", zipCode := "94043" }
    confidence := .number (88 / 100)
    provider := "google-geocoding"
    reason := none }

/-- The record returned for the input of the test `should return valid status
for perfect match`. -/
def perfectResponse : ValidationResult :=
  { status := "valid"
    original := "1600 Amphitheatre Parkway, Mountain View, CA 94043"
    standardized :=
      { number := "1600", street := "Amphitheatre Pkwy", city := "Mountain View",
        state := "CA", zipCode := "94043" }
    confidence := .number 1
    provider := "google-geocoding"
    reason := none }

/-! ## `src/utils/errorHandler.js` -/

/-- The object built by `createErrorResponse`. -/
structure ErrorResponse where
  error : String
  message : String
  statusCode : Nat
  deriving DecidableEq

/-- The function `createErrorResponse`. -/
def createErrorResponse (error message : String) (statusCode : Nat) : ErrorResponse :=
  { error := error, message := message, statusCode := statusCode }

/-- The entry `ErrorResponses.INVALID_REQUEST`. -/
def ErrorResponses.INVALID_REQUEST (message : String) : ErrorResponse :=
  createErrorResponse "Invalid request" message 400

/-- The error object received by `handleError`; its `message` may be absent. -/
structure ErrorObject where
  message : Option String
  deriving DecidableEq

/-- What `res.status(code).json(body)` sends for an error body. -/
structure ErrorReply where
  status : Nat
  body : ErrorResponse
  deriving DecidableEq

/-- The test `error.message?.includes(text)`, read as a truth value. -/
def messageIncludes (error : ErrorObject) (text : String) : Bool :=
  match error.message with
  | none => false
  | some message => includes message.data text.data

/-- The function `handleError`; the call of the logger only writes to the
console. -/
def handleError (error : ErrorObject) : ErrorReply :=
  let statusCode : Nat := 500
  let message : String := "An unexpected error occurred"
  let (statusCode, message) :=
    if messageIncludes error "required" || messageIncludes error "Invalid" then
      (400, error.message.getD "")
    else if messageIncludes error "not found" then
      (404, error.message.getD "")
    else (statusCode, message)
  let errorResponse := createErrorResponse "Internal server error" message statusCode
  { status := statusCode, body := errorResponse }

/-! ## `src/controllers/validateAddress.controller.js` -/

/-- The request as read by the controller: the value of `req.body.address`,
`none` when it is absent or not a string. -/
structure Request where
  address : Option String
  deriving DecidableEq

/-- The body passed to `res.json`: an error response or the record of the
service. -/
inductive ResponseBody where
  | error (response : ErrorResponse)
  | record (result : ValidationResult)
  deriving DecidableEq

/-- One run of the controller: the status and body sent, and the arguments of
the calls made to the validation service, in order. -/
structure ControllerRun where
  status : Nat
  body : ResponseBody
  serviceCalls : List String
  deriving DecidableEq

/-- The method `ValidateAddressController.validateAddress`, for a validation
service given as a function that may throw. -/
def ValidateAddressController.validateAddress
    (service : String → Except String ValidationResult) (req : Request) : ControllerRun :=
  let address := req.address
  if !isValidNonEmptyString address then
    let errorResponse :=
      ErrorResponses.INVALID_REQUEST "Address is required and must be a non-empty string"
    { status := errorResponse.statusCode, body := .error errorResponse, serviceCalls := [] }
  else
    match service (address.getD "") with
    | .ok result =>
      { status := 200, body := .record result, serviceCalls := [address.getD ""] }
    | .error message =>
      let reply := handleError { message := some message }
      { status := reply.status, body := .error reply.body,
        serviceCalls := [address.getD ""] }

/-- The service instance of the controller module:
`new AddressValidationService()`, whose provider is a `GoogleProvider`. -/
def addressValidationService (fetch : String → Except String HttpResponse) :
    String → Except String ValidationResult :=
  fun address => validateAddress (googleProvider fetch) (some address)

/-- The mocked service of the controller test `should handle service errors
and return 500`: it rejects with `new Error('Service error')`. -/
def rejectingService : String → Except String ValidationResult :=
  fun _ => .error "Service error"

/-! ## Vocabulary of the statements -/

/-- The string passed to the provider: `address.trim()`. -/
def trimmed (address : Option String) : String :=
  String.mk (trim (address.getD "").data)

/-- The all-empty `standardized` object of an unverifiable response. -/
def emptyComponents : AddressComponents :=
  { street := "", number := "", city := "", state := "", zipCode := "" }

/-- The record built by `createUnverifiableResponse` for a provider named
`name`. -/
def unverifiableResponse (original reason name : String) : ValidationResult :=
  { status := "unverifiable"
    original := original
    standardized := emptyComponents
    confidence := .number 0
    provider := name
    reason := some reason }

/-- The value of `isExactMatch` in a run of `validateAddress` that reaches the
scoring step. -/
def exactMatchOf (address : Option String) (result : RawResult) : Bool :=
  checkExactMatch (some (trimmed address)) result.formatted_address

/-- The value of `confidence` (before rounding) in a run of `validateAddress`
that reaches the scoring step with the standardized strings `standardized`. -/
def confidenceOf (address : Option String) (result : RawResult)
    (standardized : AddressComponents) (locationType : String) : JSNumber :=
  calculateConfidenceOf (hasAllComponents standardized)
    (mapGoogleLocationTypeToAccuracy locationType)
    (exactMatchOf address result)
    (calculateComponentMatchRatio (trimmed address) standardized)

/-- The value of `status` in a run of `validateAddress` that reaches the
scoring step. -/
def statusOf (address : Option String) (result : RawResult)
    (standardized : AddressComponents) (locationType : String) : String :=
  if (confidenceOf address result standardized locationType).lt confidenceThreshold then
    "unverifiable"
  else if exactMatchOf address result && hasAllComponents standardized then
    "valid"
  else "corrected"

/-- The record returned by a run of `validateAddress` that reaches the scoring
step. -/
def scoredResponse (address : Option String) (result : RawResult)
    (standardized : AddressComponents) (locationType name : String) : ValidationResult :=
  { status := statusOf address result standardized locationType
    original := trimmed address
    standardized := standardized
    confidence := (confidenceOf address result standardized locationType).roundTwoDecimals
    provider := name
    reason := none }

/-- A run reaches the scoring step: the input is accepted, the lookup resolves
without the zero-result status and with exactly one result, the extraction and
accuracy operations return, and the five normalized components are the strings
of `standardized`, so that `calculateComponentMatchRatio` returns. -/
def ReachesScoring (provider : Provider) (address : Option String)
    (result : RawResult) (rawComponents : RawComponents) (locationType : String)
    (standardized : AddressComponents) : Prop :=
  isValidNonEmptyString address = true ∧
  (∃ geocodeResult, provider.validateAddress (trimmed address) = .ok geocodeResult ∧
    geocodeResult.status ≠ some "ZERO_RESULTS" ∧ geocodeResult.results = some [result]) ∧
  provider.extractAddressComponents result = .ok rawComponents ∧
  provider.getLocationType result = .ok locationType ∧
  (standardize rawComponents).strings = some standardized

/-- The string returned on the title-case path of `normalizeCity`. -/
def titleCase (s : String) : String :=
  String.mk (joinSpace ((splitWhitespace (toLowerCase s.data)).map capitalize))

/-- The normalization `n(s)` of the exact-match heuristic in the words of the
specification: `s` lower-cased, with every character outside `a-z` and `0-9`
removed. -/
def alphanumericLower (s : String) : List Char :=
  (toLowerCase s.data).filter
    (fun c => decide (('a' ≤ c ∧ c ≤ 'z') ∨ ('0' ≤ c ∧ c ≤ '9')))

/-- The five component values of a `standardized` object, in the order
number, street, city, state, zipCode. -/
def componentValues (standardized : AddressComponents) : List String :=
  [standardized.number, standardized.street, standardized.city, standardized.state,
    standardized.zipCode]

/-- The number of the five fields that are non-empty. -/
def presentCount (standardized : AddressComponents) : Nat :=
  (componentValues standardized).countP (fun value => decide (value ≠ ""))

/-- The number of the five fields that are non-empty and whose lower-cased
value is a contiguous substring of the lower-cased original. -/
def hitCount (original : String) (standardized : AddressComponents) : Nat :=
  (componentValues standardized).countP
    (fun value => decide (value ≠ "" ∧
      toLowerCase value.data <:+: toLowerCase original.data))

/-- The street-type table in the words of the specification: each street
type and its existing abbreviation, with the canonical abbreviation. -/
def streetTypeTable : List (String × String) :=
  [("street", "St"), ("st", "St"), ("avenue", "Ave"), ("ave", "Ave"),
    ("boulevard", "Blvd"), ("blvd", "Blvd"), ("drive", "Dr"), ("dr", "Dr"),
    ("lane", "Ln"), ("ln", "Ln"), ("court", "Ct"), ("ct", "Ct"),
    ("parkway", "Pkwy"), ("pkwy", "Pkwy"), ("place", "Pl"), ("pl", "Pl"),
    ("circle", "Cir"), ("cir", "Cir"), ("road", "Rd"), ("rd", "Rd")]

/-- The exception table of city names in the words of the specification. -/
def cityExceptionTable : List (String × String) :=
  [("new york", "New York"), ("los angeles", "Los Angeles"),
    ("san francisco", "San Francisco"), ("san diego", "San Diego"),
    ("las vegas", "Las Vegas")]

/-! ## Vocabulary and fixtures of the later properties -/

/-- The five component types read by `GoogleProvider.extractAddressComponents`. -/
def fieldTypes : List String :=
  ["street_number", "route", "locality", "administrative_area_level_1", "postal_code"]

/-- The test `component.types.includes(type)` on an entry that has a `types`
list; false on an entry without one. -/
def hasType (component : AddressComponent) (type : String) : Bool :=
  match component.types with
  | some types => types.contains type
  | none => false

/-- An entry of `address_components` that has a `types` list carrying at most
one of the five component types. -/
def SingleTyped (component : AddressComponent) : Prop :=
  component.types ≠ none ∧
  ∀ t ∈ fieldTypes, ∀ u ∈ fieldTypes,
    hasType component t = true → hasType component u = true → t = u

/-- Entries of a geocoding result with a street number, a route and a state, and
no locality or postal code. -/
def partialTypedComponents : List AddressComponent :=
  [ { long_name := some "1600", short_name := some "1600",
      types := some ["street_number"] },
    { long_name := some "Amphitheatre Parkway", short_name := some "Amphitheatre Pkwy",
      types := some ["route"] },
    { long_name := some "United States", short_name := some "US",
      types := some ["country", "political"] },
    { long_name := some "California", short_name := some "CA",
      types := some ["administrative_area_level_1", "political"] } ]

/-- Raw result carrying `partialTypedComponents`. -/
def partialTypedResult : RawResult :=
  { formatted_address := some "1600 Amphitheatre Parkway, CA, USA",
    address_components := some partialTypedComponents,
    geometry := some { location_type := some "ROOFTOP" } }

/-- A geocoding result whose formatted address has no letter `k`. -/
def bostonResult : RawResult :=
  { formatted_address := some "1 Main St, Boston, MA 02101, USA"
    address_components := some
      [ { long_name := some "1", short_name := some "1", types := some ["street_number"] },
        { long_name := some "Main Street", short_name := some "Main St",
          types := some ["route"] },
        { long_name := some "Boston", short_name := some "Boston",
          types := some ["locality", "political"] },
        { long_name := some "Massachusetts", short_name := some "MA",
          types := some ["administrative_area_level_1", "political"] },
        { long_name := some "02101", short_name := some "02101",
          types := some ["postal_code"] } ]
    geometry := some { location_type := some "ROOFTOP" } }

/-- The raw components of `bostonResult`. -/
def bostonComponents : RawComponents :=
  { number := some "1"
    street := some "Main Street"
    city := some "Boston"
    state := some "MA"
    zipCode := some "02101" }

/-- A provider that answers every lookup with `bostonResult`. -/
def bostonProvider : Provider :=
  { validateAddress := fun _ => .ok { status := some "OK", results := some [bostonResult] }
    extractAddressComponents := fun _ => .ok bostonComponents
    getLocationType := fun _ => .ok "ROOFTOP"
    getProviderName := fun _ => .ok "google-geocoding" }

/-- The normalized components of `bostonResult`. -/
def bostonStandardized : AddressComponents :=
  { number := "1", street := "Main St", city := "Boston", state := "MA", zipCode := "02101" }

/-- The normalized components of the rooftop result. -/
def rooftopStandardized : AddressComponents :=
  { number := "1600", street := "Amphitheatre Pkwy", city := "Mountain View",
    state := "CA", zipCode := "94043" }

/-- The normalized components of the low-confidence test. -/
def approximateStandardized : AddressComponents :=
  { number := "", street := "", city := "City", state := "", zipCode := "" }

/-- The record returned for the perfect-match input when the provider reports
the accuracy tier `constructor`. -/
def inheritedTierResponse : ValidationResult :=
  { status := "valid"
    original := "1600 Amphitheatre Parkway, Mountain View, CA 94043"
    standardized := rooftopStandardized
    confidence := .nan
    provider := "google-geocoding"
    reason := none }

/-- A provider that answers every lookup with the rooftop result of the service
tests and reports the accuracy tier `constructor`. -/
def inheritedTierProvider : Provider :=
  { validateAddress := fun _ => .ok { status := some "OK", results := some [rooftopResult] }
    extractAddressComponents := fun _ => .ok rooftopComponents
    getLocationType := fun _ => .ok "constructor"
    getProviderName := fun _ => .ok "google-geocoding" }

/-- Raw components whose city is named `Constructor`. -/
def inheritedCityComponents : RawComponents :=
  { number := some "1"
    street := some "Main Street"
    city := some "Constructor"
    state := some "MA"
    zipCode := some "02101" }

/-- A geocoding result for an address in a city named `Constructor`. -/
def inheritedCityResult : RawResult :=
  { formatted_address := some "1 Main St, Constructor, MA 02101, USA"
    address_components := none
    geometry := some { location_type := some "ROOFTOP" } }

/-- A provider that answers every lookup with `inheritedCityResult`. -/
def inheritedCityProvider : Provider :=
  { validateAddress := fun _ =>
      .ok { status := some "OK", results := some [inheritedCityResult] }
    extractAddressComponents := fun _ => .ok inheritedCityComponents
    getLocationType := fun _ => .ok "ROOFTOP"
    getProviderName := fun _ => .ok "google-geocoding" }

/-! ## Properties of the confidence score -/

/-- C1: for every provider accuracy `a`, component match ratio `r` and every
pair of booleans, `calculateConfidence` returns
`min(1, max(0, 0.4*a + (0.4 if hasAllComponents else 0.3*r) + (0.2 if isExactMatch else 0.1*r)))`. -/
theorem calculateConfidence_eq_clamped_weighted_sum (a r : ℚ) (hasAll isExact : Bool) :
    calculateConfidence hasAll a isExact r =
      min 1 (max 0 (4 / 10 * a + (if hasAll then 4 / 10 else 3 / 10 * r)
        + (if isExact then 2 / 10 else 1 / 10 * r))) := by
  cases hasAll <;> cases isExact <;>
    simp only [calculateConfidence, GOOGLE_ACCURACY, COMPONENT_COMPLETENESS_FULL,
      COMPONENT_COMPLETENESS_PARTIAL, EXACT_MATCH_BONUS, PARTIAL_MATCH_REDUCED,
      if_true, if_false, Bool.false_eq_true] <;>
    congr 2 <;> ring

/-- Clamping leaves a value of `[0, 1]` unchanged. -/
lemma clamp_eq (x : ℚ) (h0 : 0 ≤ x) (h1 : x ≤ 1) : min 1 (max 0 x) = x := by
  rw [max_eq_right h0, min_eq_right h1]

/-- Clamping to `[0, 1]` is monotone. -/
lemma clamp_mono {x y : ℚ} (h : x ≤ y) : min 1 (max 0 x) ≤ min 1 (max 0 y) :=
  min_le_min le_rfl (max_le_max le_rfl h)

/-- C2: `calculateConfidence` is monotonically non-decreasing in each of its
four inputs, the others held fixed, for accuracies and ratios in `[0, 1]`:
raising the accuracy, raising the ratio, switching `hasAllComponents` from
false to true, or switching `isExactMatch` from false to true never lowers the
score. -/
theorem calculateConfidence_monotone (a a' r r' : ℚ) (hasAll isExact : Bool)
    (ha : 0 ≤ a ∧ a ≤ 1) (ha' : 0 ≤ a' ∧ a' ≤ 1)
    (hr : 0 ≤ r ∧ r ≤ 1) (hr' : 0 ≤ r' ∧ r' ≤ 1) :
    (a ≤ a' → calculateConfidence hasAll a isExact r ≤ calculateConfidence hasAll a' isExact r) ∧
    (r ≤ r' → calculateConfidence hasAll a isExact r ≤ calculateConfidence hasAll a isExact r') ∧
    calculateConfidence false a isExact r ≤ calculateConfidence true a isExact r ∧
    calculateConfidence hasAll a false r ≤ calculateConfidence hasAll a true r := by
  obtain ⟨_, _⟩ := ha
  obtain ⟨_, _⟩ := ha'
  obtain ⟨_, hr1⟩ := hr
  obtain ⟨_, _⟩ := hr'
  refine ⟨fun h => ?_, fun h => ?_, ?_, ?_⟩
  · cases hasAll <;> cases isExact <;>
      simp only [calculateConfidence, GOOGLE_ACCURACY, COMPONENT_COMPLETENESS_FULL,
        COMPONENT_COMPLETENESS_PARTIAL, EXACT_MATCH_BONUS, PARTIAL_MATCH_REDUCED,
        if_true, if_false, Bool.false_eq_true] <;>
      apply clamp_mono <;> linarith
  · cases hasAll <;> cases isExact <;>
      simp only [calculateConfidence, GOOGLE_ACCURACY, COMPONENT_COMPLETENESS_FULL,
        COMPONENT_COMPLETENESS_PARTIAL, EXACT_MATCH_BONUS, PARTIAL_MATCH_REDUCED,
        if_true, if_false, Bool.false_eq_true] <;>
      apply clamp_mono <;> linarith
  · cases isExact <;>
      simp only [calculateConfidence, GOOGLE_ACCURACY, COMPONENT_COMPLETENESS_FULL,
        COMPONENT_COMPLETENESS_PARTIAL, EXACT_MATCH_BONUS, PARTIAL_MATCH_REDUCED,
        if_true, if_false, Bool.false_eq_true] <;>
      apply clamp_mono <;> linarith
  · cases hasAll <;>
      simp only [calculateConfidence, GOOGLE_ACCURACY, COMPONENT_COMPLETENESS_FULL,
        COMPONENT_COMPLETENESS_PARTIAL, EXACT_MATCH_BONUS, PARTIAL_MATCH_REDUCED,
        if_true, if_false, Bool.false_eq_true] <;>
      apply clamp_mono <;> linarith

/-- Witness for C2 at accuracies `0.5 ≤ 0.85` and ratios `0.2 ≤ 0.6`. -/
theorem calculateConfidence_monotone_witness :
    ((0 : ℚ) ≤ 1 / 2 ∧ (1 / 2 : ℚ) ≤ 1) ∧ ((0 : ℚ) ≤ 85 / 100 ∧ (85 / 100 : ℚ) ≤ 1) ∧
    ((0 : ℚ) ≤ 1 / 5 ∧ (1 / 5 : ℚ) ≤ 1) ∧ ((0 : ℚ) ≤ 3 / 5 ∧ (3 / 5 : ℚ) ≤ 1) ∧
    (((1 / 2 : ℚ) ≤ 85 / 100 →
        calculateConfidence false (1 / 2) false (1 / 5)
          ≤ calculateConfidence false (85 / 100) false (1 / 5)) ∧
      ((1 / 5 : ℚ) ≤ 3 / 5 →
        calculateConfidence false (1 / 2) false (1 / 5)
          ≤ calculateConfidence false (1 / 2) false (3 / 5)) ∧
      calculateConfidence false (1 / 2) false (1 / 5)
        ≤ calculateConfidence true (1 / 2) false (1 / 5) ∧
      calculateConfidence false (1 / 2) false (1 / 5)
        ≤ calculateConfidence false (1 / 2) true (1 / 5)) :=
  ⟨by norm_num, by norm_num, by norm_num, by norm_num,
    calculateConfidence_monotone (1 / 2) (85 / 100) (1 / 5) (3 / 5) false false
      (by norm_num) (by norm_num) (by norm_num) (by norm_num)⟩

/-! ## Property access on an object literal -/

/-- A written key of a table is found with its written value. -/
lemma getProperty_of_some {α : Type} (table : String → Option α) (key : String) (value : α)
    (h : table key = some value) : getProperty table key = some (.typed value) := by
  simp only [getProperty, h]

/-- A key that is neither written nor the name of an inherited property is not
found. -/
lemma getProperty_of_none {α : Type} (table : String → Option α) (key : String)
    (h : table key = none) (hkey : key ∉ objectPrototypeKeys) :
    getProperty table key = none := by
  simp only [getProperty, h, hkey, if_false]

/-- The name of an inherited property that is not a written key finds the
inherited property. -/
lemma getProperty_of_inherited {α : Type} (table : String → Option α) (key : String)
    (h : table key = none) (hkey : key ∈ objectPrototypeKeys) :
    getProperty table key = some (.inherited key) := by
  simp only [getProperty, h, hkey, if_true]

/-- A lookup that finds nothing is a lookup of a key that is neither written nor
the name of an inherited property. -/
lemma getProperty_eq_none {α : Type} (table : String → Option α) (key : String)
    (h : getProperty table key = none) : table key = none ∧ key ∉ objectPrototypeKeys := by
  unfold getProperty at h
  cases htable : table key with
  | some value => simp [htable] at h
  | none =>
    by_cases hkey : key ∈ objectPrototypeKeys
    · simp [htable, hkey] at h
    · exact ⟨rfl, hkey⟩

/-- No name of an inherited property is a written key of `accuracyMap`. -/
lemma accuracyMap_of_inherited (locationType : String)
    (h : locationType ∈ objectPrototypeKeys) : accuracyMap locationType = none := by
  have hkeys : ∀ key ∈ objectPrototypeKeys,
      key ≠ "ROOFTOP" ∧ key ≠ "RANGE_INTERPOLATED" ∧ key ≠ "GEOMETRIC_CENTER" ∧
        key ≠ "APPROXIMATE" := by
    decide
  obtain ⟨h1, h2, h3, h4⟩ := hkeys locationType h
  unfold accuracyMap
  rw [if_neg h1, if_neg h2, if_neg h3, if_neg h4]

/-- On the name of an inherited property `mapGoogleLocationTypeToAccuracy`
returns that property. -/
lemma mapGoogleLocationTypeToAccuracy_inherited (locationType : String)
    (h : locationType ∈ objectPrototypeKeys) :
    mapGoogleLocationTypeToAccuracy locationType = .inherited locationType := by
  simp only [mapGoogleLocationTypeToAccuracy, getProperty,
    accuracyMap_of_inherited locationType h, h, if_true]

/-- The accuracy of a tier that is neither one of the four named ones nor the
name of an inherited property is the default. -/
lemma mapGoogleLocationTypeToAccuracy_default (locationType : String)
    (h1 : locationType ≠ "ROOFTOP") (h2 : locationType ≠ "RANGE_INTERPOLATED")
    (h3 : locationType ≠ "GEOMETRIC_CENTER") (h4 : locationType ≠ "APPROXIMATE")
    (hkey : locationType ∉ objectPrototypeKeys) :
    mapGoogleLocationTypeToAccuracy locationType = .typed (3 / 10) := by
  have hmap : accuracyMap locationType = none := by
    unfold accuracyMap
    rw [if_neg h1, if_neg h2, if_neg h3, if_neg h4]
  simp only [mapGoogleLocationTypeToAccuracy, getProperty, hmap, hkey, if_false]

/-- The accuracies of the four named tiers. -/
lemma mapGoogleLocationTypeToAccuracy_named :
    mapGoogleLocationTypeToAccuracy "ROOFTOP" = .typed 1 ∧
    mapGoogleLocationTypeToAccuracy "RANGE_INTERPOLATED" = .typed (85 / 100) ∧
    mapGoogleLocationTypeToAccuracy "GEOMETRIC_CENTER" = .typed (7 / 10) ∧
    mapGoogleLocationTypeToAccuracy "APPROXIMATE" = .typed (5 / 10) := by
  have h1 : accuracyMap "ROOFTOP" = some 1 := by
    unfold accuracyMap
    rw [if_pos rfl]
  have h2 : accuracyMap "RANGE_INTERPOLATED" = some (85 / 100) := by
    unfold accuracyMap
    rw [if_neg (by decide), if_pos rfl]
  have h3 : accuracyMap "GEOMETRIC_CENTER" = some (7 / 10) := by
    unfold accuracyMap
    rw [if_neg (by decide), if_neg (by decide), if_pos rfl]
  have h4 : accuracyMap "APPROXIMATE" = some (5 / 10) := by
    unfold accuracyMap
    rw [if_neg (by decide), if_neg (by decide), if_neg (by decide), if_pos rfl]
  simp only [mapGoogleLocationTypeToAccuracy, getProperty, h1, h2, h3, h4, and_self]

/-- The accuracy of the `ROOFTOP` tier. -/
lemma mapGoogleLocationTypeToAccuracy_rooftop :
    mapGoogleLocationTypeToAccuracy "ROOFTOP" = .typed 1 :=
  mapGoogleLocationTypeToAccuracy_named.1

/-- The value passed to `calculateConfidence` as `googleAccuracy` is the
inherited property when the tier names one, and one of five numbers otherwise. -/
lemma mapGoogleLocationTypeToAccuracy_values (locationType : String) :
    (locationType ∈ objectPrototypeKeys ∧
      mapGoogleLocationTypeToAccuracy locationType = .inherited locationType) ∨
    (locationType ∉ objectPrototypeKeys ∧
      ∃ accuracy, mapGoogleLocationTypeToAccuracy locationType = .typed accuracy ∧
        (accuracy = 1 ∨ accuracy = 85 / 100 ∨ accuracy = 7 / 10 ∨ accuracy = 5 / 10 ∨
          accuracy = 3 / 10)) := by
  by_cases hkey : locationType ∈ objectPrototypeKeys
  · exact Or.inl ⟨hkey, mapGoogleLocationTypeToAccuracy_inherited locationType hkey⟩
  · right
    refine ⟨hkey, ?_⟩
    obtain ⟨n1, n2, n3, n4⟩ := mapGoogleLocationTypeToAccuracy_named
    by_cases h1 : locationType = "ROOFTOP"
    · exact ⟨1, by rw [h1, n1], Or.inl rfl⟩
    by_cases h2 : locationType = "RANGE_INTERPOLATED"
    · exact ⟨85 / 100, by rw [h2, n2], Or.inr (Or.inl rfl)⟩
    by_cases h3 : locationType = "GEOMETRIC_CENTER"
    · exact ⟨7 / 10, by rw [h3, n3], Or.inr (Or.inr (Or.inl rfl))⟩
    by_cases h4 : locationType = "APPROXIMATE"
    · exact ⟨5 / 10, by rw [h4, n4], Or.inr (Or.inr (Or.inr (Or.inl rfl)))⟩
    exact ⟨3 / 10, mapGoogleLocationTypeToAccuracy_default locationType h1 h2 h3 h4 hkey,
      Or.inr (Or.inr (Or.inr (Or.inr rfl)))⟩

/-- With a numeric accuracy the confidence of a scoring run is the number
computed by `calculateConfidence`. -/
lemma confidenceOf_of_typed (address : Option String) (result : RawResult)
    (standardized : AddressComponents) (locationType : String) (accuracy : ℚ)
    (h : mapGoogleLocationTypeToAccuracy locationType = .typed accuracy) :
    confidenceOf address result standardized locationType =
      .number (calculateConfidence (hasAllComponents standardized) accuracy
        (exactMatchOf address result)
        (calculateComponentMatchRatio (trimmed address) standardized)) := by
  simp only [confidenceOf, h, calculateConfidenceOf]

/-- With an inherited property as accuracy the confidence of a scoring run is
`NaN`. -/
lemma confidenceOf_of_inherited (address : Option String) (result : RawResult)
    (standardized : AddressComponents) (locationType : String)
    (h : locationType ∈ objectPrototypeKeys) :
    confidenceOf address result standardized locationType = .nan := by
  simp only [confidenceOf, mapGoogleLocationTypeToAccuracy_inherited locationType h,
    calculateConfidenceOf]

/-! ## The runs of `validateAddress` -/

/-- When the name operation returns, `createUnverifiableResponse` returns the
unverifiable record. -/
lemma createUnverifiableResponse_ok (provider : Provider) (address : Option String)
    (reason name : String) (hname : provider.getProviderName () = .ok name) :
    createUnverifiableResponse provider address reason =
      .ok (unverifiableResponse (address.getD "") reason name) := by
  simp [createUnverifiableResponse, unverifiableResponse, emptyComponents, hname, bind,
    Except.bind, pure, Except.pure]

/-- When the name operation throws, so does `createUnverifiableResponse`. -/
lemma createUnverifiableResponse_error (provider : Provider) (address : Option String)
    (reason message : String) (hname : provider.getProviderName () = .error message) :
    createUnverifiableResponse provider address reason = .error message := by
  simp [createUnverifiableResponse, hname, bind, Except.bind]

/-- A run that reaches the scoring step and whose name operation returns ends
the `try` block with the scored record. -/
lemma validateAddressTry_scored (provider : Provider) (address : Option String)
    (result : RawResult) (rawComponents : RawComponents) (locationType name : String)
    (standardized : AddressComponents)
    (hrun : ReachesScoring provider address result rawComponents locationType standardized)
    (hname : provider.getProviderName () = .ok name) :
    validateAddressTry provider address =
      .ok (scoredResponse address result standardized locationType name) := by
  obtain ⟨hvalid, ⟨geocodeResult, hlookup, hstatus, hresults⟩, hextract, hloc, hstrings⟩ :=
    hrun
  unfold trimmed at hlookup
  simp [validateAddressTry, hvalid, hlookup, hstatus, hresults, hextract, hloc, hname,
    hstrings, bind, Except.bind, pure, Except.pure, scoredResponse, statusOf, confidenceOf,
    exactMatchOf, trimmed]

/-- A run that reaches the call of `calculateComponentMatchRatio` with a city or
a state that is not a string ends the `try` block with a `TypeError`. -/
lemma validateAddressTry_not_strings (provider : Provider) (address : Option String)
    (geocodeResult : GeocodeResult) (result : RawResult) (rawComponents : RawComponents)
    (locationType : String)
    (hvalid : isValidNonEmptyString address = true)
    (hlookup : provider.validateAddress (trimmed address) = .ok geocodeResult)
    (hstatus : geocodeResult.status ≠ some "ZERO_RESULTS")
    (hresults : geocodeResult.results = some [result])
    (hextract : provider.extractAddressComponents result = .ok rawComponents)
    (hloc : provider.getLocationType result = .ok locationType)
    (hstrings : (standardize rawComponents).strings = none) :
    validateAddressTry provider address = .error "value.toLowerCase is not a function" := by
  unfold trimmed at hlookup
  simp [validateAddressTry, hvalid, hlookup, hstatus, hresults, hextract, hloc, hstrings,
    bind, Except.bind, throw, throwThe, MonadExceptOf.throw]

/-- Inversion of the `try` block: a record it returns is either one built by
`createUnverifiableResponse` or the scored record of a run that reaches the
scoring step. -/
lemma validateAddressTry_ok_inv (provider : Provider) (address : Option String)
    (response : ValidationResult) (h : validateAddressTry provider address = .ok response) :
    (∃ original reason name, provider.getProviderName () = .ok name ∧
      response = unverifiableResponse original reason name) ∨
    (∃ result rawComponents locationType standardized name,
      ReachesScoring provider address result rawComponents locationType standardized ∧
      provider.getProviderName () = .ok name ∧
      response = scoredResponse address result standardized locationType name) := by
  cases hname : provider.getProviderName () with
  | error message =>
    exfalso
    have hcreate := fun a r => createUnverifiableResponse_error provider a r message hname
    unfold validateAddressTry at h
    by_cases hvalid : isValidNonEmptyString address = true
    · cases hlookup : provider.validateAddress (String.mk (trim (address.getD "").data)) with
      | error e => simp [hvalid, hlookup, bind, Except.bind] at h
      | ok geocodeResult =>
        by_cases hstatus : geocodeResult.status = some "ZERO_RESULTS"
        · simp [hvalid, hlookup, hstatus, hcreate, bind, Except.bind] at h
        · rcases hresults : geocodeResult.results with _ | _ | ⟨result, _ | ⟨_, _⟩⟩
          · simp [hvalid, hlookup, hstatus, hresults, hcreate, bind, Except.bind] at h
          · simp [hvalid, hlookup, hstatus, hresults, hcreate, bind, Except.bind] at h
          · cases hextract : provider.extractAddressComponents result with
            | error e =>
              simp [hvalid, hlookup, hstatus, hresults, hextract, bind, Except.bind] at h
            | ok rawComponents =>
              cases hloc : provider.getLocationType result <;>
                cases hstrings : (standardize rawComponents).strings <;>
                simp [hvalid, hlookup, hstatus, hresults, hextract, hloc, hname, hstrings,
                  bind, Except.bind, throw, throwThe, MonadExceptOf.throw] at h
          · simp [hvalid, hlookup, hstatus, hresults, hcreate, bind, Except.bind] at h
    · simp [hvalid, hcreate] at h
  | ok name =>
    have hcreate := fun a r => createUnverifiableResponse_ok provider a r name hname
    unfold validateAddressTry at h
    by_cases hvalid : isValidNonEmptyString address = true
    · cases hlookup : provider.validateAddress (String.mk (trim (address.getD "").data)) with
      | error e => simp [hvalid, hlookup, bind, Except.bind] at h
      | ok geocodeResult =>
        by_cases hstatus : geocodeResult.status = some "ZERO_RESULTS"
        · simp [hvalid, hlookup, hstatus, hcreate, bind, Except.bind] at h
          exact Or.inl ⟨_, _, name, rfl, h.symm⟩
        · rcases hresults : geocodeResult.results with _ | _ | ⟨result, _ | ⟨_, _⟩⟩
          · simp [hvalid, hlookup, hstatus, hresults, hcreate, bind, Except.bind] at h
            exact Or.inl ⟨_, _, name, rfl, h.symm⟩
          · simp [hvalid, hlookup, hstatus, hresults, hcreate, bind, Except.bind] at h
            exact Or.inl ⟨_, _, name, rfl, h.symm⟩
          · cases hextract : provider.extractAddressComponents result with
            | error e =>
              simp [hvalid, hlookup, hstatus, hresults, hextract, bind, Except.bind] at h
            | ok rawComponents =>
              cases hloc : provider.getLocationType result with
              | error e =>
                simp [hvalid, hlookup, hstatus, hresults, hextract, hloc, bind,
                  Except.bind] at h
              | ok locationType =>
                cases hstrings : (standardize rawComponents).strings with
                | none =>
                  simp [hvalid, hlookup, hstatus, hresults, hextract, hloc, hstrings, bind,
                    Except.bind, throw, throwThe, MonadExceptOf.throw] at h
                | some standardized =>
                  have hrun : ReachesScoring provider address result rawComponents
                      locationType standardized :=
                    ⟨hvalid, ⟨geocodeResult, hlookup, hstatus, hresults⟩, hextract, hloc,
                      hstrings⟩
                  have hscored := validateAddressTry_scored provider address result
                    rawComponents locationType name standardized hrun hname
                  unfold validateAddressTry at hscored
                  rw [hscored] at h
                  exact Or.inr ⟨result, rawComponents, locationType, standardized, name,
                    hrun, rfl, (Except.ok.inj h).symm⟩
          · simp [hvalid, hlookup, hstatus, hresults, hcreate, bind, Except.bind] at h
            exact Or.inl ⟨_, _, name, rfl, h.symm⟩
    · simp [hvalid, hcreate] at h
      exact Or.inl ⟨_, _, name, rfl, h.symm⟩

/-- Inversion of `validateAddress`: the same two shapes, the `catch` clause
adding only records built by `createUnverifiableResponse`. -/
lemma validateAddress_ok_inv (provider : Provider) (address : Option String)
    (response : ValidationResult) (h : validateAddress provider address = .ok response) :
    (∃ original reason name, provider.getProviderName () = .ok name ∧
      response = unverifiableResponse original reason name) ∨
    (∃ result rawComponents locationType standardized name,
      ReachesScoring provider address result rawComponents locationType standardized ∧
      provider.getProviderName () = .ok name ∧
      response = scoredResponse address result standardized locationType name) := by
  unfold validateAddress at h
  cases htry : validateAddressTry provider address with
  | ok response' =>
    rw [htry] at h
    cases Except.ok.inj h
    exact validateAddressTry_ok_inv provider address response htry
  | error message =>
    rw [htry] at h
    dsimp only at h
    cases hname : provider.getProviderName () with
    | error e =>
      rw [createUnverifiableResponse_error provider _ _ e hname] at h
      cases h
    | ok name =>
      rw [createUnverifiableResponse_ok provider _ _ name hname] at h
      exact Or.inl ⟨_, _, name, rfl, (Except.ok.inj h).symm⟩

/-- When the `try` block returns, `validateAddress` returns the same record. -/
lemma validateAddress_of_try_ok (provider : Provider) (address : Option String)
    (response : ValidationResult) (h : validateAddressTry provider address = .ok response) :
    validateAddress provider address = .ok response := by
  simp [validateAddress, h]

/-- When the `try` block throws, `validateAddress` is the `catch` clause. -/
lemma validateAddress_of_try_error (provider : Provider) (address : Option String)
    (message : String) (h : validateAddressTry provider address = .error message) :
    validateAddress provider address =
      createUnverifiableResponse provider address ("Validation error: " ++ message) := by
  simp [validateAddress, h]

/-- When the name operation returns, `validateAddress` returns a record. -/
lemma validateAddress_ok_of_name_ok (provider : Provider) (address : Option String)
    (name : String) (hname : provider.getProviderName () = .ok name) :
    ∃ response, validateAddress provider address = .ok response := by
  cases htry : validateAddressTry provider address with
  | ok response => exact ⟨response, validateAddress_of_try_ok provider address response htry⟩
  | error message =>
    rw [validateAddress_of_try_error provider address message htry,
      createUnverifiableResponse_ok provider _ _ name hname]
    exact ⟨_, rfl⟩

/-- When the name operation throws, `validateAddress` rejects with that error,
whatever the address and the other operations are. -/
lemma validateAddress_error_of_name_error (provider : Provider) (address : Option String)
    (message : String) (hname : provider.getProviderName () = .error message) :
    validateAddress provider address = .error message := by
  cases htry : validateAddressTry provider address with
  | ok response =>
    rcases validateAddressTry_ok_inv provider address response htry with
      ⟨_, _, name, hok, _⟩ | ⟨_, _, _, _, name, _, hok, _⟩ <;>
    · rw [hname] at hok
      cases hok
  | error e =>
    rw [validateAddress_of_try_error provider address e htry,
      createUnverifiableResponse_error provider _ _ message hname]

/-- C3: `validateAddress` should never reject, whatever the provider does.  It
does reject when the provider's name operation throws: for the abstract
`AddressProvider` the `catch` clause calls `getProviderName` again and its
error escapes, for a blank address as well as for a non-blank one. -/
theorem validateAddress_rejects_when_name_operation_throws :
    validateAddress abstractProvider (some "1600 Amphitheatre Parkway")
        = .error "getProviderName must be implemented by provider" ∧
      validateAddress abstractProvider (some "")
        = .error "getProviderName must be implemented by provider" := by
  constructor <;> rfl

/-! ## Range of the returned confidence -/

/-- The score of `calculateConfidence` lies in `[0, 1]`. -/
lemma calculateConfidence_range (hasAll : Bool) (a : ℚ) (isExact : Bool) (r : ℚ) :
    0 ≤ calculateConfidence hasAll a isExact r ∧ calculateConfidence hasAll a isExact r ≤ 1 := by
  unfold calculateConfidence
  exact ⟨le_min zero_le_one (le_max_left _ _), min_le_left _ _⟩

/-- Rounding to two decimals keeps a value of `[0, 1]` in `[0, 1]`. -/
lemma roundTwoDecimals_range (c : ℚ) (h0 : 0 ≤ c) (h1 : c ≤ 1) :
    0 ≤ roundTwoDecimals c ∧ roundTwoDecimals c ≤ 1 := by
  unfold roundTwoDecimals
  have hfloor0 : (0 : ℤ) ≤ ⌊c * 100 + 1 / 2⌋ := Int.floor_nonneg.mpr (by linarith)
  have hfloor1 : ⌊c * 100 + 1 / 2⌋ < (101 : ℤ) := Int.floor_lt.mpr (by push_cast; linarith)
  have h0' : (0 : ℚ) ≤ (⌊c * 100 + 1 / 2⌋ : ℤ) := by exact_mod_cast hfloor0
  have h1' : ((⌊c * 100 + 1 / 2⌋ : ℤ) : ℚ) ≤ 100 := by
    have : ⌊c * 100 + 1 / 2⌋ ≤ (100 : ℤ) := by omega
    exact_mod_cast this
  constructor
  · positivity
  · rw [div_le_one (by norm_num)]
    exact h1'

/-- Evaluation of `roundTwoDecimals` at a value whose hundred-fold lies in
`[n - 1/2, n + 1/2)`. -/
lemma roundTwoDecimals_eq (c : ℚ) (n : ℤ) (hlow : (n : ℚ) ≤ c * 100 + 1 / 2)
    (hhigh : c * 100 + 1 / 2 < (n : ℚ) + 1) : roundTwoDecimals c = (n : ℚ) / 100 := by
  unfold roundTwoDecimals
  rw [Int.floor_eq_iff.mpr ⟨hlow, hhigh⟩]

/-- The confidence of a scored record is `NaN` when the accuracy tier names an
inherited property, and a number of `[0, 1]` otherwise. -/
lemma scoredResponse_confidence (address : Option String) (result : RawResult)
    (standardized : AddressComponents) (locationType name : String) :
    (locationType ∈ objectPrototypeKeys ∧
      (scoredResponse address result standardized locationType name).confidence = .nan) ∨
    (locationType ∉ objectPrototypeKeys ∧
      ∃ c, (scoredResponse address result standardized locationType name).confidence
          = .number c ∧ 0 ≤ c ∧ c ≤ 1) := by
  rcases mapGoogleLocationTypeToAccuracy_values locationType with
    ⟨hkey, _⟩ | ⟨hkey, accuracy, haccuracy, _⟩
  · left
    refine ⟨hkey, ?_⟩
    simp only [scoredResponse, confidenceOf_of_inherited address result standardized
      locationType hkey, JSNumber.roundTwoDecimals]
  · right
    have hrange := calculateConfidence_range (hasAllComponents standardized) accuracy
      (exactMatchOf address result)
      (calculateComponentMatchRatio (trimmed address) standardized)
    refine ⟨hkey, roundTwoDecimals (calculateConfidence (hasAllComponents standardized)
      accuracy (exactMatchOf address result)
      (calculateComponentMatchRatio (trimmed address) standardized)), ?_,
      roundTwoDecimals_range _ hrange.1 hrange.2⟩
    simp only [scoredResponse, confidenceOf_of_typed address result standardized
      locationType accuracy haccuracy, JSNumber.roundTwoDecimals]

/-! ## Evaluation on the inputs of the service tests -/

/-- When the name operation returns, a run that reaches the scoring step
returns its scored record. -/
lemma validateAddress_scored (provider : Provider) (address : Option String)
    (result : RawResult) (rawComponents : RawComponents) (locationType name : String)
    (standardized : AddressComponents)
    (hrun : ReachesScoring provider address result rawComponents locationType standardized)
    (hname : provider.getProviderName () = .ok name) :
    validateAddress provider address =
      .ok (scoredResponse address result standardized locationType name) :=
  validateAddress_of_try_ok _ _ _
    (validateAddressTry_scored provider address result rawComponents locationType name
      standardized hrun hname)

/-- When the name operation returns, a run whose normalized city or state is not
a string returns the record of the `catch` clause, with the raw address. -/
lemma validateAddress_not_strings (provider : Provider) (address : Option String)
    (geocodeResult : GeocodeResult) (result : RawResult) (rawComponents : RawComponents)
    (locationType name : String)
    (hvalid : isValidNonEmptyString address = true)
    (hlookup : provider.validateAddress (trimmed address) = .ok geocodeResult)
    (hstatus : geocodeResult.status ≠ some "ZERO_RESULTS")
    (hresults : geocodeResult.results = some [result])
    (hextract : provider.extractAddressComponents result = .ok rawComponents)
    (hloc : provider.getLocationType result = .ok locationType)
    (hstrings : (standardize rawComponents).strings = none)
    (hname : provider.getProviderName () = .ok name) :
    validateAddress provider address =
      .ok (unverifiableResponse (address.getD "")
        "Validation error: value.toLowerCase is not a function" name) := by
  rw [validateAddress_of_try_error provider address _
    (validateAddressTry_not_strings provider address geocodeResult result rawComponents
      locationType hvalid hlookup hstatus hresults hextract hloc hstrings),
    createUnverifiableResponse_ok provider _ _ name hname]
  rfl

/-- Normalization of the components of the rooftop result. -/
lemma standardize_rooftopComponents :
    (standardize rooftopComponents).strings = some rooftopStandardized := by
  decide

/-- The test `should return unverifiable for low confidence`, evaluated. -/
lemma validateAddress_approximate :
    validateAddress approximateProvider (some "city only") = .ok approximateResponse := by
  have hrun : ReachesScoring approximateProvider (some "city only") approximateResult
      approximateComponents "APPROXIMATE" approximateStandardized :=
    ⟨by decide, ⟨_, rfl, by decide, rfl⟩, rfl, rfl, by decide⟩
  rw [validateAddress_scored _ _ _ _ _ "google-geocoding" _ hrun rfl]
  have htrim : trimmed (some "city only") = "city only" := by decide
  have hexact : exactMatchOf (some "city only") approximateResult = false := by decide
  have hcount : countMatches (toLowerCase "city only".data) ["", "", "City", "", ""] (0, 0)
      = (1, 1) := by decide
  have hratio : calculateComponentMatchRatio "city only" approximateStandardized = 1 := by
    simp only [calculateComponentMatchRatio, approximateStandardized, hcount]
    norm_num
  have hall : hasAllComponents approximateStandardized = false := by decide
  have hconf : confidenceOf (some "city only") approximateResult approximateStandardized
      "APPROXIMATE" = .number (6 / 10) := by
    rw [confidenceOf_of_typed _ _ _ _ _ mapGoogleLocationTypeToAccuracy_named.2.2.2, htrim,
      hexact, hratio, hall]
    simp only [calculateConfidence, GOOGLE_ACCURACY, COMPONENT_COMPLETENESS_PARTIAL,
      PARTIAL_MATCH_REDUCED, if_false, Bool.false_eq_true]
    rw [clamp_eq _ (by norm_num) (by norm_num)]
    norm_num
  have hround : roundTwoDecimals (6 / 10) = 6 / 10 := by
    rw [roundTwoDecimals_eq (6 / 10) 60 (by norm_num) (by norm_num)]
    norm_num
  have hstatus : statusOf (some "city only") approximateResult approximateStandardized
      "APPROXIMATE" = "unverifiable" := by
    unfold statusOf
    rw [hconf]
    norm_num [confidenceThreshold, JSNumber.lt]
  simp only [scoredResponse, htrim, hconf, hround, hstatus, JSNumber.roundTwoDecimals]
  rfl

/-- The test `should return corrected status for address with typos`,
evaluated: status `corrected`, street `Amphitheatre Pkwy`, confidence `0.88`. -/
lemma validateAddress_typo :
    validateAddress rooftopProvider (some "1600 amphitheatre pkwy mountain view ca")
      = .ok typoResponse := by
  have hrun : ReachesScoring rooftopProvider (some "1600 amphitheatre pkwy mountain view ca")
      rooftopResult rooftopComponents "ROOFTOP" rooftopStandardized :=
    ⟨by decide, ⟨_, rfl, by decide, rfl⟩, rfl, rfl, standardize_rooftopComponents⟩
  rw [validateAddress_scored _ _ _ _ _ "google-geocoding" _ hrun rfl]
  have htrim : trimmed (some "1600 amphitheatre pkwy mountain view ca")
      = "1600 amphitheatre pkwy mountain view ca" := by decide
  have hexact : exactMatchOf (some "1600 amphitheatre pkwy mountain view ca") rooftopResult
      = false := by decide
  have hcount : countMatches (toLowerCase "1600 amphitheatre pkwy mountain view ca".data)
      ["1600", "Amphitheatre Pkwy", "Mountain View", "CA", "94043"] (0, 0) = (4, 5) := by
    decide
  have hratio : calculateComponentMatchRatio "1600 amphitheatre pkwy mountain view ca"
      rooftopStandardized = 4 / 5 := by
    simp only [calculateComponentMatchRatio, rooftopStandardized, hcount]
    norm_num
  have hall : hasAllComponents rooftopStandardized = true := by decide
  have hconf : confidenceOf (some "1600 amphitheatre pkwy mountain view ca") rooftopResult
      rooftopStandardized "ROOFTOP" = .number (88 / 100) := by
    rw [confidenceOf_of_typed _ _ _ _ _ mapGoogleLocationTypeToAccuracy_rooftop, htrim,
      hexact, hratio, hall]
    simp only [calculateConfidence, GOOGLE_ACCURACY, COMPONENT_COMPLETENESS_FULL,
      PARTIAL_MATCH_REDUCED, if_true, if_false, Bool.false_eq_true]
    rw [clamp_eq _ (by norm_num) (by norm_num)]
    norm_num
  have hround : roundTwoDecimals (88 / 100) = 88 / 100 := by
    rw [roundTwoDecimals_eq (88 / 100) 88 (by norm_num) (by norm_num)]
    norm_num
  have hstatus : statusOf (some "1600 amphitheatre pkwy mountain view ca") rooftopResult
      rooftopStandardized "ROOFTOP" = "corrected" := by
    unfold statusOf
    rw [hconf, hexact]
    norm_num [confidenceThreshold, JSNumber.lt]
  simp only [scoredResponse, htrim, hconf, hround, hstatus, JSNumber.roundTwoDecimals]
  rfl

/-- The test `should return valid status for perfect match`, evaluated. -/
lemma validateAddress_perfect :
    validateAddress rooftopProvider
      (some "1600 Amphitheatre Parkway, Mountain View, CA 94043") = .ok perfectResponse := by
  have hrun : ReachesScoring rooftopProvider
      (some "1600 Amphitheatre Parkway, Mountain View, CA 94043")
      rooftopResult rooftopComponents "ROOFTOP" rooftopStandardized :=
    ⟨by decide, ⟨_, rfl, by decide, rfl⟩, rfl, rfl, standardize_rooftopComponents⟩
  rw [validateAddress_scored _ _ _ _ _ "google-geocoding" _ hrun rfl]
  have htrim : trimmed (some "1600 Amphitheatre Parkway, Mountain View, CA 94043")
      = "1600 Amphitheatre Parkway, Mountain View, CA 94043" := by decide
  have hexact : exactMatchOf (some "1600 Amphitheatre Parkway, Mountain View, CA 94043")
      rooftopResult = true := by decide
  have hall : hasAllComponents rooftopStandardized = true := by decide
  have hconf : confidenceOf (some "1600 Amphitheatre Parkway, Mountain View, CA 94043")
      rooftopResult rooftopStandardized "ROOFTOP" = .number 1 := by
    rw [confidenceOf_of_typed _ _ _ _ _ mapGoogleLocationTypeToAccuracy_rooftop, hexact, hall]
    simp only [calculateConfidence, GOOGLE_ACCURACY, COMPONENT_COMPLETENESS_FULL,
      EXACT_MATCH_BONUS, if_true]
    rw [clamp_eq _ (by norm_num) (by norm_num)]
    norm_num
  have hround : roundTwoDecimals 1 = 1 := by
    rw [roundTwoDecimals_eq 1 100 (by norm_num) (by norm_num)]
    norm_num
  have hstatus : statusOf (some "1600 Amphitheatre Parkway, Mountain View, CA 94043")
      rooftopResult rooftopStandardized "ROOFTOP" = "valid" := by
    unfold statusOf
    rw [hconf, hexact, hall]
    norm_num [confidenceThreshold, JSNumber.lt]
  simp only [scoredResponse, htrim, hconf, hround, hstatus, JSNumber.roundTwoDecimals]
  rfl

/-- The perfect-match input with a provider that reports the accuracy tier
`constructor`: the status is `valid` and the confidence is `NaN`. -/
lemma validateAddress_inheritedTier :
    validateAddress inheritedTierProvider
      (some "1600 Amphitheatre Parkway, Mountain View, CA 94043")
      = .ok inheritedTierResponse := by
  have hrun : ReachesScoring inheritedTierProvider
      (some "1600 Amphitheatre Parkway, Mountain View, CA 94043")
      rooftopResult rooftopComponents "constructor" rooftopStandardized :=
    ⟨by decide, ⟨_, rfl, by decide, rfl⟩, rfl, rfl, standardize_rooftopComponents⟩
  rw [validateAddress_scored _ _ _ _ _ "google-geocoding" _ hrun rfl]
  have htrim : trimmed (some "1600 Amphitheatre Parkway, Mountain View, CA 94043")
      = "1600 Amphitheatre Parkway, Mountain View, CA 94043" := by decide
  have hexact : exactMatchOf (some "1600 Amphitheatre Parkway, Mountain View, CA 94043")
      rooftopResult = true := by decide
  have hall : hasAllComponents rooftopStandardized = true := by decide
  have hconf : confidenceOf (some "1600 Amphitheatre Parkway, Mountain View, CA 94043")
      rooftopResult rooftopStandardized "constructor" = .nan :=
    confidenceOf_of_inherited _ _ _ _ (by decide)
  have hstatus : statusOf (some "1600 Amphitheatre Parkway, Mountain View, CA 94043")
      rooftopResult rooftopStandardized "constructor" = "valid" := by
    unfold statusOf
    rw [hconf, hexact, hall]
    rfl
  simp only [scoredResponse, htrim, hconf, hstatus, JSNumber.roundTwoDecimals]
  rfl

/-- An exact, complete match in a city named `Constructor`: `normalizeCity`
returns an inherited property, `calculateComponentMatchRatio` throws, and the
`catch` clause returns the unverifiable record with the raw address. -/
lemma validateAddress_inheritedCity :
    normalizeCity (some "Constructor") = .inherited "constructor" ∧
    validateAddress inheritedCityProvider (some " 1 Main St, Constructor, MA 02101 ")
      = .ok (unverifiableResponse " 1 Main St, Constructor, MA 02101 "
          "Validation error: value.toLowerCase is not a function" "google-geocoding") :=
  ⟨by decide,
    validateAddress_not_strings inheritedCityProvider
      (some " 1 Main St, Constructor, MA 02101 ")
      { status := some "OK", results := some [inheritedCityResult] } inheritedCityResult
      inheritedCityComponents "ROOFTOP" "google-geocoding"
      (by decide) rfl (by decide) rfl rfl rfl (by decide) rfl⟩

/-- C4: the confidence of a record returned by `validateAddress` should lie in
`[0, 1]`.  It is a number of `[0, 1]` unless the run reaches the scoring step
with an accuracy tier that names a property inherited by `accuracyMap`: the
confidence is then `NaN`, as for the perfect-match input with the tier
`constructor`, whose record has status `valid`. -/
theorem validateAddress_confidence_in_unit_interval_or_nan :
    (∀ (provider : Provider) (address : Option String) (response : ValidationResult),
      validateAddress provider address = .ok response →
      (∃ c, response.confidence = .number c ∧ 0 ≤ c ∧ c ≤ 1) ∨
      (response.confidence = .nan ∧
        ∃ result rawComponents locationType standardized,
          ReachesScoring provider address result rawComponents locationType standardized ∧
          locationType ∈ objectPrototypeKeys)) ∧
    validateAddress inheritedTierProvider
      (some "1600 Amphitheatre Parkway, Mountain View, CA 94043")
      = .ok inheritedTierResponse ∧
    inheritedTierResponse.status = "valid" ∧
    inheritedTierResponse.confidence = .nan ∧
    (∀ c : ℚ, inheritedTierResponse.confidence ≠ .number c) := by
  refine ⟨fun provider address response h => ?_, validateAddress_inheritedTier, rfl, rfl,
    fun c hc => by cases hc⟩
  rcases validateAddress_ok_inv provider address response h with
    ⟨original, reason, name, _, rfl⟩ |
    ⟨result, rawComponents, locationType, standardized, name, hrun, _, rfl⟩
  · exact Or.inl ⟨0, rfl, le_refl 0, zero_le_one⟩
  · rcases scoredResponse_confidence address result standardized locationType name with
      ⟨hkey, hnan⟩ | ⟨_, c, hc, hrange⟩
    · exact Or.inr ⟨hnan, result, rawComponents, locationType, standardized, hrun, hkey⟩
    · exact Or.inl ⟨c, hc, hrange⟩

/-- Witness for C4: the low-confidence test input, whose record carries the
confidence `0.6`. -/
theorem validateAddress_confidence_in_unit_interval_or_nan_witness :
    validateAddress approximateProvider (some "city only") = .ok approximateResponse ∧
    approximateResponse.confidence = .number (6 / 10) ∧
    ((∃ c, approximateResponse.confidence = .number c ∧ 0 ≤ c ∧ c ≤ 1) ∨
      (approximateResponse.confidence = .nan ∧
        ∃ result rawComponents locationType standardized,
          ReachesScoring approximateProvider (some "city only") result rawComponents
            locationType standardized ∧
          locationType ∈ objectPrototypeKeys)) :=
  ⟨validateAddress_approximate, rfl,
    validateAddress_confidence_in_unit_interval_or_nan.1 approximateProvider
      (some "city only") approximateResponse validateAddress_approximate⟩

/-! ## Status classification -/

/-- C5: for every non-blank address for which the provider returns exactly one
result and the run reaches the scoring step (the extraction and accuracy
operations return and the five normalized components are strings),
`validateAddress` classifies in this order, first match wins: `unverifiable` if
the unrounded confidence is below `0.7`; otherwise `valid` if `isExactMatch` and
`hasAllComponents` both hold; otherwise `corrected`.  A confidence that is `NaN`
is not below `0.7`. -/
theorem validateAddress_status_classification (provider : Provider)
    (address : Option String) (geocodeResult : GeocodeResult) (result : RawResult)
    (rawComponents : RawComponents) (locationType name : String)
    (standardized : AddressComponents)
    (hvalid : isValidNonEmptyString address = true)
    (hlookup : provider.validateAddress (trimmed address) = .ok geocodeResult)
    (hstatus : geocodeResult.status ≠ some "ZERO_RESULTS")
    (hresults : geocodeResult.results = some [result])
    (hextract : provider.extractAddressComponents result = .ok rawComponents)
    (hloc : provider.getLocationType result = .ok locationType)
    (hstrings : (standardize rawComponents).strings = some standardized)
    (hname : provider.getProviderName () = .ok name) :
    ∃ response, validateAddress provider address = .ok response ∧
      response.status =
        (if (calculateConfidenceOf (hasAllComponents standardized)
              (mapGoogleLocationTypeToAccuracy locationType)
              (checkExactMatch (some (trimmed address)) result.formatted_address)
              (calculateComponentMatchRatio (trimmed address) standardized)).lt (7 / 10)
            = true then "unverifiable"
        else if checkExactMatch (some (trimmed address)) result.formatted_address = true ∧
            hasAllComponents standardized = true then "valid"
        else "corrected") ∧
      (∀ c : ℚ,
        calculateConfidenceOf (hasAllComponents standardized)
            (mapGoogleLocationTypeToAccuracy locationType)
            (checkExactMatch (some (trimmed address)) result.formatted_address)
            (calculateComponentMatchRatio (trimmed address) standardized) = .number c →
        (response.status = "unverifiable" ↔ c < 7 / 10)) ∧
      (calculateConfidenceOf (hasAllComponents standardized)
            (mapGoogleLocationTypeToAccuracy locationType)
            (checkExactMatch (some (trimmed address)) result.formatted_address)
            (calculateComponentMatchRatio (trimmed address) standardized) = .nan →
        response.status ≠ "unverifiable") := by
  have hrun : ReachesScoring provider address result rawComponents locationType
      standardized :=
    ⟨hvalid, ⟨geocodeResult, hlookup, hstatus, hresults⟩, hextract, hloc, hstrings⟩
  refine ⟨_, validateAddress_scored provider address result rawComponents locationType name
    standardized hrun hname, ?_, fun c hc => ?_, fun hnan => ?_⟩
  · simp only [scoredResponse, statusOf, confidenceOf, exactMatchOf, confidenceThreshold,
      Bool.and_eq_true]
  · simp only [scoredResponse, statusOf, confidenceOf, exactMatchOf, confidenceThreshold,
      hc, JSNumber.lt, decide_eq_true_eq]
    by_cases hlow : c < 7 / 10
    · simp [hlow]
    · simp only [hlow, if_false, iff_false]
      split_ifs <;> decide
  · simp only [scoredResponse, statusOf, confidenceOf, exactMatchOf, hnan, JSNumber.lt,
      Bool.false_eq_true, if_false]
    split_ifs <;> decide

/-- Witness for C5: the input `1600 amphitheatre pkwy mountain view ca` with a
single `ROOFTOP` result carrying all five components; the record has status
`corrected`, street `Amphitheatre Pkwy` and confidence `0.88`. -/
theorem validateAddress_status_classification_witness :
    validateAddress rooftopProvider (some "1600 amphitheatre pkwy mountain view ca")
      = .ok typoResponse ∧
    typoResponse.status = "corrected" ∧
    typoResponse.standardized.street = "Amphitheatre Pkwy" ∧
    typoResponse.confidence = .number (88 / 100) ∧
    (∃ response,
      validateAddress rooftopProvider (some "1600 amphitheatre pkwy mountain view ca")
        = .ok response ∧
      response.status =
        (if (calculateConfidenceOf (hasAllComponents rooftopStandardized)
              (mapGoogleLocationTypeToAccuracy "ROOFTOP")
              (checkExactMatch
                (some (trimmed (some "1600 amphitheatre pkwy mountain view ca")))
                rooftopResult.formatted_address)
              (calculateComponentMatchRatio
                (trimmed (some "1600 amphitheatre pkwy mountain view ca"))
                rooftopStandardized)).lt (7 / 10)
            = true then "unverifiable"
        else if checkExactMatch
              (some (trimmed (some "1600 amphitheatre pkwy mountain view ca")))
              rooftopResult.formatted_address = true ∧
            hasAllComponents rooftopStandardized = true then "valid"
        else "corrected")) :=
  ⟨validateAddress_typo, rfl, rfl, rfl,
    (validateAddress_status_classification rooftopProvider
      (some "1600 amphitheatre pkwy mountain view ca")
      { status := some "OK", results := some [rooftopResult] } rooftopResult
      rooftopComponents "ROOFTOP" "google-geocoding" rooftopStandardized
      (by decide) rfl (by decide) rfl rfl rfl standardize_rooftopComponents rfl).imp
      (fun _ h => ⟨h.1, h.2.1⟩)⟩

/-! ## The `valid` status -/

/-- Rounding to two decimals does not take a value from `0.7` or above to
below `0.7`. -/
lemma roundTwoDecimals_ge_threshold (c : ℚ) (h : 7 / 10 ≤ c) :
    7 / 10 ≤ roundTwoDecimals c := by
  unfold roundTwoDecimals
  have hfloor : (70 : ℤ) ≤ ⌊c * 100 + 1 / 2⌋ := Int.le_floor.mpr (by push_cast; linarith)
  have hcast : (70 : ℚ) ≤ (⌊c * 100 + 1 / 2⌋ : ℤ) := by exact_mod_cast hfloor
  rw [le_div_iff₀ (by norm_num)]
  linarith

/-- The truth value `hasAllComponents` holds exactly when the five fields are
non-empty. -/
lemma hasAllComponents_iff (standardized : AddressComponents) :
    hasAllComponents standardized = true ↔
      standardized.number ≠ "" ∧ standardized.street ≠ "" ∧ standardized.city ≠ "" ∧
        standardized.state ≠ "" ∧ standardized.zipCode ≠ "" := by
  simp [hasAllComponents, and_assoc]

/-- C6: a record of `validateAddress` with status `valid` should have five
non-empty standardized fields, a true `checkExactMatch` between the trimmed input
and the formatted address of the provider's single result, and a confidence of
at least `0.7`.  The first two hold for every such record; the confidence is at
least `0.7` unless the accuracy tier names a property inherited by `accuracyMap`,
and then it is `NaN`, as for the perfect-match input with the tier
`constructor`. -/
theorem validateAddress_valid_implies :
    (∀ (provider : Provider) (address : Option String) (response : ValidationResult),
      validateAddress provider address = .ok response → response.status = "valid" →
      (response.standardized.number ≠ "" ∧ response.standardized.street ≠ "" ∧
        response.standardized.city ≠ "" ∧ response.standardized.state ≠ "" ∧
        response.standardized.zipCode ≠ "") ∧
      (∃ geocodeResult result,
        provider.validateAddress (trimmed address) = .ok geocodeResult ∧
        geocodeResult.results = some [result] ∧
        checkExactMatch (some (trimmed address)) result.formatted_address = true) ∧
      ((∃ c, response.confidence = .number c ∧ 7 / 10 ≤ c) ∨
        (response.confidence = .nan ∧
          ∃ result rawComponents locationType standardized,
            ReachesScoring provider address result rawComponents locationType
              standardized ∧
            locationType ∈ objectPrototypeKeys))) ∧
    validateAddress inheritedTierProvider
      (some "1600 Amphitheatre Parkway, Mountain View, CA 94043")
      = .ok inheritedTierResponse ∧
    inheritedTierResponse.status = "valid" ∧
    inheritedTierResponse.confidence = .nan ∧
    ¬ (∃ c : ℚ, inheritedTierResponse.confidence = .number c ∧ 7 / 10 ≤ c) := by
  refine ⟨fun provider address response h hvalid => ?_, validateAddress_inheritedTier, rfl,
    rfl, fun ⟨c, hc, _⟩ => by cases hc⟩
  rcases validateAddress_ok_inv provider address response h with
    ⟨original, reason, name, _, rfl⟩ |
    ⟨result, rawComponents, locationType, standardized, name, hrun, _, rfl⟩
  · simp only [unverifiableResponse] at hvalid
    exact absurd hvalid (by decide)
  · have hrun' := hrun
    obtain ⟨_, ⟨geocodeResult, hlookup, _, hresults⟩, _, _, _⟩ := hrun'
    simp only [scoredResponse, statusOf] at hvalid
    split_ifs at hvalid with hlow hboth
    · exact absurd hvalid (by decide)
    · rw [Bool.and_eq_true] at hboth
      refine ⟨(hasAllComponents_iff _).mp hboth.2, ⟨geocodeResult, result, hlookup, hresults,
        hboth.1⟩, ?_⟩
      rcases mapGoogleLocationTypeToAccuracy_values locationType with
        ⟨hkey, _⟩ | ⟨_, accuracy, haccuracy, _⟩
      · right
        refine ⟨?_, result, rawComponents, locationType, standardized, hrun, hkey⟩
        simp only [scoredResponse, confidenceOf_of_inherited address result standardized
          locationType hkey, JSNumber.roundTwoDecimals]
      · left
        rw [confidenceOf_of_typed address result standardized locationType accuracy
          haccuracy] at hlow
        simp only [JSNumber.lt, decide_eq_true_eq, confidenceThreshold, not_lt] at hlow
        refine ⟨_, ?_, roundTwoDecimals_ge_threshold _ hlow⟩
        simp only [scoredResponse, confidenceOf_of_typed address result standardized
          locationType accuracy haccuracy, JSNumber.roundTwoDecimals]
    · exact absurd hvalid (by decide)

/-- Witness for C6: the perfect-match test input, whose record has status
`valid` and confidence `1`. -/
theorem validateAddress_valid_implies_witness :
    validateAddress rooftopProvider
      (some "1600 Amphitheatre Parkway, Mountain View, CA 94043") = .ok perfectResponse ∧
    perfectResponse.status = "valid" ∧
    perfectResponse.confidence = .number 1 ∧
    (perfectResponse.standardized.number ≠ "" ∧ perfectResponse.standardized.street ≠ "" ∧
      perfectResponse.standardized.city ≠ "" ∧ perfectResponse.standardized.state ≠ "" ∧
      perfectResponse.standardized.zipCode ≠ "") ∧
    (∃ geocodeResult result,
      rooftopProvider.validateAddress
        (trimmed (some "1600 Amphitheatre Parkway, Mountain View, CA 94043"))
          = .ok geocodeResult ∧
      geocodeResult.results = some [result] ∧
      checkExactMatch
        (some (trimmed (some "1600 Amphitheatre Parkway, Mountain View, CA 94043")))
        result.formatted_address = true) :=
  have hall := validateAddress_valid_implies.1 rooftopProvider
    (some "1600 Amphitheatre Parkway, Mountain View, CA 94043") perfectResponse
    validateAddress_perfect rfl
  ⟨validateAddress_perfect, rfl, rfl, hall.1, hall.2.1⟩

/-! ## The unverifiable outcomes -/

/-- A string made of white space only trims to the empty string. -/
lemma trim_eq_nil_of_all_whiteSpace (s : List Char)
    (h : ∀ c ∈ s, isWhiteSpace c = true) : trim s = [] := by
  unfold trim
  rw [List.dropWhile_eq_nil_iff.mpr h]
  rfl

/-- An address that is absent or made of white space only is rejected by
`isValidNonEmptyString`. -/
lemma isValidNonEmptyString_blank (address : Option String)
    (hblank : ∀ s, address = some s → ∀ c ∈ s.data, isWhiteSpace c = true) :
    isValidNonEmptyString address = false := by
  cases address with
  | none => rfl
  | some s =>
    simp [isValidNonEmptyString, trim_eq_nil_of_all_whiteSpace s.data (hblank s rfl)]

/-- C7: for every non-blank address, if the provider's outcome has status
`ZERO_RESULTS` or has an absent or empty results list, `validateAddress` returns
status `unverifiable`, confidence `0`, all five standardized fields empty and
reason exactly `No results found`; the zero-result status takes precedence
whatever the results list holds. -/
theorem validateAddress_zero_results (provider : Provider) (address : Option String)
    (geocodeResult : GeocodeResult) (name : String)
    (hvalid : isValidNonEmptyString address = true)
    (hlookup : provider.validateAddress (trimmed address) = .ok geocodeResult)
    (hzero : geocodeResult.status = some "ZERO_RESULTS" ∨ geocodeResult.results = none ∨
      geocodeResult.results = some [])
    (hname : provider.getProviderName () = .ok name) :
    validateAddress provider address = .ok
      { status := "unverifiable"
        original := trimmed address
        standardized := { number := "", street := "", city := "", state := "", zipCode := "" }
        confidence := .number 0
        provider := name
        reason := some "No results found" } := by
  apply validateAddress_of_try_ok
  have hcreate := fun a r => createUnverifiableResponse_ok provider a r name hname
  unfold trimmed at hlookup
  by_cases hstatus : geocodeResult.status = some "ZERO_RESULTS"
  · simp [validateAddressTry, hvalid, hlookup, hstatus, hcreate, bind, Except.bind,
      unverifiableResponse, emptyComponents, trimmed]
  · rcases hzero with hz | hnone | hnil
    · exact absurd hz hstatus
    · simp [validateAddressTry, hvalid, hlookup, hstatus, hnone, hcreate, bind, Except.bind,
        unverifiableResponse, emptyComponents, trimmed]
    · simp [validateAddressTry, hvalid, hlookup, hstatus, hnil, hcreate, bind, Except.bind,
        unverifiableResponse, emptyComponents, trimmed]

/-- Witness for C7: the test `should return unverifiable for zero results`. -/
theorem validateAddress_zero_results_witness :
    validateAddress zeroResultsProvider (some "invalid address 99999") = .ok
      { status := "unverifiable"
        original := "invalid address 99999"
        standardized := { number := "", street := "", city := "", state := "", zipCode := "" }
        confidence := .number 0
        provider := "google-geocoding"
        reason := some "No results found" } := by
  have h := validateAddress_zero_results zeroResultsProvider (some "invalid address 99999")
    { status := some "ZERO_RESULTS", results := some [] } "google-geocoding"
    (by decide) rfl (Or.inl rfl) rfl
  rwa [show trimmed (some "invalid address 99999") = "invalid address 99999" by decide] at h

/-- C8: for every non-blank address, if the provider returns two or more
results (and not the zero-result status), `validateAddress` returns status
`unverifiable`, confidence `0`, all-empty standardized fields and reason exactly
`Multiple matches found`, whatever the results contain and whatever the
extraction and accuracy operations would do. -/
theorem validateAddress_multiple_results (provider : Provider) (address : Option String)
    (geocodeResult : GeocodeResult) (first second : RawResult) (others : List RawResult)
    (name : String)
    (hvalid : isValidNonEmptyString address = true)
    (hlookup : provider.validateAddress (trimmed address) = .ok geocodeResult)
    (hstatus : geocodeResult.status ≠ some "ZERO_RESULTS")
    (hresults : geocodeResult.results = some (first :: second :: others))
    (hname : provider.getProviderName () = .ok name) :
    validateAddress provider address = .ok
      { status := "unverifiable"
        original := trimmed address
        standardized := { number := "", street := "", city := "", state := "", zipCode := "" }
        confidence := .number 0
        provider := name
        reason := some "Multiple matches found" } := by
  apply validateAddress_of_try_ok
  have hcreate := fun a r => createUnverifiableResponse_ok provider a r name hname
  unfold trimmed at hlookup
  simp [validateAddressTry, hvalid, hlookup, hstatus, hresults, hcreate, bind, Except.bind,
    unverifiableResponse, emptyComponents, trimmed]

/-- Witness for C8: the test `should return unverifiable for multiple results`,
with the input `ambiguous address` and two results. -/
theorem validateAddress_multiple_results_witness :
    validateAddress ambiguousProvider (some "ambiguous address") = .ok
      { status := "unverifiable"
        original := "ambiguous address"
        standardized := { number := "", street := "", city := "", state := "", zipCode := "" }
        confidence := .number 0
        provider := "google-geocoding"
        reason := some "Multiple matches found" } := by
  have h := validateAddress_multiple_results ambiguousProvider (some "ambiguous address")
    { status := some "OK", results := some ambiguousResults }
    { formatted_address := some "Address 1", address_components := none, geometry := none }
    { formatted_address := some "Address 2", address_components := none, geometry := none }
    [] "google-geocoding" (by decide) rfl (by decide) rfl rfl
  rwa [show trimmed (some "ambiguous address") = "ambiguous address" by decide] at h

/-- C9: for every non-blank address and every provider whose lookup fails with
an error of message `m`, `validateAddress` returns status `unverifiable`,
confidence `0`, all-empty standardized fields and the reason `Validation error: `
followed by `m`; `original` is the address as received. -/
theorem validateAddress_lookup_failure (provider : Provider) (address : Option String)
    (m name : String)
    (hvalid : isValidNonEmptyString address = true)
    (hlookup : provider.validateAddress (trimmed address) = .error m)
    (hname : provider.getProviderName () = .ok name) :
    validateAddress provider address = .ok
      { status := "unverifiable"
        original := address.getD ""
        standardized := { number := "", street := "", city := "", state := "", zipCode := "" }
        confidence := .number 0
        provider := name
        reason := some ("Validation error: " ++ m) } := by
  have htry : validateAddressTry provider address = .error m := by
    unfold trimmed at hlookup
    simp [validateAddressTry, hvalid, hlookup, bind, Except.bind]
  rw [validateAddress_of_try_error provider address m htry,
    createUnverifiableResponse_ok provider _ _ name hname]
  rfl

/-- Witness for C9: the test `should handle provider errors gracefully`; the
reason is `Validation error: API Error`. -/
theorem validateAddress_lookup_failure_witness :
    validateAddress failingProvider (some "test address") = .ok
      { status := "unverifiable"
        original := "test address"
        standardized := { number := "", street := "", city := "", state := "", zipCode := "" }
        confidence := .number 0
        provider := "google-geocoding"
        reason := some "Validation error: API Error" } :=
  validateAddress_lookup_failure failingProvider (some "test address") "API Error"
    "google-geocoding" (by decide) rfl rfl

/-- C10: for every address that is empty or consists only of white space,
`validateAddress` returns status `unverifiable`, confidence `0` and reason
`Address is required`, and the lookup is not called: any other provider with the
same name, whatever its lookup, extraction and accuracy operations do, yields
the same record. -/
theorem validateAddress_blank_address (provider : Provider) (address : Option String)
    (name : String)
    (hblank : ∀ s, address = some s → ∀ c ∈ s.data, isWhiteSpace c = true)
    (hname : provider.getProviderName () = .ok name) :
    validateAddress provider address = .ok
      { status := "unverifiable"
        original := address.getD ""
        standardized := { number := "", street := "", city := "", state := "", zipCode := "" }
        confidence := .number 0
        provider := name
        reason := some "Address is required" } ∧
    ∀ other : Provider, other.getProviderName () = .ok name →
      validateAddress other address = validateAddress provider address := by
  have hrecord : ∀ p : Provider, p.getProviderName () = .ok name →
      validateAddress p address = .ok
        (unverifiableResponse (address.getD "") "Address is required" name) := by
    intro p hp
    apply validateAddress_of_try_ok
    simp [validateAddressTry, isValidNonEmptyString_blank address hblank,
      createUnverifiableResponse_ok p _ _ name hp]
  refine ⟨hrecord provider hname, fun other hother => ?_⟩
  rw [hrecord other hother, hrecord provider hname]

/-- Witness for C10: the input of three spaces, on a provider whose lookup,
extraction and accuracy operations all throw. -/
theorem validateAddress_blank_address_witness :
    (∀ s, some "   " = some s → ∀ c ∈ s.data, isWhiteSpace c = true) ∧
    (validateAddress failingProvider (some "   ") = .ok
      { status := "unverifiable"
        original := "   "
        standardized := { number := "", street := "", city := "", state := "", zipCode := "" }
        confidence := .number 0
        provider := "google-geocoding"
        reason := some "Address is required" } ∧
    ∀ other : Provider, other.getProviderName () = .ok "google-geocoding" →
      validateAddress other (some "   ") = validateAddress failingProvider (some "   ")) :=
  have hblank : ∀ s, some "   " = some s → ∀ c ∈ s.data, isWhiteSpace c = true := by
    intro s hs
    cases hs
    decide
  ⟨hblank, validateAddress_blank_address failingProvider (some "   ") "google-geocoding"
    hblank rfl⟩

/-! ## Fields of the returned record -/

/-- The object `standardized` of a run whose normalized city and state are
strings. -/
lemma standardize_strings_of_typed (rawComponents : RawComponents) (city state : String)
    (hcity : normalizeCity rawComponents.city = .typed city)
    (hstate : normalizeState rawComponents.state = .typed state) :
    (standardize rawComponents).strings = some
      { number := normalizeNumber rawComponents.number
        street := normalizeStreet rawComponents.street
        city := city
        state := state
        zipCode := normalizeZipCode rawComponents.zipCode } := by
  simp only [StandardizedValues.strings, standardize, hcity, hstate]

/-- When the five normalized components are strings, they are the values of the
five normalizers. -/
lemma standardize_strings_inv (rawComponents : RawComponents)
    (standardized : AddressComponents)
    (h : (standardize rawComponents).strings = some standardized) :
    standardized.number = normalizeNumber rawComponents.number ∧
    standardized.street = normalizeStreet rawComponents.street ∧
    normalizeCity rawComponents.city = .typed standardized.city ∧
    normalizeState rawComponents.state = .typed standardized.state ∧
    standardized.zipCode = normalizeZipCode rawComponents.zipCode := by
  cases hcity : normalizeCity rawComponents.city with
  | inherited name => simp [StandardizedValues.strings, standardize, hcity] at h
  | typed city =>
    cases hstate : normalizeState rawComponents.state with
    | inherited name => simp [StandardizedValues.strings, standardize, hcity, hstate] at h
    | typed state =>
      rw [standardize_strings_of_typed rawComponents city state hcity hstate] at h
      cases Option.some.inj h
      exact ⟨rfl, rfl, rfl, rfl, rfl⟩

/-- The five normalized components are not all strings exactly when the
normalized city or the normalized state is an inherited property. -/
lemma standardize_strings_eq_none (rawComponents : RawComponents) :
    (standardize rawComponents).strings = none ↔
      (∃ name, normalizeCity rawComponents.city = .inherited name) ∨
      (∃ name, normalizeState rawComponents.state = .inherited name) := by
  cases hcity : normalizeCity rawComponents.city with
  | inherited name => simp [StandardizedValues.strings, standardize, hcity]
  | typed city =>
    cases hstate : normalizeState rawComponents.state with
    | inherited name => simp [StandardizedValues.strings, standardize, hcity, hstate]
    | typed state => simp [StandardizedValues.strings, standardize, hcity, hstate]

/-- The result, the raw components, the accuracy tier and the normalized
components of a run that reaches the scoring step are determined by the
provider and the address. -/
lemma reachesScoring_unique (provider : Provider) (address : Option String)
    (result result' : RawResult) (rawComponents rawComponents' : RawComponents)
    (locationType locationType' : String) (standardized standardized' : AddressComponents)
    (h : ReachesScoring provider address result rawComponents locationType standardized)
    (h' : ReachesScoring provider address result' rawComponents' locationType'
      standardized') :
    result = result' ∧ rawComponents = rawComponents' ∧ locationType = locationType' ∧
      standardized = standardized' := by
  obtain ⟨_, ⟨g, hlookup, _, hresults⟩, hextract, hloc, hstrings⟩ := h
  obtain ⟨_, ⟨g', hlookup', _, hresults'⟩, hextract', hloc', hstrings'⟩ := h'
  rw [hlookup] at hlookup'
  cases Except.ok.inj hlookup'
  rw [hresults] at hresults'
  cases hresults'
  rw [hextract] at hextract'
  cases Except.ok.inj hextract'
  rw [hloc] at hloc'
  rw [hstrings] at hstrings'
  exact ⟨rfl, rfl, Except.ok.inj hloc', Option.some.inj hstrings'⟩

/-- A returned record of a run that reaches the scoring step is the scored
record. -/
lemma validateAddress_eq_scored (provider : Provider) (address : Option String)
    (response : ValidationResult) (h : validateAddress provider address = .ok response)
    (result : RawResult) (rawComponents : RawComponents) (locationType : String)
    (standardized : AddressComponents)
    (hrun : ReachesScoring provider address result rawComponents locationType
      standardized) :
    ∃ name, provider.getProviderName () = .ok name ∧
      response = scoredResponse address result standardized locationType name := by
  have hname : ∃ name, provider.getProviderName () = .ok name := by
    rcases validateAddress_ok_inv provider address response h with
      ⟨_, _, name, hn, _⟩ | ⟨_, _, _, _, name, _, hn, _⟩ <;> exact ⟨name, hn⟩
  obtain ⟨name, hn⟩ := hname
  rw [validateAddress_scored provider address result rawComponents locationType name
    standardized hrun hn] at h
  exact ⟨name, hn, (Except.ok.inj h).symm⟩

/-- A returned record of a run that does not reach the scoring step is one
built by `createUnverifiableResponse`. -/
lemma validateAddress_eq_unverifiable (provider : Provider) (address : Option String)
    (response : ValidationResult) (h : validateAddress provider address = .ok response)
    (hnot : ¬ ∃ result rawComponents locationType standardized,
      ReachesScoring provider address result rawComponents locationType standardized) :
    ∃ original reason name, provider.getProviderName () = .ok name ∧
      response = unverifiableResponse original reason name := by
  rcases validateAddress_ok_inv provider address response h with
    hunv | ⟨result, rawComponents, locationType, standardized, _, hrun, _, _⟩
  · exact hunv
  · exact absurd ⟨result, rawComponents, locationType, standardized, hrun⟩ hnot

/-- C11: whenever the provider returns exactly one result and the run reaches
the scoring step (the extraction and accuracy operations return, and the
normalized city and state are strings), each field of `standardized` in the
returned record is the corresponding normalizer applied to the raw extracted
component, whatever the status; in every other outcome (input rejected, lookup
failure, zero results, multiple results, failure of the extraction or of the
accuracy operation, a normalized city or state that is an inherited property, on
which `calculateComponentMatchRatio` throws) all five fields are the empty
string. -/
theorem validateAddress_standardized_fields (provider : Provider)
    (address : Option String) (response : ValidationResult)
    (h : validateAddress provider address = .ok response) :
    (∀ geocodeResult result rawComponents locationType city state,
      isValidNonEmptyString address = true →
      provider.validateAddress (trimmed address) = .ok geocodeResult →
      geocodeResult.status ≠ some "ZERO_RESULTS" →
      geocodeResult.results = some [result] →
      provider.extractAddressComponents result = .ok rawComponents →
      provider.getLocationType result = .ok locationType →
      normalizeCity rawComponents.city = .typed city →
      normalizeState rawComponents.state = .typed state →
      response.standardized.number = normalizeNumber rawComponents.number ∧
      response.standardized.street = normalizeStreet rawComponents.street ∧
      Dynamic.typed response.standardized.city = normalizeCity rawComponents.city ∧
      Dynamic.typed response.standardized.state = normalizeState rawComponents.state ∧
      response.standardized.zipCode = normalizeZipCode rawComponents.zipCode) ∧
    ((isValidNonEmptyString address = false ∨
      (∃ m, provider.validateAddress (trimmed address) = .error m) ∨
      (∃ geocodeResult, provider.validateAddress (trimmed address) = .ok geocodeResult ∧
        (geocodeResult.status = some "ZERO_RESULTS" ∨ geocodeResult.results = none ∨
          geocodeResult.results = some [])) ∨
      (∃ geocodeResult first second others,
        provider.validateAddress (trimmed address) = .ok geocodeResult ∧
        geocodeResult.results = some (first :: second :: others)) ∨
      (∃ geocodeResult result,
        provider.validateAddress (trimmed address) = .ok geocodeResult ∧
        geocodeResult.results = some [result] ∧
        ((∃ m, provider.extractAddressComponents result = .error m) ∨
          (∃ m, provider.getLocationType result = .error m) ∨
          (∃ rawComponents, provider.extractAddressComponents result = .ok rawComponents ∧
            ((∃ name, normalizeCity rawComponents.city = .inherited name) ∨
              (∃ name, normalizeState rawComponents.state = .inherited name)))))) →
      response.standardized.number = "" ∧ response.standardized.street = "" ∧
      response.standardized.city = "" ∧ response.standardized.state = "" ∧
      response.standardized.zipCode = "") := by
  constructor
  · intro geocodeResult result rawComponents locationType city state hvalid hlookup hstatus
      hresults hextract hloc hcity hstate
    obtain ⟨name, _, rfl⟩ := validateAddress_eq_scored provider address response h result
      rawComponents locationType _
      ⟨hvalid, ⟨geocodeResult, hlookup, hstatus, hresults⟩, hextract, hloc,
        standardize_strings_of_typed rawComponents city state hcity hstate⟩
    exact ⟨rfl, rfl, hcity.symm, hstate.symm, rfl⟩
  · intro hother
    have hnot : ¬ ∃ result rawComponents locationType standardized,
        ReachesScoring provider address result rawComponents locationType standardized := by
      rintro ⟨result, rawComponents, locationType, standardized, hvalid,
        ⟨g, hlookup, hstatus, hresults⟩, hextract, hloc, hstrings⟩
      rcases hother with hinvalid | ⟨m, hfail⟩ | ⟨g', hlookup', hzero⟩ |
        ⟨g', first, second, others, hlookup', hmany⟩ | ⟨g', result', hlookup', hone, hops⟩
      · rw [hvalid] at hinvalid
        cases hinvalid
      · rw [hlookup] at hfail
        cases hfail
      · rw [hlookup] at hlookup'
        cases Except.ok.inj hlookup'
        rcases hzero with hz | hnone | hnil
        · exact hstatus hz
        · rw [hresults] at hnone
          cases hnone
        · rw [hresults] at hnil
          cases hnil
      · rw [hlookup] at hlookup'
        cases Except.ok.inj hlookup'
        rw [hresults] at hmany
        cases hmany
      · rw [hlookup] at hlookup'
        cases Except.ok.inj hlookup'
        rw [hresults] at hone
        cases hone
        rcases hops with ⟨m, hm⟩ | ⟨m, hm⟩ | ⟨rawComponents', hextract', hinherited⟩
        · rw [hextract] at hm
          cases hm
        · rw [hloc] at hm
          cases hm
        · rw [hextract] at hextract'
          cases Except.ok.inj hextract'
          rw [(standardize_strings_eq_none rawComponents).mpr hinherited] at hstrings
          cases hstrings
    obtain ⟨original, reason, name, _, rfl⟩ :=
      validateAddress_eq_unverifiable provider address response h hnot
    exact ⟨rfl, rfl, rfl, rfl, rfl⟩

/-- Witness for C11: the low-confidence test input; the status is
`unverifiable` and the city is still the normalized `City`. -/
theorem validateAddress_standardized_fields_witness :
    validateAddress approximateProvider (some "city only") = .ok approximateResponse ∧
    approximateResponse.status = "unverifiable" ∧
    (approximateResponse.standardized.number = normalizeNumber approximateComponents.number ∧
      approximateResponse.standardized.street
        = normalizeStreet approximateComponents.street ∧
      Dynamic.typed approximateResponse.standardized.city
        = normalizeCity approximateComponents.city ∧
      Dynamic.typed approximateResponse.standardized.state
        = normalizeState approximateComponents.state ∧
      approximateResponse.standardized.zipCode
        = normalizeZipCode approximateComponents.zipCode) :=
  ⟨validateAddress_approximate, rfl,
    (validateAddress_standardized_fields approximateProvider (some "city only")
      approximateResponse validateAddress_approximate).1
      { status := some "OK", results := some [approximateResult] } approximateResult
      approximateComponents "APPROXIMATE" "City" "" (by decide) rfl (by decide) rfl rfl rfl
      (by decide) (by decide)⟩

/-- Rounding to two decimals moves a value by at most `0.005`. -/
lemma roundTwoDecimals_close (c : ℚ) : |roundTwoDecimals c - c| ≤ 5 / 1000 := by
  unfold roundTwoDecimals
  have hlow := Int.floor_le (c * 100 + 1 / 2)
  have hhigh := Int.lt_floor_add_one (c * 100 + 1 / 2)
  rw [abs_le]
  constructor
  · rw [le_sub_iff_add_le, le_div_iff₀ (by norm_num)]
    linarith
  · rw [sub_le_iff_le_add, div_le_iff₀ (by norm_num)]
    linarith

/-- C12: whenever the provider returns exactly one result and the run reaches
the scoring step with a numeric accuracy, the confidence of the returned record
is a number `v` of which a hundred times is an integer and which differs from
the unrounded score `c` of `calculateConfidence` by at most `0.005`; it is `c`
rounded to two decimals, half up, `floor(100 * c + 1/2) / 100`, whenever the
exact score `c` is not half-way between two hundredths (at such a score the
source's floating-point value of `c` lies below the exact one). -/
theorem validateAddress_confidence_rounded (provider : Provider)
    (address : Option String) (geocodeResult : GeocodeResult) (result : RawResult)
    (rawComponents : RawComponents) (locationType name : String)
    (standardized : AddressComponents) (accuracy c : ℚ)
    (hvalid : isValidNonEmptyString address = true)
    (hlookup : provider.validateAddress (trimmed address) = .ok geocodeResult)
    (hstatus : geocodeResult.status ≠ some "ZERO_RESULTS")
    (hresults : geocodeResult.results = some [result])
    (hextract : provider.extractAddressComponents result = .ok rawComponents)
    (hloc : provider.getLocationType result = .ok locationType)
    (hstrings : (standardize rawComponents).strings = some standardized)
    (haccuracy : mapGoogleLocationTypeToAccuracy locationType = .typed accuracy)
    (hname : provider.getProviderName () = .ok name)
    (hc : c = calculateConfidence (hasAllComponents standardized) accuracy
      (checkExactMatch (some (trimmed address)) result.formatted_address)
      (calculateComponentMatchRatio (trimmed address) standardized)) :
    ∃ response v, validateAddress provider address = .ok response ∧
      response.confidence = .number v ∧
      (∃ n : ℤ, 100 * v = (n : ℚ)) ∧
      |v - c| ≤ 5 / 1000 ∧
      ((¬ ∃ n : ℤ, 100 * c + 1 / 2 = (n : ℚ)) →
        v = ((⌊100 * c + 1 / 2⌋ : ℤ) : ℚ) / 100) := by
  have hrun : ReachesScoring provider address result rawComponents locationType
      standardized :=
    ⟨hvalid, ⟨geocodeResult, hlookup, hstatus, hresults⟩, hextract, hloc, hstrings⟩
  have hconf : confidenceOf address result standardized locationType = .number c := by
    rw [confidenceOf_of_typed address result standardized locationType accuracy haccuracy,
      hc]
    rfl
  refine ⟨_, roundTwoDecimals c, validateAddress_scored provider address result
    rawComponents locationType name standardized hrun hname, ?_, ?_,
    roundTwoDecimals_close c, fun _ => ?_⟩
  · simp only [scoredResponse, hconf, JSNumber.roundTwoDecimals]
  · refine ⟨⌊c * 100 + 1 / 2⌋, ?_⟩
    simp only [roundTwoDecimals]
    field_simp
  · simp only [roundTwoDecimals, mul_comm c 100]

/-- Witness for C12: the typo test input, with unrounded score `0.88`. -/
theorem validateAddress_confidence_rounded_witness :
    ∃ response v,
      validateAddress rooftopProvider (some "1600 amphitheatre pkwy mountain view ca")
        = .ok response ∧
      response.confidence = .number v ∧
      (∃ n : ℤ, 100 * v = (n : ℚ)) ∧
      |v - calculateConfidence (hasAllComponents rooftopStandardized) 1
          (checkExactMatch (some (trimmed (some "1600 amphitheatre pkwy mountain view ca")))
            rooftopResult.formatted_address)
          (calculateComponentMatchRatio
            (trimmed (some "1600 amphitheatre pkwy mountain view ca"))
            rooftopStandardized)| ≤ 5 / 1000 ∧
      ((¬ ∃ n : ℤ, 100 * calculateConfidence (hasAllComponents rooftopStandardized) 1
          (checkExactMatch (some (trimmed (some "1600 amphitheatre pkwy mountain view ca")))
            rooftopResult.formatted_address)
          (calculateComponentMatchRatio
            (trimmed (some "1600 amphitheatre pkwy mountain view ca"))
            rooftopStandardized) + 1 / 2 = (n : ℚ)) →
        v = ((⌊100 * calculateConfidence (hasAllComponents rooftopStandardized) 1
          (checkExactMatch (some (trimmed (some "1600 amphitheatre pkwy mountain view ca")))
            rooftopResult.formatted_address)
          (calculateComponentMatchRatio
            (trimmed (some "1600 amphitheatre pkwy mountain view ca"))
            rooftopStandardized) + 1 / 2⌋ : ℤ) : ℚ) / 100) :=
  validateAddress_confidence_rounded rooftopProvider
    (some "1600 amphitheatre pkwy mountain view ca")
    { status := some "OK", results := some [rooftopResult] } rooftopResult
    rooftopComponents "ROOFTOP" "google-geocoding" rooftopStandardized 1 _
    (by decide) rfl (by decide) rfl rfl rfl standardize_rooftopComponents
    mapGoogleLocationTypeToAccuracy_rooftop rfl rfl

/-- C13: a record returned by `validateAddress` with status `valid` or
`corrected` carries no reason; a reason occurs only on records with status
`unverifiable`. -/
theorem validateAddress_reason_only_when_unverifiable (provider : Provider)
    (address : Option String) (response : ValidationResult)
    (h : validateAddress provider address = .ok response) :
    ((response.status = "valid" ∨ response.status = "corrected") →
      response.reason = none) ∧
    (response.reason ≠ none → response.status = "unverifiable") := by
  rcases validateAddress_ok_inv provider address response h with
    ⟨original, reason, name, _, rfl⟩ |
    ⟨result, rawComponents, locationType, standardized, name, _, _, rfl⟩
  · constructor
    · intro hstatus
      simp only [unverifiableResponse] at hstatus
      rcases hstatus with hs | hs <;> exact absurd hs (by decide)
    · intro _
      rfl
  · constructor
    · intro _
      rfl
    · intro hreason
      exact absurd rfl hreason

/-- Witness for C13: the perfect-match record has status `valid` and no
reason. -/
theorem validateAddress_reason_only_when_unverifiable_witness :
    validateAddress rooftopProvider
      (some "1600 Amphitheatre Parkway, Mountain View, CA 94043") = .ok perfectResponse ∧
    (((perfectResponse.status = "valid" ∨ perfectResponse.status = "corrected") →
      perfectResponse.reason = none) ∧
    (perfectResponse.reason ≠ none → perfectResponse.status = "unverifiable")) :=
  ⟨validateAddress_perfect,
    validateAddress_reason_only_when_unverifiable rooftopProvider
      (some "1600 Amphitheatre Parkway, Mountain View, CA 94043") perfectResponse
      validateAddress_perfect⟩

/-- C14: every record returned by `validateAddress`, in every outcome, has its
`provider` field equal to the value of the provider's `getProviderName()`; for
`GoogleProvider`, whatever the upstream answers, it is `google-geocoding`. -/
theorem validateAddress_provider_field (provider : Provider) (address : Option String)
    (response : ValidationResult)
    (h : validateAddress provider address = .ok response) :
    provider.getProviderName () = .ok response.provider ∧
    (∀ fetch, provider = googleProvider fetch → response.provider = "google-geocoding") := by
  have hfield : provider.getProviderName () = .ok response.provider := by
    rcases validateAddress_ok_inv provider address response h with
      ⟨original, reason, name, hname, rfl⟩ |
      ⟨result, rawComponents, locationType, standardized, name, _, hname, rfl⟩ <;>
      exact hname
  refine ⟨hfield, fun fetch hgoogle => ?_⟩
  subst hgoogle
  exact (Except.ok.inj hfield).symm

/-- The typo test input on `GoogleProvider` with the rooftop upstream. -/
lemma validateAddress_google_typo :
    validateAddress (googleProvider rooftopFetch)
      (some "1600 amphitheatre pkwy mountain view ca") = .ok typoResponse := by
  have hrun : ReachesScoring (googleProvider rooftopFetch)
      (some "1600 amphitheatre pkwy mountain view ca")
      rooftopResult rooftopComponents "ROOFTOP" rooftopStandardized :=
    ⟨by decide, ⟨{ status := some "OK", results := some [rooftopResult] }, rfl,
      by decide, rfl⟩, rfl, rfl, standardize_rooftopComponents⟩
  have hrun' : ReachesScoring rooftopProvider (some "1600 amphitheatre pkwy mountain view ca")
      rooftopResult rooftopComponents "ROOFTOP" rooftopStandardized :=
    ⟨by decide, ⟨_, rfl, by decide, rfl⟩, rfl, rfl, standardize_rooftopComponents⟩
  have hscored := validateAddress_scored rooftopProvider _ _ _ _ "google-geocoding" _ hrun' rfl
  rw [validateAddress_typo] at hscored
  rw [validateAddress_scored (googleProvider rooftopFetch) _ _ _ _ "google-geocoding" _ hrun
    rfl]
  exact hscored.symm

/-- Witness for C14: the typo test input on `GoogleProvider` with the rooftop
upstream. -/
theorem validateAddress_provider_field_witness :
    validateAddress (googleProvider rooftopFetch)
      (some "1600 amphitheatre pkwy mountain view ca") = .ok typoResponse ∧
    ((googleProvider rooftopFetch).getProviderName () = .ok typoResponse.provider ∧
    (∀ fetch, googleProvider rooftopFetch = googleProvider fetch →
      typoResponse.provider = "google-geocoding")) :=
  ⟨validateAddress_google_typo,
    validateAddress_provider_field (googleProvider rooftopFetch)
      (some "1600 amphitheatre pkwy mountain view ca") typoResponse
      validateAddress_google_typo⟩

/-! ## The match heuristics -/

/-- The call `s.includes(t)` holds exactly when `t` is a contiguous part of
`s`. -/
lemma includes_iff_contiguous (s t : List Char) : includes s t = true ↔ t <:+: s := by
  induction s with
  | nil =>
    cases t with
    | nil => simp [includes]
    | cons c cs => simp [includes]
  | cons c cs ih =>
    rw [includes, Bool.or_eq_true, ih, List.isPrefixOf_iff_prefix, List.infix_cons_iff]

/-- The character class `[a-z]` in terms of the order of characters. -/
lemma isLowerAZ_iff (c : Char) : isLowerAZ c = true ↔ 'a' ≤ c ∧ c ≤ 'z' := by
  unfold isLowerAZ
  rw [Bool.and_eq_true, decide_eq_true_iff, decide_eq_true_iff]
  exact Iff.rfl

/-- The character class `[0-9]` in terms of the order of characters. -/
lemma isDigit09_iff (c : Char) : isDigit09 c = true ↔ '0' ≤ c ∧ c ≤ '9' := by
  unfold isDigit09
  rw [Bool.and_eq_true, decide_eq_true_iff, decide_eq_true_iff]
  exact Iff.rfl

/-- The inner `normalize` of `checkExactMatch` computes `alphanumericLower`. -/
lemma filter_alphanumeric_eq (s : String) :
    (toLowerCase s.data).filter (fun c => isLowerAZ c || isDigit09 c) = alphanumericLower s := by
  unfold alphanumericLower
  congr 1
  funext c
  rw [Bool.eq_iff_iff, Bool.or_eq_true, isLowerAZ_iff, isDigit09_iff, decide_eq_true_iff]

/-- C15: `checkExactMatch(original, formatted)` is false if either argument is
empty or absent; otherwise, with `n(s)` the string `s` lower-cased with every
character outside `a-z` and `0-9` removed, it is true if and only if
`n(formatted)` contains `n(original)` as a substring or `n(original)` contains
`n(formatted)` as a substring. -/
theorem checkExactMatch_spec (original formatted : Option String) :
    ((original = none ∨ original = some "" ∨ formatted = none ∨ formatted = some "") →
      checkExactMatch original formatted = false) ∧
    (∀ o f, original = some o → formatted = some f → o ≠ "" → f ≠ "" →
      (checkExactMatch original formatted = true ↔
        alphanumericLower o <:+: alphanumericLower f ∨
          alphanumericLower f <:+: alphanumericLower o)) := by
  constructor
  · rintro (h | h | h | h)
    · subst h
      rfl
    · subst h
      cases formatted <;> simp [checkExactMatch]
    · subst h
      cases original <;> rfl
    · subst h
      cases original <;> simp [checkExactMatch]
  · intro o f ho hf hone hfne
    subst ho
    subst hf
    simp only [checkExactMatch, hone, hfne, or_self, if_false, filter_alphanumeric_eq,
      Bool.or_eq_true, includes_iff_contiguous]

/-- The loop of `calculateComponentMatchRatio` adds to its two counters the
number of hits and the number of non-empty values. -/
lemma countMatches_eq (originalLower : List Char) (values : List String)
    (matched total : Nat) :
    countMatches originalLower values (matched, total) =
      (matched + values.countP
          (fun value => decide (value ≠ "" ∧ toLowerCase value.data <:+: originalLower)),
        total + values.countP (fun value => decide (value ≠ ""))) := by
  induction values generalizing matched total with
  | nil => simp [countMatches]
  | cons value rest ih =>
    by_cases hempty : value = ""
    · simp [countMatches, hempty, ih]
    · by_cases hhit : includes originalLower (toLowerCase value.data) = true
      · have hpart := (includes_iff_contiguous _ _).mp hhit
        simp [countMatches, hempty, hhit, hpart, ih, Nat.add_assoc, Nat.add_comm 1]
      · have hpart : ¬ toLowerCase value.data <:+: originalLower :=
          fun h => hhit ((includes_iff_contiguous _ _).mpr h)
        simp [countMatches, hempty, hhit, hpart, ih, Nat.add_assoc, Nat.add_comm 1]

/-- C16: `calculateComponentMatchRatio(original, standardized)` is the number of
fields among number, street, city, state, zipCode that are non-empty and whose
lower-cased value is a substring of the lower-cased original, divided by the
number of those fields that are non-empty; it is `0` when none of the five
fields is non-empty, for every original. -/
theorem calculateComponentMatchRatio_spec (original : String)
    (standardized : AddressComponents) :
    calculateComponentMatchRatio original standardized =
      (if presentCount standardized = 0 then 0
       else (hitCount original standardized : ℚ) / (presentCount standardized : ℚ)) ∧
    ((standardized.number = "" ∧ standardized.street = "" ∧ standardized.city = "" ∧
        standardized.state = "" ∧ standardized.zipCode = "") →
      calculateComponentMatchRatio original standardized = 0) := by
  have hratio : calculateComponentMatchRatio original standardized =
      (if presentCount standardized = 0 then 0
       else (hitCount original standardized : ℚ) / (presentCount standardized : ℚ)) := by
    simp only [calculateComponentMatchRatio, countMatches_eq, Nat.zero_add]
    by_cases hzero : presentCount standardized = 0
    · have hzero' := hzero
      unfold presentCount componentValues at hzero'
      rw [if_pos hzero, if_neg (by omega)]
    · have hzero' := hzero
      unfold presentCount componentValues at hzero'
      rw [if_neg hzero, if_pos (by omega)]
      rfl
  refine ⟨hratio, fun hall => ?_⟩
  obtain ⟨h1, h2, h3, h4, h5⟩ := hall
  rw [hratio, if_pos]
  simp [presentCount, componentValues, h1, h2, h3, h4, h5]

/-! ## The ZIP code normalizer -/

/-- The character class `[0-9]` is the standard digit test. -/
lemma isDigit09_eq_isDigit : isDigit09 = Char.isDigit := by
  funext c
  rfl

/-- C17: for every string `x` (and for an absent input), `normalizeZipCode(x)`
has length at most `5` and contains only decimal digits. -/
theorem normalizeZipCode_length_and_digits (x : Option String) :
    (normalizeZipCode x).length ≤ 5 ∧
      ∀ c ∈ (normalizeZipCode x).data, '0' ≤ c ∧ c ≤ '9' := by
  cases x with
  | none => simp [normalizeZipCode]
  | some s =>
    by_cases hempty : s = ""
    · simp [normalizeZipCode, hempty]
    · simp only [normalizeZipCode, hempty, if_false, String.length]
      constructor
      · exact List.length_take_le 5 _
      · intro c hc
        have hmem := List.mem_of_mem_take hc
        exact (isDigit09_iff c).mp (List.mem_filter.mp hmem).2

/-- C18: for every string `x`, `normalizeZipCode(x)` is the first `min(5, k)`
characters of the sequence of the `k` digit characters of `x` in their original
order; `94043-1234` gives `94043` and `123` gives `123`. -/
theorem normalizeZipCode_spec (x : String) :
    normalizeZipCode (some x) =
      String.mk ((x.data.filter Char.isDigit).take
        (min 5 (x.data.filter Char.isDigit).length)) ∧
    normalizeZipCode (some "94043-1234") = "94043" ∧
    normalizeZipCode (some "123") = "123" := by
  refine ⟨?_, by decide, by decide⟩
  have htake : ∀ l : List Char, l.take (min 5 l.length) = l.take 5 := by
    intro l
    rcases le_total 5 l.length with h | h
    · rw [min_eq_left h]
    · rw [min_eq_right h, List.take_length, List.take_of_length_le h]
  rw [htake]
  by_cases hempty : x = ""
  · subst hempty
    rfl
  · simp only [normalizeZipCode, hempty, if_false, isDigit09_eq_isDigit]

/-! ## The state normalizer -/

/-- Outside `a-z`, `Char.toUpper` is the identity. -/
lemma toUpper_of_not_lower (c : Char) (h : ¬ (97 ≤ c.toNat ∧ c.toNat ≤ 122)) :
    c.toUpper = c := by
  unfold Char.toUpper
  simp only [ge_iff_le]
  rw [if_neg h]

/-- Outside `A-Z`, `Char.toLower` is the identity. -/
lemma toLower_of_not_upper (c : Char) (h : ¬ (65 ≤ c.toNat ∧ c.toNat ≤ 90)) :
    c.toLower = c := by
  unfold Char.toLower
  simp only [ge_iff_le]
  rw [if_neg h]

/-- The facts on a letter of `a-z` used below, checked letter by letter. -/
lemma lowercase_facts (c : Char) (h : 97 ≤ c.toNat ∧ c.toNat ≤ 122) :
    isWhiteSpace c = false ∧ isWhiteSpace c.toUpper = false ∧ c.toUpper.toLower = c ∧
    c.toLower = c ∧ c.toUpper.toUpper = c.toUpper ∧ c.toUpper.toNat < 128 ∧
    upperChar c = [c.toUpper] ∧ lowerChar c.toUpper = [c] ∧ isLowerAZ c = true := by
  obtain ⟨h1, h2⟩ := h
  rw [← Char.ofNat_toNat c]
  generalize c.toNat = n at h1 h2
  interval_cases n <;> decide

/-- On an ASCII character `toUpperCase` is `Char.toUpper`. -/
lemma upperChar_ascii (c : Char) (h : c.toNat < 128) : upperChar c = [c.toUpper] := by
  simp only [upperChar]
  rw [if_neg (by omega), if_neg (by omega), if_neg (by omega), if_neg (by omega),
    if_neg (by omega), if_neg (by omega), if_neg (by omega), if_neg (by omega),
    if_neg (by omega), if_neg (by omega)]

/-- On an ASCII character `toLowerCase` is `Char.toLower`. -/
lemma lowerChar_ascii (c : Char) (h : c.toNat < 128) : lowerChar c = [c.toLower] := by
  simp only [lowerChar]
  rw [if_neg (by omega), if_neg (by omega)]

/-- On an ASCII string `toUpperCase` maps `Char.toUpper`. -/
lemma toUpperCase_ascii (d : List Char) (h : ∀ c ∈ d, c.toNat < 128) :
    toUpperCase d = d.map Char.toUpper := by
  induction d with
  | nil => rfl
  | cons c cs ih =>
    rw [toUpperCase, upperChar_ascii c (h c (List.mem_cons_self c cs)),
      ih (fun x hx => h x (List.mem_cons_of_mem c hx))]
    rfl

/-- On an ASCII string `toLowerCase` maps `Char.toLower`. -/
lemma toLowerCase_ascii (d : List Char) (h : ∀ c ∈ d, c.toNat < 128) :
    toLowerCase d = d.map Char.toLower := by
  induction d with
  | nil => rfl
  | cons c cs ih =>
    rw [toLowerCase, lowerChar_ascii c (h c (List.mem_cons_self c cs)),
      ih (fun x hx => h x (List.mem_cons_of_mem c hx))]
    rfl

/-- Upper-casing does not change whether a character is white space. -/
lemma isWhiteSpace_toUpper (c : Char) : isWhiteSpace c.toUpper = isWhiteSpace c := by
  by_cases h : 97 ≤ c.toNat ∧ c.toNat ≤ 122
  · obtain ⟨h1, h2, _⟩ := lowercase_facts c h
    rw [h1, h2]
  · rw [toUpper_of_not_lower c h]

/-- Lower-casing after upper-casing is lower-casing. -/
lemma toLower_toUpper (c : Char) : c.toUpper.toLower = c.toLower := by
  by_cases h : 97 ≤ c.toNat ∧ c.toNat ≤ 122
  · obtain ⟨_, _, h3, h4, _⟩ := lowercase_facts c h
    rw [h3, h4]
  · rw [toUpper_of_not_lower c h]

/-- Upper-casing twice is upper-casing. -/
lemma toUpper_toUpper (c : Char) : c.toUpper.toUpper = c.toUpper := by
  by_cases h : 97 ≤ c.toNat ∧ c.toNat ≤ 122
  · exact (lowercase_facts c h).2.2.2.2.1
  · rw [toUpper_of_not_lower c h, toUpper_of_not_lower c h]

/-- Upper-casing keeps a character ASCII. -/
lemma toUpper_ascii (c : Char) (hc : c.toNat < 128) : c.toUpper.toNat < 128 := by
  by_cases h : 97 ≤ c.toNat ∧ c.toNat ≤ 122
  · exact (lowercase_facts c h).2.2.2.2.2.1
  · rw [toUpper_of_not_lower c h]
    exact hc

/-- Trimming commutes with upper-casing every character. -/
lemma trim_map_toUpper (d : List Char) :
    trim (d.map Char.toUpper) = (trim d).map Char.toUpper := by
  have hcomp : isWhiteSpace ∘ Char.toUpper = isWhiteSpace := by
    funext c
    exact isWhiteSpace_toUpper c
  unfold trim
  rw [List.dropWhile_map, hcomp, ← List.map_reverse, List.dropWhile_map, hcomp,
    ← List.map_reverse]

/-- The characters of a trimmed string are characters of the string. -/
lemma mem_of_mem_trim (d : List Char) (c : Char) (h : c ∈ trim d) : c ∈ d := by
  unfold trim at h
  rw [List.mem_reverse] at h
  have h1 := (List.dropWhile_sublist isWhiteSpace).subset h
  rw [List.mem_reverse] at h1
  exact (List.dropWhile_sublist isWhiteSpace).subset h1

/-- A string built from a non-empty list of characters is not the empty string. -/
lemma mk_ne_empty (l : List Char) (h : l ≠ []) : String.mk l ≠ "" :=
  fun h' => h (congrArg String.data h')

/-- A conditional that yields `some abbr` does so in its first branch or in the
rest. -/
lemma ite_some_cases {α : Type} (c : Prop) [Decidable c] (v : α) (rest : Option α)
    (abbr : α) (h : (if c then some v else rest) = some abbr) :
    v = abbr ∨ rest = some abbr := by
  by_cases hc : c
  · rw [if_pos hc] at h
    exact Or.inl (Option.some.inj h)
  · rw [if_neg hc] at h
    exact Or.inr h

/-- No name of an inherited property is a written key of `stateMap`, and none
has two characters. -/
lemma stateMap_of_inherited (key : String) (h : key ∈ objectPrototypeKeys) :
    stateMap key = none ∧ key.data.length ≠ 2 := by
  have hkeys : ∀ k ∈ objectPrototypeKeys, stateMap k = none ∧ k.data.length ≠ 2 := by
    decide
  exact hkeys key h

/-- Every code of the state table is returned unchanged by `normalizeState`. -/
lemma normalizeState_stateMap_value (name abbr : String) (h : stateMap name = some abbr) :
    normalizeState (some abbr) = .typed abbr := by
  unfold stateMap at h
  iterate 51
    replace h := ite_some_cases _ _ _ _ h
    rcases h with rfl | h
    · decide
  cases h

/-- The upper-cased form of two letters of `a-z` is returned unchanged by
`normalizeState`. -/
lemma normalizeState_two_letters (l : List Char) (hlen : l.length = 2)
    (hall : l.all isLowerAZ = true) :
    normalizeState (some (String.mk (toUpperCase l))) = .typed (String.mk (toUpperCase l)) := by
  match l, hlen with
  | [a, b], _ =>
    simp only [List.all_cons, List.all_nil, Bool.and_true, Bool.and_eq_true] at hall
    obtain ⟨ha, hb⟩ := hall
    have hfa := lowercase_facts a ((isLowerAZ_iff a).mp ha)
    have hfb := lowercase_facts b ((isLowerAZ_iff b).mp hb)
    obtain ⟨_, hwa, _, _, _, _, hua, hla, _⟩ := hfa
    obtain ⟨_, hwb, _, _, _, _, hub, hlb, _⟩ := hfb
    have hupper : toUpperCase [a, b] = [a.toUpper, b.toUpper] := by
      simp [toUpperCase, hua, hub]
    have htrim : trim [a.toUpper, b.toUpper] = [a.toUpper, b.toUpper] := by
      simp [trim, List.dropWhile, hwa, hwb]
    have hlower : toLowerCase [a.toUpper, b.toUpper] = [a, b] := by
      simp [toLowerCase, hla, hlb]
    rw [hupper]
    have hne : String.mk [a.toUpper, b.toUpper] ≠ "" := mk_ne_empty _ (by simp)
    simp only [normalizeState, hne, if_false, htrim, hlower, List.length_cons,
      List.length_nil, List.all_cons, List.all_nil, ha, hb, Bool.and_true, hupper]
    simp

/-- The three branches of `normalizeState` on a non-empty string, and the
inherited property that its lookup can return. -/
lemma normalizeState_cases (s : String) (hne : s ≠ "") :
    ((toLowerCase (trim s.data)).length = 2 ∧
        (toLowerCase (trim s.data)).all isLowerAZ = true →
      normalizeState (some s) = .typed (String.mk (toUpperCase (toLowerCase (trim s.data))))) ∧
    (¬ ((toLowerCase (trim s.data)).length = 2 ∧
        (toLowerCase (trim s.data)).all isLowerAZ = true) →
      (∀ abbr, stateMap (String.mk (toLowerCase (trim s.data))) = some abbr →
        normalizeState (some s) = .typed abbr) ∧
      (stateMap (String.mk (toLowerCase (trim s.data))) = none →
        String.mk (toLowerCase (trim s.data)) ∉ objectPrototypeKeys →
        normalizeState (some s) = .typed (String.mk (toUpperCase s.data))) ∧
      (String.mk (toLowerCase (trim s.data)) ∈ objectPrototypeKeys →
        normalizeState (some s) = .inherited (String.mk (toLowerCase (trim s.data))))) := by
  refine ⟨fun hcond => ?_, fun hcond => ⟨fun abbr hmap => ?_, fun hmap hkey => ?_,
    fun hkey => ?_⟩⟩
  · simp only [normalizeState, hne, if_false, hcond, and_self, if_true]
  · simp only [normalizeState, hne, if_false, hcond, getProperty_of_some _ _ _ hmap]
  · simp only [normalizeState, hne, if_false, hcond, getProperty_of_none _ _ hmap hkey]
  · simp only [normalizeState, hne, if_false, hcond,
      getProperty_of_inherited _ _ (stateMap_of_inherited _ hkey).1 hkey]

/-- C19 (amended): `normalizeState` is idempotent on the ASCII strings whose
trimmed, lower-cased form is not the name of a property inherited from
`Object.prototype`: for every such string `s`, `normalizeState(s)` is a string
and `normalizeState(normalizeState(s)) == normalizeState(s)`. -/
theorem normalizeState_idempotent_ascii (s : String)
    (hascii : ∀ c ∈ s.data, c.toNat < 128)
    (hkey : String.mk (toLowerCase (trim s.data)) ∉ objectPrototypeKeys) :
    ∃ state, normalizeState (some s) = .typed state ∧
      normalizeState (some state) = .typed state := by
  by_cases hempty : s = ""
  · subst hempty
    exact ⟨"", rfl, rfl⟩
  · have hdata : s.data ≠ [] := fun h => hempty (String.ext h)
    obtain ⟨htwo, hother⟩ := normalizeState_cases s hempty
    by_cases hA : (toLowerCase (trim s.data)).length = 2 ∧
        (toLowerCase (trim s.data)).all isLowerAZ = true
    · exact ⟨_, htwo hA, normalizeState_two_letters _ hA.1 hA.2⟩
    · obtain ⟨hfound, hmissing, _⟩ := hother hA
      cases hmap : stateMap (String.mk (toLowerCase (trim s.data))) with
      | some abbr =>
        exact ⟨abbr, hfound abbr hmap, normalizeState_stateMap_value _ abbr hmap⟩
      | none =>
        refine ⟨_, hmissing hmap hkey, ?_⟩
        rw [toUpperCase_ascii s.data hascii]
        have hne : String.mk (s.data.map Char.toUpper) ≠ "" :=
          mk_ne_empty _ (by simpa using hdata)
        have hasciiTrim : ∀ c ∈ trim s.data, c.toNat < 128 :=
          fun c hc => hascii c (mem_of_mem_trim s.data c hc)
        have hnormalized : toLowerCase (trim (s.data.map Char.toUpper))
            = toLowerCase (trim s.data) := by
          rw [trim_map_toUpper, toLowerCase_ascii _ hasciiTrim, toLowerCase_ascii]
          · rw [List.map_map]
            congr 1
            funext c
            exact toLower_toUpper c
          · intro c hc
            obtain ⟨x, hx, rfl⟩ := List.mem_map.mp hc
            exact toUpper_ascii x (hasciiTrim x hx)
        have hupper : toUpperCase (s.data.map Char.toUpper) = s.data.map Char.toUpper := by
          rw [toUpperCase_ascii]
          · rw [List.map_map]
            congr 1
            funext c
            exact toUpper_toUpper c
          · intro c hc
            obtain ⟨x, hx, rfl⟩ := List.mem_map.mp hc
            exact toUpper_ascii x (hascii x hx)
        obtain ⟨_, hother'⟩ := normalizeState_cases (String.mk (s.data.map Char.toUpper)) hne
        have hA' : ¬ ((toLowerCase (trim (String.mk (s.data.map Char.toUpper)).data)).length = 2 ∧
            (toLowerCase (trim (String.mk (s.data.map Char.toUpper)).data)).all isLowerAZ
              = true) := by
          simpa only [hnormalized] using hA
        have hsecond := (hother' hA').2.1
        simp only [hnormalized, hupper] at hsecond
        exact hsecond hmap hkey

/-- Witness for C19 (amended): the ASCII input ` North Carolina`. -/
theorem normalizeState_idempotent_ascii_witness :
    (∀ c ∈ " North Carolina".data, c.toNat < 128) ∧
    String.mk (toLowerCase (trim " North Carolina".data)) ∉ objectPrototypeKeys ∧
    ∃ state, normalizeState (some " North Carolina") = .typed state ∧
      normalizeState (some state) = .typed state :=
  ⟨by decide, by decide,
    normalizeState_idempotent_ascii " North Carolina" (by decide) (by decide)⟩

/-- C19 (as stated) fails: the string made of a dotless i followed by `owa` is
not in the state table and falls back to its upper-case form `IOWA`, which a
second pass maps to `IA`. -/
theorem normalizeState_not_idempotent :
    normalizeState (some "\u0131owa") = .typed "IOWA" ∧
    normalizeState (some "IOWA") = .typed "IA" ∧
    normalizeState (some "IOWA") ≠ normalizeState (some "\u0131owa") := by
  decide

/-- C20: for every non-empty string `s`, with `t` the trimmed and lower-cased
`s`: if `t` is exactly two letters of `a-z`, `normalizeState(s)` is `t`
upper-cased; otherwise, if `t` is a name of the state table, it is that entry's
two-letter code (`california` gives `CA`, `north carolina` gives `NC`);
otherwise it should be the raw input `s` upper-cased, not trimmed.  It is,
unless `t` is the name of a property that `stateMap` inherits from
`Object.prototype`: `normalizeState` then returns that property, which is not a
string, as for the input `constructor`. -/
theorem normalizeState_spec_except_inherited_key :
    (∀ (s : String) (t : List Char), s ≠ "" → t = toLowerCase (trim s.data) →
      ((t.length = 2 ∧ ∀ c ∈ t, 'a' ≤ c ∧ c ≤ 'z') →
        normalizeState (some s) = .typed (String.mk (toUpperCase t))) ∧
      (¬ (t.length = 2 ∧ ∀ c ∈ t, 'a' ≤ c ∧ c ≤ 'z') →
        ∀ abbr, stateMap (String.mk t) = some abbr →
          normalizeState (some s) = .typed abbr) ∧
      (¬ (t.length = 2 ∧ ∀ c ∈ t, 'a' ≤ c ∧ c ≤ 'z') →
        stateMap (String.mk t) = none → String.mk t ∉ objectPrototypeKeys →
        normalizeState (some s) = .typed (String.mk (toUpperCase s.data))) ∧
      (String.mk t ∈ objectPrototypeKeys →
        normalizeState (some s) = .inherited (String.mk t))) ∧
    normalizeState (some "california") = .typed "CA" ∧
    normalizeState (some "north carolina") = .typed "NC" ∧
    "constructor" ≠ "" ∧
    ¬ ((toLowerCase (trim "constructor".data)).length = 2 ∧
      ∀ c ∈ toLowerCase (trim "constructor".data), 'a' ≤ c ∧ c ≤ 'z') ∧
    stateMap (String.mk (toLowerCase (trim "constructor".data))) = none ∧
    normalizeState (some "constructor") = .inherited "constructor" ∧
    normalizeState (some "constructor")
      ≠ .typed (String.mk (toUpperCase "constructor".data)) := by
  refine ⟨fun s t hne ht => ?_, by decide, by decide, by decide, by decide, by decide,
    by decide, by decide⟩
  have hall : (t.all isLowerAZ = true) ↔ ∀ c ∈ t, 'a' ≤ c ∧ c ≤ 'z' := by
    rw [List.all_eq_true]
    exact forall₂_congr (fun c _ => isLowerAZ_iff c)
  subst ht
  obtain ⟨htwo, hother⟩ := normalizeState_cases s hne
  refine ⟨fun h => htwo ⟨h.1, hall.mpr h.2⟩,
    fun hnot abbr hmap => (hother (fun h => hnot ⟨h.1, hall.mp h.2⟩)).1 abbr hmap,
    fun hnot hmap hkey => (hother (fun h => hnot ⟨h.1, hall.mp h.2⟩)).2.1 hmap hkey,
    fun hkey => ?_⟩
  have hlength := (stateMap_of_inherited _ hkey).2
  exact (hother (fun h => hlength h.1)).2.2 hkey

/-- Witness for C20: the input ` Puerto Rico `, which is neither two letters
nor a name of the table nor the name of an inherited property, is upper-cased
without being trimmed. -/
theorem normalizeState_spec_except_inherited_key_witness :
    " Puerto Rico " ≠ "" ∧
    ¬ ((toLowerCase (trim " Puerto Rico ".data)).length = 2 ∧
      ∀ c ∈ toLowerCase (trim " Puerto Rico ".data), 'a' ≤ c ∧ c ≤ 'z') ∧
    stateMap (String.mk (toLowerCase (trim " Puerto Rico ".data))) = none ∧
    String.mk (toLowerCase (trim " Puerto Rico ".data)) ∉ objectPrototypeKeys ∧
    normalizeState (some " Puerto Rico ") = .typed " PUERTO RICO " :=
  ⟨by decide, by decide, by decide, by decide,
    (normalizeState_spec_except_inherited_key.1 " Puerto Rico "
      (toLowerCase (trim " Puerto Rico ".data)) (by decide) rfl).2.2.1
      (by decide) (by decide) (by decide)⟩

/-! ## The street and city normalizers -/

/-- A conditional on `c` that yields `some abbr` does so in its first branch,
with `c`, or in the rest, without `c`. -/
lemma ite_some_cases_cond {α : Type} (c : Prop) [Decidable c] (v : α) (rest : Option α)
    (abbr : α) (h : (if c then some v else rest) = some abbr) :
    (c ∧ v = abbr) ∨ (¬ c ∧ rest = some abbr) := by
  by_cases hc : c
  · rw [if_pos hc] at h
    exact Or.inl ⟨hc, Option.some.inj h⟩
  · rw [if_neg hc] at h
    exact Or.inr ⟨hc, h⟩

/-- The table `streetTypes` of the code has exactly the entries of the
street-type table. -/
lemma streetTypes_eq_some_iff (word abbr : String) :
    streetTypes word = some abbr ↔ (word, abbr) ∈ streetTypeTable := by
  constructor
  · intro h
    unfold streetTypes at h
    iterate 20
      replace h := ite_some_cases_cond _ _ _ _ h
      rcases h with ⟨rfl, rfl⟩ | ⟨_, h⟩
      · decide
    cases h
  · intro h
    simp only [streetTypeTable, List.mem_cons, Prod.mk.injEq, List.mem_nil_iff, or_false]
      at h
    iterate 19
      rcases h with ⟨rfl, rfl⟩ | h
      · decide
    obtain ⟨rfl, rfl⟩ := h
    decide

/-- The table `specialCases` of the code has exactly the entries of the
exception table. -/
lemma specialCases_eq_some_iff (lower special : String) :
    specialCases lower = some special ↔ (lower, special) ∈ cityExceptionTable := by
  constructor
  · intro h
    unfold specialCases at h
    iterate 5
      replace h := ite_some_cases_cond _ _ _ _ h
      rcases h with ⟨rfl, rfl⟩ | ⟨_, h⟩
      · decide
    cases h
  · intro h
    simp only [cityExceptionTable, List.mem_cons, Prod.mk.injEq, List.mem_nil_iff, or_false]
      at h
    iterate 4
      rcases h with ⟨rfl, rfl⟩ | h
      · decide
    obtain ⟨rfl, rfl⟩ := h
    decide

/-- The call `words.join(' ')` is the library's `intercalate` with one space. -/
lemma joinSpace_eq_intercalate (words : List (List Char)) :
    joinSpace words = [' '].intercalate words := by
  induction words with
  | nil => rfl
  | cons w ws ih =>
    cases ws with
    | nil => simp [joinSpace, List.intercalate]
    | cons w' ws' =>
      show w ++ ' ' :: joinSpace (w' :: ws') = _
      rw [ih]
      simp [List.intercalate, List.intersperse]

/-- No name of an inherited property is a written key of `streetTypes`. -/
lemma streetTypes_of_inherited (key : String) (h : key ∈ objectPrototypeKeys) :
    streetTypes key = none := by
  have hkeys : ∀ k ∈ objectPrototypeKeys, streetTypes k = none := by
    decide
  exact hkeys key h

/-- No name of an inherited property is a written key of `specialCases`. -/
lemma specialCases_of_inherited (key : String) (h : key ∈ objectPrototypeKeys) :
    specialCases key = none := by
  have hkeys : ∀ k ∈ objectPrototypeKeys, specialCases k = none := by
    decide
  exact hkeys key h

/-- The callback of `normalizeStreet` capitalizes every word before the last
position and looks the last one up in the table. -/
lemma normalizeWords_append (len index : Nat) (init : List (List Char)) (last : List Char)
    (hlen : index + init.length + 1 = len) :
    normalizeWords len index (init ++ [last]) = init.map capitalize ++ [lastWord last] := by
  induction init generalizing index with
  | nil =>
    have hindex : index = len - 1 := by
      simp only [List.length_nil] at hlen
      omega
    simp [normalizeWords, hindex]
  | cons word rest ih =>
    have hindex : ¬ index = len - 1 := by
      simp only [List.length_cons] at hlen
      omega
    have hrest : index + 1 + rest.length + 1 = len := by
      simp only [List.length_cons] at hlen
      omega
    simp only [List.cons_append, normalizeWords, hindex, if_false, List.map_cons,
      List.append_eq]
    rw [ih (index + 1) hrest]

/-- The value of `normalizeStreet` on a non-empty string whose words are `init`
followed by `last`. -/
lemma normalizeStreet_of_split (s : String) (hne : s ≠ "") (init : List (List Char))
    (last : List Char)
    (hsplit : splitWhitespace (trim (toLowerCase s.data)) = init ++ [last]) :
    normalizeStreet (some s) =
      String.mk ([' '].intercalate (init.map capitalize ++ [lastWord last])) := by
  simp only [normalizeStreet, hne, if_false, hsplit, joinSpace_eq_intercalate]
  rw [normalizeWords_append _ 0 init last (by simp)]

/-- Splitting on white space always yields at least one piece. -/
lemma splitGo_ne_nil (inSep : Bool) (s : List Char) : splitGo inSep s ≠ [] := by
  induction s generalizing inSep with
  | nil => simp [splitGo]
  | cons c cs ih =>
    unfold splitGo
    by_cases hws : isWhiteSpace c = true
    · cases inSep
      · simp [hws]
      · simp only [hws, if_true]
        exact ih true
    · simp only [hws, if_false]
      cases hsplit : splitGo false cs with
      | nil => simp
      | cons w ws => simp

/-- C21: for every non-empty street string, `normalizeStreet` lower-cases and
trims it, splits it on white-space runs, capitalizes the first letter of every
token but the last, and joins the tokens with single spaces; the last token is
replaced by its canonical abbreviation if it is a key of the street-type table
and should be capitalized otherwise (`parkway drive` gives `Parkway Dr`).  It
is, unless the last token is the name of a property that `streetTypes` inherits
from `Object.prototype`: the output then ends with the text of that property, as
for the input `constructor`. -/
theorem normalizeStreet_spec_except_inherited_key :
    (∀ s : String, s ≠ "" →
      (∃ init last, splitWhitespace (trim (toLowerCase s.data)) = init ++ [last]) ∧
      (∀ init last, splitWhitespace (trim (toLowerCase s.data)) = init ++ [last] →
        (∀ abbr, (String.mk last, abbr) ∈ streetTypeTable →
          normalizeStreet (some s) =
            String.mk ([' '].intercalate (init.map capitalize ++ [abbr.data]))) ∧
        ((∀ abbr, (String.mk last, abbr) ∉ streetTypeTable) →
          String.mk last ∉ objectPrototypeKeys →
          normalizeStreet (some s) =
            String.mk ([' '].intercalate (init.map capitalize ++ [capitalize last]))) ∧
        (String.mk last ∈ objectPrototypeKeys →
          normalizeStreet (some s) =
            String.mk ([' '].intercalate
              (init.map capitalize ++ [(inheritedText (String.mk last)).data]))))) ∧
    (∀ c cs, capitalize (c :: cs) = toUpperCase [c] ++ cs) ∧
    normalizeStreet (some "parkway drive") = "Parkway Dr" ∧
    "constructor" ≠ "" ∧
    splitWhitespace (trim (toLowerCase "constructor".data)) = [] ++ ["constructor".data] ∧
    (∀ abbr, ("constructor", abbr) ∉ streetTypeTable) ∧
    normalizeStreet (some "constructor") = "function Object() \x7b [native code] \x7d" ∧
    normalizeStreet (some "constructor") ≠ "Constructor" := by
  refine ⟨fun s hne => ⟨?_, fun init last hsplit => ⟨fun abbr hmem => ?_,
    fun hnotkey hkey => ?_, fun hkey => ?_⟩⟩, fun c cs => ?_, by decide, by decide,
    by decide, fun abbr hmem => ?_, by decide, by decide⟩
  · have hnonempty := splitGo_ne_nil false (trim (toLowerCase s.data))
    obtain ⟨init, last, hsplit⟩ := (List.eq_nil_or_concat _).resolve_left hnonempty
    exact ⟨init, last, by simpa [splitWhitespace] using hsplit⟩
  · rw [normalizeStreet_of_split s hne init last hsplit]
    simp only [lastWord, getProperty_of_some _ _ _ ((streetTypes_eq_some_iff _ _).mpr hmem)]
  · have hnone : streetTypes (String.mk last) = none := by
      cases hlookup : streetTypes (String.mk last) with
      | none => rfl
      | some abbr => exact absurd ((streetTypes_eq_some_iff _ _).mp hlookup) (hnotkey abbr)
    rw [normalizeStreet_of_split s hne init last hsplit]
    simp only [lastWord, getProperty_of_none _ _ hnone hkey]
  · rw [normalizeStreet_of_split s hne init last hsplit]
    simp only [lastWord,
      getProperty_of_inherited _ _ (streetTypes_of_inherited _ hkey) hkey]
  · simp [capitalize, toUpperCase]
  · have hlookup := (streetTypes_eq_some_iff "constructor" abbr).mpr hmem
    rw [streetTypes_of_inherited "constructor" (by decide)] at hlookup
    cases hlookup

/-- Witness for C21: the test input `main street`. -/
theorem normalizeStreet_spec_except_inherited_key_witness :
    "main street" ≠ "" ∧
    splitWhitespace (trim (toLowerCase "main street".data)) = ["main".data] ++ ["street".data] ∧
    ("street", "St") ∈ streetTypeTable ∧
    normalizeStreet (some "main street") = "Main St" :=
  ⟨by decide, by decide, by decide,
    ((normalizeStreet_spec_except_inherited_key.1 "main street" (by decide)).2
      ["main".data] "street".data (by decide)).1 "St" (by decide)⟩

/-- C22: for every non-empty city string, if its trimmed lower-cased form is a
key of the exception table (`new york`, `los angeles`, `san francisco`,
`san diego`, `las vegas`), `normalizeCity` returns that entry's canonical
spelling; otherwise it should return the title-cased form, in which every
white-space-separated token of the lower-cased input has its first letter
upper-cased, the tokens being joined with single spaces.  It does, unless the
trimmed lower-cased form is the name of a property that `specialCases` inherits
from `Object.prototype`: `normalizeCity` then returns that property, which is
not a string, as for the input `constructor`. -/
theorem normalizeCity_spec_except_inherited_key :
    (∀ s : String, s ≠ "" →
      (∀ special, (String.mk (trim (toLowerCase s.data)), special) ∈ cityExceptionTable →
        normalizeCity (some s) = .typed special) ∧
      ((∀ special, (String.mk (trim (toLowerCase s.data)), special) ∉ cityExceptionTable) →
        String.mk (trim (toLowerCase s.data)) ∉ objectPrototypeKeys →
        normalizeCity (some s) =
          .typed (String.mk ([' '].intercalate
            ((splitWhitespace (toLowerCase s.data)).map capitalize)))) ∧
      (String.mk (trim (toLowerCase s.data)) ∈ objectPrototypeKeys →
        normalizeCity (some s) = .inherited (String.mk (trim (toLowerCase s.data))))) ∧
    (∀ c cs, capitalize (c :: cs) = toUpperCase [c] ++ cs) ∧
    normalizeCity (some "new york") = .typed "New York" ∧
    normalizeCity (some "chicago") = .typed "Chicago" ∧
    "constructor" ≠ "" ∧
    (∀ special,
      (String.mk (trim (toLowerCase "constructor".data)), special) ∉ cityExceptionTable) ∧
    normalizeCity (some "constructor") = .inherited "constructor" ∧
    normalizeCity (some "constructor") ≠ .typed "Constructor" := by
  refine ⟨fun s hne => ⟨fun special hmem => ?_, fun hnotkey hkey => ?_, fun hkey => ?_⟩,
    fun c cs => ?_, by decide, by decide, by decide, fun special hmem => ?_, by decide,
    by decide⟩
  · simp only [normalizeCity, hne, if_false,
      getProperty_of_some _ _ _ ((specialCases_eq_some_iff _ _).mpr hmem)]
  · have hnone : specialCases (String.mk (trim (toLowerCase s.data))) = none := by
      cases hlookup : specialCases (String.mk (trim (toLowerCase s.data))) with
      | none => rfl
      | some special =>
        exact absurd ((specialCases_eq_some_iff _ _).mp hlookup) (hnotkey special)
    simp only [normalizeCity, hne, if_false, getProperty_of_none _ _ hnone hkey,
      joinSpace_eq_intercalate]
  · simp only [normalizeCity, hne, if_false,
      getProperty_of_inherited _ _ (specialCases_of_inherited _ hkey) hkey]
  · simp [capitalize, toUpperCase]
  · have hlookup := (specialCases_eq_some_iff _ special).mpr hmem
    have hkey : String.mk (trim (toLowerCase "constructor".data)) ∈ objectPrototypeKeys := by
      decide
    rw [specialCases_of_inherited _ hkey] at hlookup
    cases hlookup

/-- Witness for C22: the input ` Los ANGELES`, whose trimmed lower-cased form
is a key of the exception table. -/
theorem normalizeCity_spec_except_inherited_key_witness :
    " Los ANGELES" ≠ "" ∧
    (String.mk (trim (toLowerCase " Los ANGELES".data)), "Los Angeles")
      ∈ cityExceptionTable ∧
    normalizeCity (some " Los ANGELES") = .typed "Los Angeles" :=
  ⟨by decide, by decide,
    (normalizeCity_spec_except_inherited_key.1 " Los ANGELES" (by decide)).1 "Los Angeles"
      (by decide)⟩

/-- C23: each of the five normalizers returns the empty string when its input
is empty or absent, and should return a string on every string.
`normalizeStreet`, `normalizeZipCode` and `normalizeNumber` do (their results
are strings by construction, and no normalizer has a failing path on a string);
`normalizeCity` and `normalizeState` return a string unless the key of their
lookup is the name of a property inherited from `Object.prototype`: they then
return that property, as `normalizeCity` for `Constructor` and `normalizeState`
for `__proto__`. -/
theorem normalizers_strings_except_inherited_key :
    (normalizeStreet none = "" ∧ normalizeStreet (some "") = "") ∧
    (normalizeCity none = .typed "" ∧ normalizeCity (some "") = .typed "") ∧
    (normalizeState none = .typed "" ∧ normalizeState (some "") = .typed "") ∧
    (normalizeZipCode none = "" ∧ normalizeZipCode (some "") = "") ∧
    (normalizeNumber none = "" ∧ normalizeNumber (some "") = "") ∧
    (∀ s : String, String.mk (trim (toLowerCase s.data)) ∉ objectPrototypeKeys →
      ∃ city : String, normalizeCity (some s) = .typed city) ∧
    (∀ s : String, String.mk (toLowerCase (trim s.data)) ∉ objectPrototypeKeys →
      ∃ state : String, normalizeState (some s) = .typed state) ∧
    normalizeCity (some "Constructor") = .inherited "constructor" ∧
    (∀ city : String, normalizeCity (some "Constructor") ≠ .typed city) ∧
    normalizeState (some "__proto__") = .inherited "__proto__" ∧
    (∀ state : String, normalizeState (some "__proto__") ≠ .typed state) := by
  refine ⟨⟨rfl, rfl⟩, ⟨rfl, rfl⟩, ⟨rfl, rfl⟩, ⟨rfl, rfl⟩, ⟨rfl, rfl⟩, fun s hkey => ?_,
    fun s hkey => ?_, by decide, fun city => ?_, by decide, fun state => ?_⟩
  · by_cases hne : s = ""
    · subst hne
      exact ⟨"", rfl⟩
    · cases hlookup : specialCases (String.mk (trim (toLowerCase s.data))) with
      | some special =>
        exact ⟨special, by
          simp only [normalizeCity, hne, if_false, getProperty_of_some _ _ _ hlookup]⟩
      | none =>
        exact ⟨String.mk (joinSpace ((splitWhitespace (toLowerCase s.data)).map capitalize)),
          by simp only [normalizeCity, hne, if_false, getProperty_of_none _ _ hlookup hkey]⟩
  · by_cases hne : s = ""
    · subst hne
      exact ⟨"", rfl⟩
    · obtain ⟨htwo, hother⟩ := normalizeState_cases s hne
      by_cases hA : (toLowerCase (trim s.data)).length = 2 ∧
          (toLowerCase (trim s.data)).all isLowerAZ = true
      · exact ⟨_, htwo hA⟩
      · cases hlookup : stateMap (String.mk (toLowerCase (trim s.data))) with
        | some abbr => exact ⟨abbr, (hother hA).1 abbr hlookup⟩
        | none => exact ⟨_, (hother hA).2.1 hlookup hkey⟩
  · have hvalue : normalizeCity (some "Constructor") = .inherited "constructor" := by decide
    rw [hvalue]
    exact fun h => Dynamic.noConfusion h
  · have hvalue : normalizeState (some "__proto__") = .inherited "__proto__" := by decide
    rw [hvalue]
    exact fun h => Dynamic.noConfusion h

/-- Witness for C23: the city ` Los ANGELES` and the state ` Puerto Rico ` are
normalized to strings. -/
theorem normalizers_strings_except_inherited_key_witness :
    (∃ city : String, normalizeCity (some " Los ANGELES") = .typed city) ∧
    (∃ state : String, normalizeState (some " Puerto Rico ") = .typed state) :=
  ⟨normalizers_strings_except_inherited_key.2.2.2.2.2.1 " Los ANGELES" (by decide),
    normalizers_strings_except_inherited_key.2.2.2.2.2.2.1 " Puerto Rico " (by decide)⟩

/-! ## The accuracy tiers -/

/-- C24: `mapGoogleLocationTypeToAccuracy` maps `ROOFTOP` to `1.0`,
`RANGE_INTERPOLATED` to `0.85`, `GEOMETRIC_CENTER` to `0.7`, `APPROXIMATE` to
`0.5`, and should map every other tier string, the empty string included, to the
default `0.3`.  It does, unless the tier is the name of a property that
`accuracyMap` inherits from `Object.prototype`: the lookup then finds that
property, which is truthy, and the function returns it instead of a number, as
for the tier `constructor`. -/
theorem mapGoogleLocationTypeToAccuracy_spec_except_inherited_key :
    mapGoogleLocationTypeToAccuracy "ROOFTOP" = .typed 1 ∧
    mapGoogleLocationTypeToAccuracy "RANGE_INTERPOLATED" = .typed (85 / 100) ∧
    mapGoogleLocationTypeToAccuracy "GEOMETRIC_CENTER" = .typed (7 / 10) ∧
    mapGoogleLocationTypeToAccuracy "APPROXIMATE" = .typed (5 / 10) ∧
    (∀ locationType : String,
      locationType ∉ ["ROOFTOP", "RANGE_INTERPOLATED", "GEOMETRIC_CENTER", "APPROXIMATE"] →
      locationType ∉ objectPrototypeKeys →
      mapGoogleLocationTypeToAccuracy locationType = .typed (3 / 10)) ∧
    (∀ locationType : String, locationType ∈ objectPrototypeKeys →
      mapGoogleLocationTypeToAccuracy locationType = .inherited locationType) ∧
    mapGoogleLocationTypeToAccuracy "" = .typed (3 / 10) ∧
    mapGoogleLocationTypeToAccuracy "UNKNOWN" = .typed (3 / 10) ∧
    "constructor" ∉ ["ROOFTOP", "RANGE_INTERPOLATED", "GEOMETRIC_CENTER", "APPROXIMATE"] ∧
    mapGoogleLocationTypeToAccuracy "constructor" = .inherited "constructor" ∧
    mapGoogleLocationTypeToAccuracy "constructor" ≠ .typed (3 / 10) := by
  obtain ⟨h1, h2, h3, h4⟩ := mapGoogleLocationTypeToAccuracy_named
  have hconstructor := mapGoogleLocationTypeToAccuracy_inherited "constructor" (by decide)
  refine ⟨h1, h2, h3, h4, fun locationType hnot hkey => ?_,
    mapGoogleLocationTypeToAccuracy_inherited, ?_, ?_, by decide, hconstructor, ?_⟩
  · simp only [List.mem_cons, List.mem_nil_iff, or_false, not_or] at hnot
    exact mapGoogleLocationTypeToAccuracy_default locationType hnot.1 hnot.2.1 hnot.2.2.1
      hnot.2.2.2 hkey
  · exact mapGoogleLocationTypeToAccuracy_default "" (by decide) (by decide) (by decide)
      (by decide) (by decide)
  · exact mapGoogleLocationTypeToAccuracy_default "UNKNOWN" (by decide) (by decide)
      (by decide) (by decide) (by decide)
  · rw [hconstructor]
    exact fun h => Dynamic.noConfusion h

/-- Witness for C24: the tier `PREMISE`, which is neither one of the four named
tiers nor the name of an inherited property, has the default accuracy. -/
theorem mapGoogleLocationTypeToAccuracy_spec_except_inherited_key_witness :
    "PREMISE" ∉ ["ROOFTOP", "RANGE_INTERPOLATED", "GEOMETRIC_CENTER", "APPROXIMATE"] ∧
    "PREMISE" ∉ objectPrototypeKeys ∧
    mapGoogleLocationTypeToAccuracy "PREMISE" = .typed (3 / 10) :=
  ⟨by decide, by decide,
    mapGoogleLocationTypeToAccuracy_spec_except_inherited_key.2.2.2.2.1 "PREMISE"
      (by decide) (by decide)⟩

/-! ## The Google provider -/

/-- One iteration of the extraction loop returns when the entry carries a
`types` list. -/
lemma extractStep_ok (extracted : RawComponents) (component : AddressComponent)
    (types : List String) (h : component.types = some types) :
    ∃ next, GoogleProvider.extractStep extracted component = .ok next := by
  unfold GoogleProvider.extractStep
  rw [h]
  dsimp only
  split_ifs <;> exact ⟨_, rfl⟩

/-- The extraction loop returns when every entry carries a `types` list. -/
lemma extractLoop_ok (components : List AddressComponent)
    (h : ∀ component ∈ components, component.types ≠ none) (extracted : RawComponents) :
    ∃ out, GoogleProvider.extractLoop components extracted = .ok out := by
  induction components generalizing extracted with
  | nil => exact ⟨extracted, rfl⟩
  | cons component rest ih =>
    have htypes := h component (List.mem_cons_self component rest)
    obtain ⟨types, htypes'⟩ := Option.ne_none_iff_exists'.mp htypes
    obtain ⟨next, hnext⟩ := extractStep_ok extracted component types htypes'
    obtain ⟨out, hout⟩ := ih (fun c hc => h c (List.mem_cons_of_mem component hc)) next
    refine ⟨out, ?_⟩
    rw [GoogleProvider.extractLoop, hnext]
    exact hout

/-- C25 (amended): `GoogleProvider.extractAddressComponents` returns without
failing for every raw result that is absent, has no `address_components`, or
whose `address_components` entries each carry a `types` list, and it returns the
structure with all five fields empty when the result is absent or has no
`address_components`. -/
theorem extractAddressComponents_total_on_typed_entries (result : Option RawResult)
    (htyped : ∀ r components, result = some r → r.address_components = some components →
      ∀ component ∈ components, component.types ≠ none) :
    (∃ out, GoogleProvider.extractAddressComponents result = .ok out) ∧
    ((result = none ∨ ∃ r, result = some r ∧ r.address_components = none) →
      GoogleProvider.extractAddressComponents result =
        .ok { number := some "", street := some "", city := some "", state := some "",
              zipCode := some "" }) := by
  constructor
  · cases result with
    | none => exact ⟨_, rfl⟩
    | some r =>
      cases hcomponents : r.address_components with
      | none =>
        refine ⟨emptyRawComponents, ?_⟩
        simp only [GoogleProvider.extractAddressComponents, hcomponents, emptyRawComponents]
      | some components =>
        obtain ⟨out, hout⟩ := extractLoop_ok components
          (htyped r components rfl hcomponents) emptyRawComponents
        refine ⟨out, ?_⟩
        simp only [GoogleProvider.extractAddressComponents, hcomponents]
        exact hout
  · rintro (hnone | ⟨r, hsome, hcomponents⟩)
    · subst hnone
      rfl
    · subst hsome
      simp only [GoogleProvider.extractAddressComponents, hcomponents]

/-- Witness for C25 (amended): the rooftop result of the service tests, whose
five entries all carry a `types` list. -/
theorem extractAddressComponents_total_on_typed_entries_witness :
    (∀ r components, some rooftopResult = some r → r.address_components = some components →
      ∀ component ∈ components, component.types ≠ none) ∧
    (∃ out, GoogleProvider.extractAddressComponents (some rooftopResult) = .ok out) :=
  have htyped : ∀ r components, some rooftopResult = some r →
      r.address_components = some components →
      ∀ component ∈ components, component.types ≠ none := by
    intro r components hr hcomponents
    cases hr
    cases hcomponents
    decide
  ⟨htyped, (extractAddressComponents_total_on_typed_entries (some rooftopResult) htyped).1⟩

/-- C25 (as stated) fails: on a result with an entry that lacks its `types`
list, the loop reads `includes` of `undefined` and the method throws. -/
theorem extractAddressComponents_throws_on_untyped_entry :
    GoogleProvider.extractAddressComponents (some untypedEntryResult) =
      .error "Cannot read properties of undefined (reading 'includes')" := by
  rfl

/-- C26: `GoogleProvider.getLocationType` is total; it returns the result's
`geometry.location_type` when that is present and non-empty, and `APPROXIMATE`
whenever the result, its geometry or its location type is absent; `APPROXIMATE`
has accuracy `0.5`, the lowest of the four named tiers. -/
theorem getLocationType_spec (result : Option RawResult) :
    (∃ tier : String, GoogleProvider.getLocationType result = tier) ∧
    (∀ r geometry locationType, result = some r → r.geometry = some geometry →
      geometry.location_type = some locationType → locationType ≠ "" →
      GoogleProvider.getLocationType result = locationType) ∧
    ((result = none ∨ (∃ r, result = some r ∧ r.geometry = none) ∨
        (∃ r geometry, result = some r ∧ r.geometry = some geometry ∧
          geometry.location_type = none)) →
      GoogleProvider.getLocationType result = "APPROXIMATE") ∧
    (∃ approximate center interpolated rooftop : ℚ,
      mapGoogleLocationTypeToAccuracy "APPROXIMATE" = .typed approximate ∧
      mapGoogleLocationTypeToAccuracy "GEOMETRIC_CENTER" = .typed center ∧
      mapGoogleLocationTypeToAccuracy "RANGE_INTERPOLATED" = .typed interpolated ∧
      mapGoogleLocationTypeToAccuracy "ROOFTOP" = .typed rooftop ∧
      approximate = 5 / 10 ∧ approximate ≤ center ∧ approximate ≤ interpolated ∧
      approximate ≤ rooftop) := by
  refine ⟨⟨_, rfl⟩, ?_, ?_, ?_⟩
  · intro r geometry locationType hr hgeometry hloc hne
    subst hr
    simp only [GoogleProvider.getLocationType, hgeometry, hloc, hne, if_false]
  · rintro (hnone | ⟨r, hr, hgeometry⟩ | ⟨r, geometry, hr, hgeometry, hloc⟩)
    · subst hnone
      rfl
    · subst hr
      simp only [GoogleProvider.getLocationType, hgeometry]
    · subst hr
      simp only [GoogleProvider.getLocationType, hgeometry, hloc]
  · obtain ⟨h1, h2, h3, h4⟩ := mapGoogleLocationTypeToAccuracy_named
    exact ⟨5 / 10, 7 / 10, 85 / 100, 1, h4, h3, h2, h1, rfl, by norm_num, by norm_num,
      by norm_num⟩

/-- When the `try` block of `GoogleProvider.validateAddress` throws, the
`catch` clause rethrows the error if its message contains `API` and wraps it
otherwise: in both cases the method throws. -/
lemma GoogleProvider.validateAddress_error_of_request_error
    (fetch : String → Except String HttpResponse) (address : Option String) (message : String)
    (hvalid : isValidNonEmptyString address = true)
    (hrequest : GoogleProvider.request fetch (address.getD "") = .error message) :
    GoogleProvider.validateAddress fetch address =
      .error (if includes message.data "API".data then message
        else "Failed to call Google Geocoding API: " ++ message) := by
  simp only [GoogleProvider.validateAddress, hvalid, hrequest]
  split_ifs <;> simp_all

/-- When the `try` block of `GoogleProvider.validateAddress` returns, so does
the method. -/
lemma GoogleProvider.validateAddress_ok_of_request_ok
    (fetch : String → Except String HttpResponse) (address : Option String)
    (geocodeResult : GeocodeResult)
    (hvalid : isValidNonEmptyString address = true)
    (hrequest : GoogleProvider.request fetch (address.getD "") = .ok geocodeResult) :
    GoogleProvider.validateAddress fetch address = .ok geocodeResult := by
  simp [GoogleProvider.validateAddress, hvalid, hrequest]

/-- C27: `GoogleProvider.validateAddress` as a function of the address and of
the upstream response: it fails when the address is absent, empty or
white-space only, when the upstream call fails, when the HTTP response is not
ok, when the upstream status is `REQUEST_DENIED`, and when the upstream status
is neither `OK` nor `ZERO_RESULTS`; for the upstream status `ZERO_RESULTS` it
returns the outcome with no results and status `ZERO_RESULTS`; for `OK` it
returns the upstream results (the empty list if absent) with status `OK`. -/
theorem GoogleProvider_validateAddress_spec
    (fetch : String → Except String HttpResponse) (address : Option String) :
    ((∀ s, address = some s → ∀ c ∈ s.data, isWhiteSpace c = true) →
      GoogleProvider.validateAddress fetch address =
        .error "Address is required and must be a non-empty string") ∧
    (isValidNonEmptyString address = true →
      (∀ e, fetch (trimmed address) = .error e →
        ∃ m, GoogleProvider.validateAddress fetch address = .error m) ∧
      (∀ response, fetch (trimmed address) = .ok response →
        (response.ok = false →
          ∃ m, GoogleProvider.validateAddress fetch address = .error m) ∧
        (response.ok = true → ∀ data, response.json = .ok data →
          (data.status = some "REQUEST_DENIED" →
            GoogleProvider.validateAddress fetch address =
              .error "Google Geocoding API key is invalid or quota exceeded") ∧
          (data.status ≠ some "OK" → data.status ≠ some "ZERO_RESULTS" →
            ∃ m, GoogleProvider.validateAddress fetch address = .error m) ∧
          (data.status = some "ZERO_RESULTS" →
            GoogleProvider.validateAddress fetch address =
              .ok { results := some [], status := some "ZERO_RESULTS" }) ∧
          (data.status = some "OK" →
            GoogleProvider.validateAddress fetch address =
              .ok { results := some (data.results.getD []), status := some "OK" })))) ∧
    GoogleProvider.validateAddress (fun _ => .error "Network error") (some "test address") =
      .error "Failed to call Google Geocoding API: Network error" := by
  refine ⟨fun hblank => ?_, fun hvalid => ⟨fun e hfetch => ?_, fun response hfetch =>
    ⟨fun hok => ?_, fun hok data hjson => ⟨fun hdenied => ?_, fun hnotok hnotzero => ?_,
      fun hzero => ?_, fun hstatus => ?_⟩⟩⟩, by rfl⟩
  · simp [GoogleProvider.validateAddress, isValidNonEmptyString_blank address hblank]
  · unfold trimmed at hfetch
    exact ⟨_, GoogleProvider.validateAddress_error_of_request_error fetch address e hvalid
      (by simp [GoogleProvider.request, hfetch, bind, Except.bind])⟩
  · unfold trimmed at hfetch
    have hrequest : GoogleProvider.request fetch (address.getD "") =
        .error ("Google Geocoding API error: " ++ toString response.status ++ " "
          ++ response.statusText) := by
      simp [GoogleProvider.request, hfetch, hok, bind, Except.bind, throw, throwThe,
        MonadExceptOf.throw]
    exact ⟨_, GoogleProvider.validateAddress_error_of_request_error fetch address _ hvalid
      hrequest⟩
  · unfold trimmed at hfetch
    have hrequest : GoogleProvider.request fetch (address.getD "") =
        .error "Google Geocoding API key is invalid or quota exceeded" := by
      simp [GoogleProvider.request, hfetch, hok, hjson, hdenied, bind, Except.bind, throw,
        throwThe, MonadExceptOf.throw]
    rw [GoogleProvider.validateAddress_error_of_request_error fetch address _ hvalid hrequest,
      if_pos (by decide)]
  · unfold trimmed at hfetch
    have hnotdenied : data.status ≠ some "REQUEST_DENIED" ∨
        data.status = some "REQUEST_DENIED" := (em _).symm
    rcases hnotdenied with hnd | hd
    · have hrequest : GoogleProvider.request fetch (address.getD "") =
          .error ("Google Geocoding API error: " ++ data.status.getD "undefined") := by
        simp [GoogleProvider.request, hfetch, hok, hjson, hnd, hnotok, hnotzero, bind,
          Except.bind, throw, throwThe, MonadExceptOf.throw]
      exact ⟨_, GoogleProvider.validateAddress_error_of_request_error fetch address _ hvalid
        hrequest⟩
    · have hrequest : GoogleProvider.request fetch (address.getD "") =
          .error "Google Geocoding API key is invalid or quota exceeded" := by
        simp [GoogleProvider.request, hfetch, hok, hjson, hd, bind, Except.bind, throw,
          throwThe, MonadExceptOf.throw]
      exact ⟨_, GoogleProvider.validateAddress_error_of_request_error fetch address _ hvalid
        hrequest⟩
  · unfold trimmed at hfetch
    exact GoogleProvider.validateAddress_ok_of_request_ok fetch address _ hvalid
      (by simp [GoogleProvider.request, hfetch, hok, hjson, hzero, bind, Except.bind, throw,
        throwThe, MonadExceptOf.throw, pure, Except.pure])
  · unfold trimmed at hfetch
    exact GoogleProvider.validateAddress_ok_of_request_ok fetch address _ hvalid
      (by simp [GoogleProvider.request, hfetch, hok, hjson, hstatus, bind, Except.bind, throw,
        throwThe, MonadExceptOf.throw, pure, Except.pure])

/-! ## Low-confidence runs -/

/-- The ratio of `calculateComponentMatchRatio` in terms of the two counts. -/
lemma calculateComponentMatchRatio_eq_counts (original : String)
    (standardized : AddressComponents) :
    calculateComponentMatchRatio original standardized =
      (if presentCount standardized = 0 then 0
       else (hitCount original standardized : ℚ) / (presentCount standardized : ℚ)) := by
  simp only [calculateComponentMatchRatio, countMatches_eq, Nat.zero_add]
  by_cases hzero : presentCount standardized = 0
  · have hzero' := hzero
    unfold presentCount componentValues at hzero'
    rw [if_pos hzero, if_neg (by omega)]
  · have hzero' := hzero
    unfold presentCount componentValues at hzero'
    rw [if_neg hzero, if_pos (by omega)]
    rfl

/-- There are at most as many hits as non-empty fields, and at most five of
those. -/
lemma hitCount_le_presentCount (original : String) (standardized : AddressComponents) :
    hitCount original standardized ≤ presentCount standardized ∧
      presentCount standardized ≤ 5 := by
  constructor
  · unfold hitCount presentCount
    apply List.countP_mono_left
    intro value _ hhit
    simp only [decide_eq_true_eq] at hhit ⊢
    exact hhit.1
  · unfold presentCount
    exact List.countP_le_length _

/-- All components are present exactly when five fields are non-empty. -/
lemma hasAllComponents_eq_decide (standardized : AddressComponents) :
    hasAllComponents standardized = decide (presentCount standardized = 5) := by
  rw [Bool.eq_iff_iff, hasAllComponents_iff, decide_eq_true_iff]
  have hlength : (componentValues standardized).length = 5 := rfl
  unfold presentCount
  rw [← hlength, List.countP_eq_length]
  simp [componentValues]

set_option maxHeartbeats 4000000 in
/-- Among the scores that `validateAddress` can compute, none lies in
`[0.695, 0.7)`: a weighted sum below `0.7` is below `0.695`. -/
lemma reachable_sum_gap (a : ℚ)
    (ha : a = 1 ∨ a = 85 / 100 ∨ a = 7 / 10 ∨ a = 5 / 10 ∨ a = 3 / 10)
    (present hits : ℕ) (hpresent : present ≤ 5) (hhits : hits ≤ present) (isExact : Bool)
    (hlow : calculateConfidence (decide (present = 5)) a isExact
      (if present = 0 then 0 else (hits : ℚ) / (present : ℚ)) < 7 / 10) :
    calculateConfidence (decide (present = 5)) a isExact
      (if present = 0 then 0 else (hits : ℚ) / (present : ℚ)) < 139 / 200 := by
  rcases ha with rfl | rfl | rfl | rfl | rfl <;>
    interval_cases present <;> interval_cases hits <;> cases isExact <;>
    simp only [calculateConfidence, GOOGLE_ACCURACY, COMPONENT_COMPLETENESS_FULL,
      COMPONENT_COMPLETENESS_PARTIAL, EXACT_MATCH_BONUS, PARTIAL_MATCH_REDUCED] at hlow ⊢ <;>
    norm_num [min_def, max_def] at hlow ⊢

/-- Rounding to two decimals takes a value below `0.695` to a value below
`0.7`. -/
lemma roundTwoDecimals_lt_threshold (c : ℚ) (h : c < 139 / 200) :
    roundTwoDecimals c < 7 / 10 := by
  unfold roundTwoDecimals
  have hfloor : ⌊c * 100 + 1 / 2⌋ < (70 : ℤ) := Int.floor_lt.mpr (by push_cast; linarith)
  have hle : ⌊c * 100 + 1 / 2⌋ ≤ (69 : ℤ) := by omega
  have hcast : ((⌊c * 100 + 1 / 2⌋ : ℤ) : ℚ) ≤ 69 := by exact_mod_cast hle
  rw [div_lt_iff₀ (by norm_num)]
  linarith

/-- The status of a run that reaches the scoring step is `unverifiable` only
when the confidence is a number, and then the rounded confidence is below
`0.7`. -/
lemma scoredResponse_unverifiable (address : Option String) (result : RawResult)
    (standardized : AddressComponents) (locationType name : String)
    (hunverifiable :
      (scoredResponse address result standardized locationType name).status
        = "unverifiable") :
    ∃ v, (scoredResponse address result standardized locationType name).confidence
        = .number v ∧ v < 7 / 10 := by
  rcases mapGoogleLocationTypeToAccuracy_values locationType with
    ⟨hkey, _⟩ | ⟨_, accuracy, haccuracy, hvalues⟩
  · exfalso
    simp only [scoredResponse, statusOf,
      confidenceOf_of_inherited address result standardized locationType hkey, JSNumber.lt,
      Bool.false_eq_true, if_false] at hunverifiable
    split_ifs at hunverifiable <;> exact absurd hunverifiable (by decide)
  · have hconf := confidenceOf_of_typed address result standardized locationType accuracy
      haccuracy
    have hlow : calculateConfidence (hasAllComponents standardized) accuracy
        (exactMatchOf address result)
        (calculateComponentMatchRatio (trimmed address) standardized) < 7 / 10 := by
      by_contra hnot
      simp only [scoredResponse, statusOf, hconf, JSNumber.lt, confidenceThreshold,
        decide_eq_true_eq, hnot, if_false] at hunverifiable
      split_ifs at hunverifiable <;> exact absurd hunverifiable (by decide)
    refine ⟨roundTwoDecimals (calculateConfidence (hasAllComponents standardized) accuracy
      (exactMatchOf address result)
      (calculateComponentMatchRatio (trimmed address) standardized)), ?_, ?_⟩
    · simp only [scoredResponse, hconf, JSNumber.roundTwoDecimals]
    · apply roundTwoDecimals_lt_threshold
      have hcounts := hitCount_le_presentCount (trimmed address) standardized
      rw [calculateComponentMatchRatio_eq_counts, hasAllComponents_eq_decide] at hlow ⊢
      exact reachable_sum_gap _ hvalues _ _ hcounts.2 hcounts.1 _ hlow

/-- C28: for every non-blank address for which the provider returns exactly one
result, `validateAddress` returns a record, and if its status is `unverifiable`
then its confidence, which is the rounded value, is a number strictly below
`0.7`: for every accuracy tier, the names of inherited properties included
(their score is `NaN`, which is never classified `unverifiable`), for every
combination of present and matching components, and also when a step after the
lookup throws (the confidence is then `0`).  When the run reaches the scoring
step the record is the scored one. -/
theorem validateAddress_unverifiable_confidence_below_threshold (provider : Provider)
    (address : Option String) (geocodeResult : GeocodeResult) (result : RawResult)
    (name : String)
    (hvalid : isValidNonEmptyString address = true)
    (hlookup : provider.validateAddress (trimmed address) = .ok geocodeResult)
    (hstatus : geocodeResult.status ≠ some "ZERO_RESULTS")
    (hresults : geocodeResult.results = some [result])
    (hname : provider.getProviderName () = .ok name) :
    ∃ response, validateAddress provider address = .ok response ∧
      (response.status = "unverifiable" →
        ∃ v, response.confidence = .number v ∧ v < 7 / 10) ∧
      (∀ rawComponents locationType standardized,
        provider.extractAddressComponents result = .ok rawComponents →
        provider.getLocationType result = .ok locationType →
        (standardize rawComponents).strings = some standardized →
        response = scoredResponse address result standardized locationType name) := by
  obtain ⟨response, hresponse⟩ := validateAddress_ok_of_name_ok provider address name hname
  refine ⟨response, hresponse, fun hunverifiable => ?_,
    fun rawComponents locationType standardized hextract hloc hstrings => ?_⟩
  · rcases validateAddress_ok_inv provider address response hresponse with
      ⟨original, reason, name', _, rfl⟩ |
      ⟨result', rawComponents, locationType, standardized, name', _, _, rfl⟩
    · exact ⟨0, rfl, by norm_num⟩
    · exact scoredResponse_unverifiable address result' standardized locationType name'
        hunverifiable
  · rw [validateAddress_scored provider address result rawComponents locationType name
      standardized ⟨hvalid, ⟨geocodeResult, hlookup, hstatus, hresults⟩, hextract, hloc,
        hstrings⟩ hname] at hresponse
    exact (Except.ok.inj hresponse).symm

/-- Witness for C28: the low-confidence test input; the record has status
`unverifiable` and confidence `0.6`. -/
theorem validateAddress_unverifiable_confidence_below_threshold_witness :
    validateAddress approximateProvider (some "city only") = .ok approximateResponse ∧
    approximateResponse.status = "unverifiable" ∧
    approximateResponse.confidence = .number (6 / 10) ∧
    (∃ response, validateAddress approximateProvider (some "city only") = .ok response ∧
      (response.status = "unverifiable" →
        ∃ v, response.confidence = .number v ∧ v < 7 / 10) ∧
      (∀ rawComponents locationType standardized,
        approximateProvider.extractAddressComponents approximateResult = .ok rawComponents →
        approximateProvider.getLocationType approximateResult = .ok locationType →
        (standardize rawComponents).strings = some standardized →
        response = scoredResponse (some "city only") approximateResult standardized
          locationType "google-geocoding")) :=
  ⟨validateAddress_approximate, rfl, rfl,
    validateAddress_unverifiable_confidence_below_threshold approximateProvider
      (some "city only") { status := some "OK", results := some [approximateResult] }
      approximateResult "google-geocoding" (by decide) rfl (by decide) rfl rfl⟩

/-! ## The error handler and the controller -/

/-- The test `error.message?.includes(text)` holds exactly when the message is
present and contains the text as a contiguous part. -/
lemma messageIncludes_iff (error : ErrorObject) (text : String) :
    messageIncludes error text = true ↔
      ∃ message, error.message = some message ∧ text.data <:+: message.data := by
  unfold messageIncludes
  cases hmessage : error.message with
  | none => simp
  | some message => simp [includes_iff_contiguous]

/-- C29: `handleError` chooses the response from the error message alone: if
the message contains `required` or `Invalid` it sends `400` with the error's own
message; otherwise, if the message contains `not found`, it sends `404` with the
error's own message; otherwise, also when the error has no message, it sends
`500` with the message `An unexpected error occurred`.  In every case the
`statusCode` of the body is the status sent and the `error` label of the body is
`Internal server error`. -/
theorem handleError_spec (error : ErrorObject) :
    (∀ message, error.message = some message →
      ("required".data <:+: message.data ∨ "Invalid".data <:+: message.data) →
      handleError error =
        { status := 400
          body := { error := "Internal server error", message := message,
                    statusCode := 400 } }) ∧
    (∀ message, error.message = some message →
      ¬ ("required".data <:+: message.data ∨ "Invalid".data <:+: message.data) →
      "not found".data <:+: message.data →
      handleError error =
        { status := 404
          body := { error := "Internal server error", message := message,
                    statusCode := 404 } }) ∧
    ((error.message = none ∨ ∃ message, error.message = some message ∧
        ¬ ("required".data <:+: message.data ∨ "Invalid".data <:+: message.data) ∧
        ¬ "not found".data <:+: message.data) →
      handleError error =
        { status := 500
          body := { error := "Internal server error",
                    message := "An unexpected error occurred", statusCode := 500 } }) ∧
    ((handleError error).body.statusCode = (handleError error).status ∧
      (handleError error).body.error = "Internal server error") ∧
    (handleError { message := some "Field is required" }).status = 400 ∧
    (handleError { message := some "Invalid input" }).status = 400 ∧
    (handleError { message := some "Resource not found" }).status = 404 ∧
    (handleError { message := some "Generic error" }).status = 500 ∧
    (handleError { message := none }).status = 500 := by
  refine ⟨fun message hmessage hcontains => ?_, fun message hmessage hnot hfound => ?_,
    fun hother => ?_, ?_, by decide, by decide, by decide, by decide, by decide⟩
  · have hfirst : (messageIncludes error "required" || messageIncludes error "Invalid")
        = true := by
      rw [Bool.or_eq_true, messageIncludes_iff, messageIncludes_iff]
      rcases hcontains with h | h
      · exact Or.inl ⟨message, hmessage, h⟩
      · exact Or.inr ⟨message, hmessage, h⟩
    simp [handleError, hfirst, hmessage, createErrorResponse]
  · have hfirst : (messageIncludes error "required" || messageIncludes error "Invalid")
        = false := by
      rw [Bool.eq_false_iff]
      intro h
      rw [Bool.or_eq_true, messageIncludes_iff, messageIncludes_iff] at h
      rcases h with ⟨m, hm, h⟩ | ⟨m, hm, h⟩
      · rw [hmessage] at hm
        cases hm
        exact hnot (Or.inl h)
      · rw [hmessage] at hm
        cases hm
        exact hnot (Or.inr h)
    have hsecond : messageIncludes error "not found" = true :=
      (messageIncludes_iff _ _).mpr ⟨message, hmessage, hfound⟩
    simp [handleError, hfirst, hsecond, hmessage, createErrorResponse]
  · have hfirst : (messageIncludes error "required" || messageIncludes error "Invalid")
        = false := by
      rw [Bool.eq_false_iff]
      intro h
      rw [Bool.or_eq_true, messageIncludes_iff, messageIncludes_iff] at h
      rcases hother with hnone | ⟨message, hmessage, hnot, _⟩
      · rcases h with ⟨m, hm, _⟩ | ⟨m, hm, _⟩ <;>
        · rw [hnone] at hm
          cases hm
      · rcases h with ⟨m, hm, h⟩ | ⟨m, hm, h⟩
        · rw [hmessage] at hm
          cases hm
          exact hnot (Or.inl h)
        · rw [hmessage] at hm
          cases hm
          exact hnot (Or.inr h)
    have hsecond : messageIncludes error "not found" = false := by
      rw [Bool.eq_false_iff]
      intro h
      rw [messageIncludes_iff] at h
      obtain ⟨m, hm, h⟩ := h
      rcases hother with hnone | ⟨message, hmessage, _, hnotfound⟩
      · rw [hnone] at hm
        cases hm
      · rw [hmessage] at hm
        cases hm
        exact hnotfound h
    simp [handleError, hfirst, hsecond, createErrorResponse]
  · unfold handleError
    split_ifs <;> exact ⟨rfl, rfl⟩

/-- A string trims to the empty string exactly when it is made of white space
only. -/
lemma trim_eq_nil_iff (s : List Char) : trim s = [] ↔ ∀ c ∈ s, isWhiteSpace c = true := by
  constructor
  · intro htrim
    by_contra hnot
    have hfirst : s.dropWhile isWhiteSpace ≠ [] :=
      fun h => hnot (List.dropWhile_eq_nil_iff.mp h)
    have hhead : ∃ c ∈ s.dropWhile isWhiteSpace, ¬ isWhiteSpace c = true := by
      cases hdrop : s.dropWhile isWhiteSpace with
      | nil => exact absurd hdrop hfirst
      | cons c cs =>
        refine ⟨c, List.mem_cons_self c cs, ?_⟩
        have hpos : 0 < (s.dropWhile isWhiteSpace).length := by
          rw [hdrop]
          exact Nat.succ_pos _
        have := List.head_dropWhile_not isWhiteSpace s (by rwa [← List.length_pos])
        simpa [hdrop] using this
    obtain ⟨c, hc, hcws⟩ := hhead
    unfold trim at htrim
    rw [List.reverse_eq_nil_iff, List.dropWhile_eq_nil_iff] at htrim
    exact hcws (htrim c (List.mem_reverse.mpr hc))
  · exact trim_eq_nil_of_all_whiteSpace s

/-- The check `isValidNonEmptyString` accepts exactly the strings with at least
one character that is not white space. -/
lemma isValidNonEmptyString_iff (value : Option String) :
    isValidNonEmptyString value = true ↔
      ∃ s, value = some s ∧ ∃ c ∈ s.data, isWhiteSpace c = false := by
  cases value with
  | none => simp [isValidNonEmptyString]
  | some s =>
    simp only [isValidNonEmptyString, gt_iff_lt, decide_eq_true_eq, List.length_pos,
      Option.some.injEq, exists_eq_left', ne_eq, trim_eq_nil_iff]
    push_neg
    constructor
    · rintro ⟨c, hc, hws⟩
      exact ⟨c, hc, by simpa using hws⟩
    · rintro ⟨c, hc, hws⟩
      exact ⟨c, hc, by simp [hws]⟩

/-- The service instance of the controller module never rejects: the name
operation of `GoogleProvider` always returns. -/
lemma addressValidationService_ok (fetch : String → Except String HttpResponse)
    (address : String) : ∃ record, addressValidationService fetch address = .ok record :=
  validateAddress_ok_of_name_ok (googleProvider fetch) (some address)
    GoogleProvider.getProviderName rfl

/-- C30 (amended): for every request whose `body.address` is not a string with
at least one character that is not white space, the controller responds `400`
with the `Invalid request` body and never calls the validation service; for
every other request it calls the service exactly once, with `body.address`, and
responds `200` with the service's record unchanged when the service returns
one, and through `handleError` when the service call fails.  The service of the
controller module, built on `GoogleProvider`, always returns a record. -/
theorem controller_validateAddress_spec
    (service : String → Except String ValidationResult) (req : Request) :
    ((∀ s, req.address = some s → ∀ c ∈ s.data, isWhiteSpace c = true) →
      ValidateAddressController.validateAddress service req =
        { status := 400
          body := .error
            { error := "Invalid request"
              message := "Address is required and must be a non-empty string"
              statusCode := 400 }
          serviceCalls := [] }) ∧
    (∀ address, req.address = some address →
      (∃ c ∈ address.data, isWhiteSpace c = false) →
      (∀ record, service address = .ok record →
        ValidateAddressController.validateAddress service req =
          { status := 200, body := .record record, serviceCalls := [address] }) ∧
      (∀ message, service address = .error message →
        ValidateAddressController.validateAddress service req =
          { status := (handleError { message := some message }).status
            body := .error (handleError { message := some message }).body
            serviceCalls := [address] })) ∧
    (∀ fetch, service = addressValidationService fetch →
      ∀ address, req.address = some address →
      (∃ c ∈ address.data, isWhiteSpace c = false) →
      ∃ record, service address = .ok record ∧
        ValidateAddressController.validateAddress service req =
          { status := 200, body := .record record, serviceCalls := [address] }) := by
  have haccepted : ∀ address, req.address = some address →
      (∃ c ∈ address.data, isWhiteSpace c = false) →
      isValidNonEmptyString req.address = true :=
    fun address haddress hchar =>
      (isValidNonEmptyString_iff req.address).mpr ⟨address, haddress, hchar⟩
  have hok : ∀ address, req.address = some address →
      (∃ c ∈ address.data, isWhiteSpace c = false) →
      ∀ record, service address = .ok record →
        ValidateAddressController.validateAddress service req =
          { status := 200, body := .record record, serviceCalls := [address] } := by
    intro address haddress hchar record hservice
    have hvalid := haccepted address haddress hchar
    rw [haddress] at hvalid
    simp [ValidateAddressController.validateAddress, haddress, hvalid, hservice]
  refine ⟨fun hblank => ?_, fun address haddress hchar => ⟨hok address haddress hchar,
    fun message hservice => ?_⟩, fun fetch hservice address haddress hchar => ?_⟩
  · simp [ValidateAddressController.validateAddress,
      isValidNonEmptyString_blank req.address hblank, ErrorResponses.INVALID_REQUEST,
      createErrorResponse]
  · have hvalid := haccepted address haddress hchar
    rw [haddress] at hvalid
    simp [ValidateAddressController.validateAddress, haddress, hvalid, hservice]
  · subst hservice
    obtain ⟨record, hrecord⟩ := addressValidationService_ok fetch address
    exact ⟨record, hrecord, hok address haddress hchar record hrecord⟩

/-- C30 (as stated) fails: in the controller test `should handle service errors
and return 500` the address `test address` is a non-blank string, the service is
called with it and rejects, and the response is `500`, not `200`. -/
theorem controller_validateAddress_service_failure :
    ValidateAddressController.validateAddress rejectingService
        { address := some "test address" } =
      { status := 500
        body := .error
          { error := "Internal server error"
            message := "An unexpected error occurred"
            statusCode := 500 }
        serviceCalls := ["test address"] } ∧
    (ValidateAddressController.validateAddress rejectingService
        { address := some "test address" }).status ≠ 200 := by
  constructor <;> decide

/-! ## The input check -/

/-- C31: `isValidNonEmptyString(v)` is true if and only if `v` is a string
whose trimmed form has length greater than `0`; it is false for the empty
string, for white-space-only strings and for every value that is not a string. -/
theorem isValidNonEmptyString_spec (value : Option String) :
    (isValidNonEmptyString value = true ↔
      ∃ s, value = some s ∧ 0 < (trim s.data).length) ∧
    (isValidNonEmptyString value = true ↔
      ∃ s, value = some s ∧ ∃ c ∈ s.data, isWhiteSpace c = false) ∧
    isValidNonEmptyString (some "") = false ∧
    (∀ s : String, (∀ c ∈ s.data, isWhiteSpace c = true) →
      isValidNonEmptyString (some s) = false) ∧
    isValidNonEmptyString none = false := by
  refine ⟨?_, isValidNonEmptyString_iff value, rfl, fun s hblank => ?_, rfl⟩
  · cases value with
    | none => simp [isValidNonEmptyString]
    | some s => simp [isValidNonEmptyString]
  · exact isValidNonEmptyString_blank (some s) (fun t ht => by cases ht; exact hblank)

/-! ## Extraction of the components -/

/-- One iteration of the extraction loop on a single-typed entry: the field of
the entry's type receives the entry's name, every other field is unchanged. -/
lemma extractStep_fields (extracted next : RawComponents) (component : AddressComponent)
    (hsingle : SingleTyped component)
    (hstep : GoogleProvider.extractStep extracted component = .ok next) :
    ((hasType component "street_number" = true → next.number = component.long_name) ∧
      (hasType component "street_number" = false → next.number = extracted.number)) ∧
    ((hasType component "route" = true → next.street = component.long_name) ∧
      (hasType component "route" = false → next.street = extracted.street)) ∧
    ((hasType component "locality" = true → next.city = component.long_name) ∧
      (hasType component "locality" = false → next.city = extracted.city)) ∧
    ((hasType component "administrative_area_level_1" = true →
        next.state = component.short_name) ∧
      (hasType component "administrative_area_level_1" = false →
        next.state = extracted.state)) ∧
    ((hasType component "postal_code" = true → next.zipCode = component.long_name) ∧
      (hasType component "postal_code" = false → next.zipCode = extracted.zipCode)) := by
  obtain ⟨htypes, hone⟩ := hsingle
  obtain ⟨types, htypes'⟩ := Option.ne_none_iff_exists'.mp htypes
  have h12 := hone "street_number" (by decide) "route" (by decide)
  have h13 := hone "street_number" (by decide) "locality" (by decide)
  have h14 := hone "street_number" (by decide) "administrative_area_level_1" (by decide)
  have h15 := hone "street_number" (by decide) "postal_code" (by decide)
  have h23 := hone "route" (by decide) "locality" (by decide)
  have h24 := hone "route" (by decide) "administrative_area_level_1" (by decide)
  have h25 := hone "route" (by decide) "postal_code" (by decide)
  have h34 := hone "locality" (by decide) "administrative_area_level_1" (by decide)
  have h35 := hone "locality" (by decide) "postal_code" (by decide)
  have h45 := hone "administrative_area_level_1" (by decide) "postal_code" (by decide)
  simp only [hasType, htypes'] at h12 h13 h14 h15 h23 h24 h25 h34 h35 h45 ⊢
  simp only [GoogleProvider.extractStep, htypes'] at hstep
  cases h1 : types.contains "street_number" <;> cases h2 : types.contains "route" <;>
    cases h3 : types.contains "locality" <;>
    cases h4 : types.contains "administrative_area_level_1" <;>
    cases h5 : types.contains "postal_code" <;>
    simp only [h1, h2, h3, h4, h5, if_true, if_false, Bool.false_eq_true, Except.ok.injEq,
      forall_const, String.reduceEq, imp_false, not_true_eq_false]
      at hstep h12 h13 h14 h15 h23 h24 h25 h34 h35 h45 <;>
    subst hstep <;> simp

/-- The extraction loop on single-typed entries with at most one entry of a
type: the field of that type is the name of the entry of that type, or keeps its
value when no entry has the type. -/
lemma extractLoop_field (type : String) (field : RawComponents → Option String)
    (value : AddressComponent → Option String)
    (hstep : ∀ extracted next component, SingleTyped component →
      GoogleProvider.extractStep extracted component = .ok next →
      (hasType component type = true → field next = value component) ∧
      (hasType component type = false → field next = field extracted))
    (components : List AddressComponent)
    (hsingle : ∀ component ∈ components, SingleTyped component)
    (hunique : (components.filter (fun component => hasType component type)).length ≤ 1)
    (extracted out : RawComponents)
    (hloop : GoogleProvider.extractLoop components extracted = .ok out) :
    (∀ component ∈ components, hasType component type = true →
      field out = value component) ∧
    ((∀ component ∈ components, hasType component type = false) →
      field out = field extracted) := by
  induction components generalizing extracted with
  | nil =>
    simp only [GoogleProvider.extractLoop, Except.ok.injEq] at hloop
    subst hloop
    exact ⟨fun c hc => absurd hc (List.not_mem_nil c), fun _ => rfl⟩
  | cons component rest ih =>
    have hhead := hsingle component (List.mem_cons_self component rest)
    have hrestSingle : ∀ c ∈ rest, SingleTyped c :=
      fun c hc => hsingle c (List.mem_cons_of_mem component hc)
    cases hnext : GoogleProvider.extractStep extracted component with
    | error e =>
      simp only [GoogleProvider.extractLoop, hnext] at hloop
      cases hloop
    | ok next =>
      simp only [GoogleProvider.extractLoop, hnext] at hloop
      obtain ⟨hset, hkeep⟩ := hstep extracted next component hhead hnext
      cases hhas : hasType component type with
      | true =>
        have hlen : (rest.filter (fun component => hasType component type)).length = 0 := by
          simp only [List.filter_cons, hhas, if_true, List.length_cons] at hunique
          omega
        have hrestNone : ∀ c ∈ rest, hasType c type = false := by
          intro c hc
          simpa using List.filter_eq_nil_iff.mp (List.length_eq_zero.mp hlen) c hc
        obtain ⟨_, hrestKeep⟩ := ih hrestSingle (by omega) next hloop
        refine ⟨fun c hc hctype => ?_, fun hall => ?_⟩
        · rcases List.mem_cons.mp hc with rfl | hcrest
          · rw [hrestKeep hrestNone, hset hhas]
          · rw [hrestNone c hcrest] at hctype
            cases hctype
        · have := hall component (List.mem_cons_self component rest)
          rw [hhas] at this
          cases this
      | false =>
        have huniqueRest :
            (rest.filter (fun component => hasType component type)).length ≤ 1 := by
          simpa [List.filter_cons, hhas] using hunique
        obtain ⟨hrestSet, hrestKeep⟩ := ih hrestSingle huniqueRest next hloop
        refine ⟨fun c hc hctype => ?_, fun hall => ?_⟩
        · rcases List.mem_cons.mp hc with rfl | hcrest
          · rw [hhas] at hctype
            cases hctype
          · exact hrestSet c hcrest hctype
        · rw [hrestKeep (fun c hc => hall c (List.mem_cons_of_mem component hc)),
            hkeep hhas]

/-- C32: On a raw result whose `address_components` entries each carry a
`types` list with at most one of the five component types, and in which each of
the five types occurs on at most one entry, `GoogleProvider.extractAddressComponents`
returns, and in the returned record `number`, `street`, `city` and `zipCode` are
the `long_name` of the `street_number`, `route`, `locality` and `postal_code`
entry, `state` is the `short_name` of the `administrative_area_level_1` entry, and
every field whose type occurs on no entry is the empty string. -/
theorem extractAddressComponents_fields (result : RawResult)
    (components : List AddressComponent)
    (hcomponents : result.address_components = some components)
    (hsingle : ∀ component ∈ components, SingleTyped component)
    (hunique : ∀ type ∈ fieldTypes,
      (components.filter (fun component => hasType component type)).length ≤ 1) :
    ∃ out, GoogleProvider.extractAddressComponents (some result) = .ok out ∧
      ((∀ component ∈ components, hasType component "street_number" = true →
          out.number = component.long_name) ∧
        ((∀ component ∈ components, hasType component "street_number" = false) →
          out.number = some "")) ∧
      ((∀ component ∈ components, hasType component "route" = true →
          out.street = component.long_name) ∧
        ((∀ component ∈ components, hasType component "route" = false) →
          out.street = some "")) ∧
      ((∀ component ∈ components, hasType component "locality" = true →
          out.city = component.long_name) ∧
        ((∀ component ∈ components, hasType component "locality" = false) →
          out.city = some "")) ∧
      ((∀ component ∈ components,
          hasType component "administrative_area_level_1" = true →
          out.state = component.short_name) ∧
        ((∀ component ∈ components,
          hasType component "administrative_area_level_1" = false) →
          out.state = some "")) ∧
      ((∀ component ∈ components, hasType component "postal_code" = true →
          out.zipCode = component.long_name) ∧
        ((∀ component ∈ components, hasType component "postal_code" = false) →
          out.zipCode = some "")) := by
  obtain ⟨out, hout⟩ := extractLoop_ok components (fun c hc => (hsingle c hc).1)
    { number := some "", street := some "", city := some "", state := some "",
      zipCode := some "" }
  refine ⟨out, ?_, ?_, ?_, ?_, ?_, ?_⟩
  · simp only [GoogleProvider.extractAddressComponents, hcomponents]
    exact hout
  · exact extractLoop_field "street_number" (fun c => c.number) (fun c => c.long_name)
      (fun extracted next component hs hstep =>
        (extractStep_fields extracted next component hs hstep).1)
      components hsingle (hunique _ (by decide)) _ out hout
  · exact extractLoop_field "route" (fun c => c.street) (fun c => c.long_name)
      (fun extracted next component hs hstep =>
        (extractStep_fields extracted next component hs hstep).2.1)
      components hsingle (hunique _ (by decide)) _ out hout
  · exact extractLoop_field "locality" (fun c => c.city) (fun c => c.long_name)
      (fun extracted next component hs hstep =>
        (extractStep_fields extracted next component hs hstep).2.2.1)
      components hsingle (hunique _ (by decide)) _ out hout
  · exact extractLoop_field "administrative_area_level_1" (fun c => c.state)
      (fun c => c.short_name)
      (fun extracted next component hs hstep =>
        (extractStep_fields extracted next component hs hstep).2.2.2.1)
      components hsingle (hunique _ (by decide)) _ out hout
  · exact extractLoop_field "postal_code" (fun c => c.zipCode) (fun c => c.long_name)
      (fun extracted next component hs hstep =>
        (extractStep_fields extracted next component hs hstep).2.2.2.2)
      components hsingle (hunique _ (by decide)) _ out hout

/-- Witness for C32: a raw result with a street number, a route and a state entry and
no locality or postal code entry. -/
theorem extractAddressComponents_fields_witness :
    partialTypedResult.address_components = some partialTypedComponents ∧
    (∀ component ∈ partialTypedComponents, SingleTyped component) ∧
    (∀ type ∈ fieldTypes,
      (partialTypedComponents.filter
        (fun component => hasType component type)).length ≤ 1) ∧
    ∃ out, GoogleProvider.extractAddressComponents (some partialTypedResult) = .ok out ∧
      out.number = some "1600" ∧ out.street = some "Amphitheatre Parkway" ∧
      out.city = some "" ∧ out.state = some "CA" ∧ out.zipCode = some "" := by
  have hsingle : ∀ component ∈ partialTypedComponents, SingleTyped component := by
    unfold SingleTyped
    decide
  have hunique : ∀ type ∈ fieldTypes,
      (partialTypedComponents.filter
        (fun component => hasType component type)).length ≤ 1 := by
    decide
  obtain ⟨out, hout, hnumber, hstreet, hcity, hstate, hzip⟩ :=
    extractAddressComponents_fields partialTypedResult partialTypedComponents rfl
      hsingle hunique
  refine ⟨rfl, hsingle, hunique, out, hout, ?_, ?_, ?_, ?_, ?_⟩
  · exact hnumber.1 ⟨some "1600", some "1600", some ["street_number"]⟩ (by decide) (by decide)
  · exact hstreet.1
      ⟨some "Amphitheatre Parkway", some "Amphitheatre Pkwy", some ["route"]⟩
      (by decide) (by decide)
  · exact hcity.2 (by decide)
  · exact hstate.1
      ⟨some "California", some "CA", some ["administrative_area_level_1", "political"]⟩
      (by decide) (by decide)
  · exact hzip.2 (by decide)

/-! ## The `original` field -/

/-- C33: the provider lookup is called with the trimmed address only, and the
`original` field of the returned record is the trimmed address in every outcome
reached after a successful lookup (zero results, multiple results, single result
scored); when the lookup or a later step fails (the extraction, the accuracy
operation, or `calculateComponentMatchRatio` on a normalized city or state that
is not a string), and when the input check rejects the address, `original` is
the raw input, untrimmed (the empty string when the input is empty or absent). -/
theorem validateAddress_original_field (provider : Provider) (address : Option String)
    (response : ValidationResult)
    (h : validateAddress provider address = .ok response) :
    (∀ geocodeResult, isValidNonEmptyString address = true →
      provider.validateAddress (trimmed address) = .ok geocodeResult →
      (geocodeResult.status = some "ZERO_RESULTS" ∨ geocodeResult.results = none ∨
        geocodeResult.results = some [] ∨
        (∃ first second others, geocodeResult.results = some (first :: second :: others)) ∨
        (∃ result rawComponents locationType standardized,
          geocodeResult.results = some [result] ∧
          provider.extractAddressComponents result = .ok rawComponents ∧
          provider.getLocationType result = .ok locationType ∧
          (standardize rawComponents).strings = some standardized)) →
      response.original = trimmed address) ∧
    ((isValidNonEmptyString address = false ∨
      (∃ m, provider.validateAddress (trimmed address) = .error m) ∨
      (∃ geocodeResult result, provider.validateAddress (trimmed address) = .ok geocodeResult ∧
        geocodeResult.status ≠ some "ZERO_RESULTS" ∧
        geocodeResult.results = some [result] ∧
        ((∃ m, provider.extractAddressComponents result = .error m) ∨
          (∃ m, provider.getLocationType result = .error m) ∨
          (∃ rawComponents locationType,
            provider.extractAddressComponents result = .ok rawComponents ∧
            provider.getLocationType result = .ok locationType ∧
            (standardize rawComponents).strings = none)))) →
      response.original = address.getD "") ∧
    (∀ other : Provider,
      other.validateAddress (trimmed address) = provider.validateAddress (trimmed address) →
      other.extractAddressComponents = provider.extractAddressComponents →
      other.getLocationType = provider.getLocationType →
      other.getProviderName = provider.getProviderName →
      validateAddress other address = validateAddress provider address) := by
  have hname : ∃ name, provider.getProviderName () = .ok name := by
    rcases validateAddress_ok_inv provider address response h with
      ⟨_, _, name, hn, _⟩ | ⟨_, _, _, _, name, _, hn, _⟩ <;> exact ⟨name, hn⟩
  obtain ⟨name, hname⟩ := hname
  have hcreate := fun a r => createUnverifiableResponse_ok provider a r name hname
  refine ⟨fun geocodeResult hvalid hlookup hcases => ?_, fun hcases => ?_,
    fun other hlookup hextract hloc hother => ?_⟩
  · have hlookup' := hlookup
    unfold trimmed at hlookup'
    by_cases hzero : geocodeResult.status = some "ZERO_RESULTS"
    · have htry : validateAddressTry provider address =
          .ok (unverifiableResponse (trimmed address) "No results found" name) := by
        simp [validateAddressTry, hvalid, hlookup', hzero, hcreate, bind, Except.bind,
          trimmed]
      rw [validateAddress_of_try_ok _ _ _ htry] at h
      rw [← Except.ok.inj h]
      rfl
    · rcases hcases with hz | hnone | hnil | ⟨first, second, others, hmany⟩ |
        ⟨result, rawComponents, locationType, standardized, hone, hextract, hloc, hstrings⟩
      · exact absurd hz hzero
      · have htry : validateAddressTry provider address =
            .ok (unverifiableResponse (trimmed address) "No results found" name) := by
          simp [validateAddressTry, hvalid, hlookup', hzero, hnone, hcreate, bind,
            Except.bind, trimmed]
        rw [validateAddress_of_try_ok _ _ _ htry] at h
        rw [← Except.ok.inj h]
        rfl
      · have htry : validateAddressTry provider address =
            .ok (unverifiableResponse (trimmed address) "No results found" name) := by
          simp [validateAddressTry, hvalid, hlookup', hzero, hnil, hcreate, bind,
            Except.bind, trimmed]
        rw [validateAddress_of_try_ok _ _ _ htry] at h
        rw [← Except.ok.inj h]
        rfl
      · have htry : validateAddressTry provider address =
            .ok (unverifiableResponse (trimmed address) "Multiple matches found" name) := by
          simp [validateAddressTry, hvalid, hlookup', hzero, hmany, hcreate, bind,
            Except.bind, trimmed]
        rw [validateAddress_of_try_ok _ _ _ htry] at h
        rw [← Except.ok.inj h]
        rfl
      · obtain ⟨_, _, rfl⟩ := validateAddress_eq_scored provider address response h result
          rawComponents locationType standardized
          ⟨hvalid, ⟨geocodeResult, hlookup, hzero, hone⟩, hextract, hloc, hstrings⟩
        rfl
  · have hraw : ∀ reason, validateAddress provider address =
        .ok (unverifiableResponse (address.getD "") reason name) →
        response.original = address.getD "" := by
      intro reason hvalue
      rw [hvalue] at h
      rw [← Except.ok.inj h]
      rfl
    have hrejected : isValidNonEmptyString address = false →
        response.original = address.getD "" := by
      intro hinvalid
      apply hraw "Address is required"
      apply validateAddress_of_try_ok
      simp [validateAddressTry, hinvalid, hcreate]
    rcases hcases with hinvalid | ⟨m, hfail⟩ |
      ⟨geocodeResult, result, hlookup, hzero, hone, hops⟩
    · exact hrejected hinvalid
    · cases hvalid : isValidNonEmptyString address with
      | false => exact hrejected hvalid
      | true =>
        unfold trimmed at hfail
        have htry : validateAddressTry provider address = .error m := by
          simp [validateAddressTry, hvalid, hfail, bind, Except.bind]
        apply hraw ("Validation error: " ++ m)
        rw [validateAddress_of_try_error provider address m htry, hcreate]
    · cases hvalid : isValidNonEmptyString address with
      | false => exact hrejected hvalid
      | true =>
        rcases hops with ⟨m, hm⟩ | ⟨m, hm⟩ |
          ⟨rawComponents, locationType, hextract, hloc, hstrings⟩
        rotate_left 2
        · exact hraw _ (validateAddress_not_strings provider address geocodeResult result
            rawComponents locationType name hvalid hlookup hzero hone hextract hloc hstrings
            hname)
        all_goals unfold trimmed at hlookup
        · have htry : validateAddressTry provider address = .error m := by
            simp [validateAddressTry, hvalid, hlookup, hzero, hone, hm, bind, Except.bind]
          apply hraw ("Validation error: " ++ m)
          rw [validateAddress_of_try_error provider address m htry, hcreate]
        · cases hextract : provider.extractAddressComponents result with
          | error e =>
            have htry : validateAddressTry provider address = .error e := by
              simp [validateAddressTry, hvalid, hlookup, hzero, hone, hextract, bind,
                Except.bind]
            apply hraw ("Validation error: " ++ e)
            rw [validateAddress_of_try_error provider address e htry, hcreate]
          | ok rawComponents =>
            have htry : validateAddressTry provider address = .error m := by
              simp [validateAddressTry, hvalid, hlookup, hzero, hone, hextract, hm, bind,
                Except.bind]
            apply hraw ("Validation error: " ++ m)
            rw [validateAddress_of_try_error provider address m htry, hcreate]
  · unfold trimmed at hlookup
    have htry : validateAddressTry other address = validateAddressTry provider address := by
      simp only [validateAddressTry, createUnverifiableResponse, hlookup, hextract, hloc,
        hother]
    simp only [validateAddress, createUnverifiableResponse, htry, hother]

/-- Witness for C33: the failing lookup of the service tests on an input with
surrounding blanks; `original` keeps them. -/
theorem validateAddress_original_field_witness :
    validateAddress failingProvider (some " test address ") =
      .ok (unverifiableResponse " test address " "Validation error: API Error"
        "google-geocoding") ∧
    (unverifiableResponse " test address " "Validation error: API Error"
      "google-geocoding").original = (some " test address ").getD "" :=
  have hvalue : validateAddress failingProvider (some " test address ") =
      .ok (unverifiableResponse " test address " "Validation error: API Error"
        "google-geocoding") := by
    rfl
  ⟨hvalue, (validateAddress_original_field failingProvider (some " test address ") _
    hvalue).2.1 (Or.inr (Or.inl ⟨"API Error", rfl⟩))⟩

/-! ## The score on arguments in the unit interval -/

/-- C34: for every accuracy `a` and ratio `r` in `[0, 1]` and every pair of
booleans, the unclamped weighted sum
`0.4*a + (0.4 if hasAllComponents else 0.3*r) + (0.2 if isExactMatch else 0.1*r)`
lies in `[0, 1]`, so `calculateConfidence` equals it: the clamp changes
nothing. -/
theorem calculateConfidence_eq_unclamped_sum (a r : ℚ) (hasAll isExact : Bool)
    (ha : 0 ≤ a ∧ a ≤ 1) (hr : 0 ≤ r ∧ r ≤ 1) :
    (0 ≤ 4 / 10 * a + (if hasAll then 4 / 10 else 3 / 10 * r)
        + (if isExact then 2 / 10 else 1 / 10 * r) ∧
      4 / 10 * a + (if hasAll then 4 / 10 else 3 / 10 * r)
        + (if isExact then 2 / 10 else 1 / 10 * r) ≤ 1) ∧
    calculateConfidence hasAll a isExact r =
      4 / 10 * a + (if hasAll then 4 / 10 else 3 / 10 * r)
        + (if isExact then 2 / 10 else 1 / 10 * r) := by
  obtain ⟨ha0, ha1⟩ := ha
  obtain ⟨hr0, hr1⟩ := hr
  cases hasAll <;> cases isExact <;>
    simp only [calculateConfidence, GOOGLE_ACCURACY, COMPONENT_COMPLETENESS_FULL,
      COMPONENT_COMPLETENESS_PARTIAL, EXACT_MATCH_BONUS, PARTIAL_MATCH_REDUCED,
      if_true, if_false, Bool.false_eq_true] <;>
    refine ⟨⟨by linarith, by linarith⟩, ?_⟩ <;>
    rw [clamp_eq _ (by linarith) (by linarith)] <;> ring

/-- Witness for C34 at accuracy `0.85` and ratio `0.6`, with neither bonus. -/
theorem calculateConfidence_eq_unclamped_sum_witness :
    ((0 : ℚ) ≤ 85 / 100 ∧ (85 / 100 : ℚ) ≤ 1) ∧ ((0 : ℚ) ≤ 3 / 5 ∧ (3 / 5 : ℚ) ≤ 1) ∧
    calculateConfidence false (85 / 100) false (3 / 5) =
      4 / 10 * (85 / 100) + (if false then 4 / 10 else 3 / 10 * (3 / 5))
        + (if false then 2 / 10 else 1 / 10 * (3 / 5)) :=
  ⟨by norm_num, by norm_num,
    (calculateConfidence_eq_unclamped_sum (85 / 100) (3 / 5) false false
      (by norm_num) (by norm_num)).2⟩

/-! ## Exact and complete matches -/

/-- With all components present and an exact match the score is
`0.4 * accuracy + 0.6`, at least `0.72` for the five accuracies. -/
lemma calculateConfidence_exact_complete (a : ℚ)
    (ha : a = 1 ∨ a = 85 / 100 ∨ a = 7 / 10 ∨ a = 5 / 10 ∨ a = 3 / 10) (r : ℚ) :
    calculateConfidence true a true r = 4 / 10 * a + 6 / 10 ∧
      72 / 100 ≤ calculateConfidence true a true r := by
  have hvalue : calculateConfidence true a true r = 4 / 10 * a + 6 / 10 := by
    simp only [calculateConfidence, GOOGLE_ACCURACY, COMPONENT_COMPLETENESS_FULL,
      EXACT_MATCH_BONUS, if_true]
    rcases ha with rfl | rfl | rfl | rfl | rfl <;>
      rw [clamp_eq _ (by norm_num) (by norm_num)] <;> norm_num
  refine ⟨hvalue, ?_⟩
  rw [hvalue]
  rcases ha with rfl | rfl | rfl | rfl | rfl <;> norm_num

/-- A numeric value of `mapGoogleLocationTypeToAccuracy` is one of five
numbers. -/
lemma mapGoogleLocationTypeToAccuracy_typed_values (locationType : String) (accuracy : ℚ)
    (h : mapGoogleLocationTypeToAccuracy locationType = .typed accuracy) :
    accuracy = 1 ∨ accuracy = 85 / 100 ∨ accuracy = 7 / 10 ∨ accuracy = 5 / 10 ∨
      accuracy = 3 / 10 := by
  rcases mapGoogleLocationTypeToAccuracy_values locationType with
    ⟨_, hinherited⟩ | ⟨_, accuracy', htyped, hvalues⟩
  · rw [hinherited] at h
    cases h
  · rw [htyped] at h
    cases h
    exact hvalues

/-- An exact, complete match is not below the threshold: its score is `NaN` or
at least `0.72`. -/
lemma confidenceOf_exact_complete_not_lt (address : Option String) (result : RawResult)
    (standardized : AddressComponents) (locationType : String)
    (hexact : exactMatchOf address result = true)
    (hall : hasAllComponents standardized = true) :
    (confidenceOf address result standardized locationType).lt confidenceThreshold
      = false := by
  rcases mapGoogleLocationTypeToAccuracy_values locationType with
    ⟨hkey, _⟩ | ⟨_, accuracy, haccuracy, hvalues⟩
  · rw [confidenceOf_of_inherited address result standardized locationType hkey]
    rfl
  · rw [confidenceOf_of_typed address result standardized locationType accuracy haccuracy,
      hexact, hall]
    have hhigh := (calculateConfidence_exact_complete accuracy hvalues
      (calculateComponentMatchRatio (trimmed address) standardized)).2
    simp only [JSNumber.lt, confidenceThreshold, decide_eq_false_iff_not, not_lt]
    linarith

/-- C35: whenever the provider returns exactly one result and the run reaches
the scoring step (the extraction and accuracy operations return and the
normalized city and state are strings), the status is `valid` if and only if
`isExactMatch` and `hasAllComponents` both hold; with both true the status is
never `unverifiable`, and for every numeric value of
`mapGoogleLocationTypeToAccuracy` the score is `0.4 * accuracy + 0.6`, at least
`0.72`. -/
theorem validateAddress_valid_iff (provider : Provider)
    (address : Option String) (geocodeResult : GeocodeResult) (result : RawResult)
    (rawComponents : RawComponents) (locationType name : String)
    (standardized : AddressComponents)
    (hvalid : isValidNonEmptyString address = true)
    (hlookup : provider.validateAddress (trimmed address) = .ok geocodeResult)
    (hstatus : geocodeResult.status ≠ some "ZERO_RESULTS")
    (hresults : geocodeResult.results = some [result])
    (hextract : provider.extractAddressComponents result = .ok rawComponents)
    (hloc : provider.getLocationType result = .ok locationType)
    (hstrings : (standardize rawComponents).strings = some standardized)
    (hname : provider.getProviderName () = .ok name) :
    ∃ response, validateAddress provider address = .ok response ∧
      (response.status = "valid" ↔
        (checkExactMatch (some (trimmed address)) result.formatted_address = true ∧
          hasAllComponents standardized = true)) ∧
      ((checkExactMatch (some (trimmed address)) result.formatted_address = true ∧
          hasAllComponents standardized = true) →
        response.status ≠ "unverifiable" ∧
        ∀ accuracy, mapGoogleLocationTypeToAccuracy locationType = .typed accuracy →
          (calculateConfidence (hasAllComponents standardized) accuracy
              (checkExactMatch (some (trimmed address)) result.formatted_address)
              (calculateComponentMatchRatio (trimmed address) standardized)
            = 4 / 10 * accuracy + 6 / 10 ∧
          72 / 100 ≤ 4 / 10 * accuracy + 6 / 10)) := by
  have hrun : ReachesScoring provider address result rawComponents locationType
      standardized :=
    ⟨hvalid, ⟨geocodeResult, hlookup, hstatus, hresults⟩, hextract, hloc, hstrings⟩
  have hstatusValid : ∀ hboth :
      checkExactMatch (some (trimmed address)) result.formatted_address = true ∧
        hasAllComponents standardized = true,
      statusOf address result standardized locationType = "valid" := by
    intro hboth
    have hexact : exactMatchOf address result = true := hboth.1
    unfold statusOf
    rw [confidenceOf_exact_complete_not_lt address result standardized locationType hexact
      hboth.2, hexact, hboth.2]
    rfl
  refine ⟨_, validateAddress_scored provider address result rawComponents locationType name
    standardized hrun hname, ⟨fun hvalidStatus => ?_, fun hboth => ?_⟩,
    fun hboth => ⟨?_, fun accuracy haccuracy => ?_⟩⟩
  · simp only [scoredResponse, statusOf] at hvalidStatus
    split_ifs at hvalidStatus with hlow hboth
    · exact absurd hvalidStatus (by decide)
    · rw [Bool.and_eq_true] at hboth
      exact hboth
    · exact absurd hvalidStatus (by decide)
  · exact hstatusValid hboth
  · show statusOf address result standardized locationType ≠ "unverifiable"
    rw [hstatusValid hboth]
    decide
  · have hscore := calculateConfidence_exact_complete accuracy
      (mapGoogleLocationTypeToAccuracy_typed_values locationType accuracy haccuracy)
      (calculateComponentMatchRatio (trimmed address) standardized)
    rw [hboth.1, hboth.2]
    exact ⟨hscore.1, by rw [← hscore.1]; exact hscore.2⟩

/-- Witness for C35: the perfect-match test input, with status `valid`. -/
theorem validateAddress_valid_iff_witness :
    validateAddress rooftopProvider
      (some "1600 Amphitheatre Parkway, Mountain View, CA 94043") = .ok perfectResponse ∧
    perfectResponse.status = "valid" ∧
    (∃ response, validateAddress rooftopProvider
        (some "1600 Amphitheatre Parkway, Mountain View, CA 94043") = .ok response ∧
      (response.status = "valid" ↔
        (checkExactMatch
            (some (trimmed (some "1600 Amphitheatre Parkway, Mountain View, CA 94043")))
            rooftopResult.formatted_address = true ∧
          hasAllComponents rooftopStandardized = true))) := by
  obtain ⟨response, hresponse, hiff, _⟩ := validateAddress_valid_iff rooftopProvider
    (some "1600 Amphitheatre Parkway, Mountain View, CA 94043")
    { status := some "OK", results := some [rooftopResult] } rooftopResult
    rooftopComponents "ROOFTOP" "google-geocoding" rooftopStandardized
    (by decide) rfl (by decide) rfl rfl rfl standardize_rooftopComponents rfl
  exact ⟨validateAddress_perfect, rfl, response, hresponse, hiff⟩

/-- The ratio of `calculateComponentMatchRatio` lies in `[0, 1]`. -/
lemma calculateComponentMatchRatio_range (original : String)
    (standardized : AddressComponents) :
    0 ≤ calculateComponentMatchRatio original standardized ∧
      calculateComponentMatchRatio original standardized ≤ 1 := by
  rw [calculateComponentMatchRatio_eq_counts]
  have hcounts := hitCount_le_presentCount original standardized
  by_cases hzero : presentCount standardized = 0
  · rw [if_pos hzero]
    norm_num
  · rw [if_neg hzero]
    have hpos : (0 : ℚ) < (presentCount standardized : ℚ) := by
      exact_mod_cast Nat.pos_of_ne_zero hzero
    have hle : (hitCount original standardized : ℚ) ≤ (presentCount standardized : ℚ) := by
      exact_mod_cast hcounts.1
    constructor
    · positivity
    · rw [div_le_one hpos]
      exact hle

/-- C36: in every run of `validateAddress` that reaches scoring, the arguments
passed to `calculateConfidence` should satisfy its documented precondition.  The
component match ratio does: it is `k/n` with `0 ≤ k ≤ n ≤ 5` (`0` when `n = 0`),
so it lies in `[0, 1]`.  The accuracy is one of `1.0`, `0.85`, `0.7`, `0.5`,
`0.3` unless the tier reported by the provider is the name of a property that
`accuracyMap` inherits from `Object.prototype`: that property is then passed as
`googleAccuracy`, as in the run of the perfect-match input with the tier
`constructor`. -/
theorem validateAddress_scoring_arguments_except_inherited_key :
    (∀ (provider : Provider) (address : Option String) (geocodeResult : GeocodeResult)
      (result : RawResult) (rawComponents : RawComponents) (locationType name : String)
      (standardized : AddressComponents),
      isValidNonEmptyString address = true →
      provider.validateAddress (trimmed address) = .ok geocodeResult →
      geocodeResult.status ≠ some "ZERO_RESULTS" →
      geocodeResult.results = some [result] →
      provider.extractAddressComponents result = .ok rawComponents →
      provider.getLocationType result = .ok locationType →
      (standardize rawComponents).strings = some standardized →
      provider.getProviderName () = .ok name →
      ∃ response componentMatchRatio,
        validateAddress provider address = .ok response ∧
        componentMatchRatio = calculateComponentMatchRatio (trimmed address) standardized ∧
        ((∃ googleAccuracy : ℚ,
            mapGoogleLocationTypeToAccuracy locationType = .typed googleAccuracy ∧
            (googleAccuracy = 1 ∨ googleAccuracy = 85 / 100 ∨ googleAccuracy = 7 / 10 ∨
              googleAccuracy = 5 / 10 ∨ googleAccuracy = 3 / 10)) ∨
          (locationType ∈ objectPrototypeKeys ∧
            mapGoogleLocationTypeToAccuracy locationType = .inherited locationType)) ∧
        (∃ k n : ℕ, k ≤ n ∧ n ≤ 5 ∧
          componentMatchRatio = (if n = 0 then 0 else (k : ℚ) / (n : ℚ))) ∧
        (0 ≤ componentMatchRatio ∧ componentMatchRatio ≤ 1)) ∧
    ReachesScoring inheritedTierProvider
      (some "1600 Amphitheatre Parkway, Mountain View, CA 94043") rooftopResult
      rooftopComponents "constructor" rooftopStandardized ∧
    validateAddress inheritedTierProvider
      (some "1600 Amphitheatre Parkway, Mountain View, CA 94043")
      = .ok inheritedTierResponse ∧
    mapGoogleLocationTypeToAccuracy "constructor" = .inherited "constructor" ∧
    (∀ googleAccuracy : ℚ,
      mapGoogleLocationTypeToAccuracy "constructor" ≠ .typed googleAccuracy) := by
  have hconstructor := mapGoogleLocationTypeToAccuracy_inherited "constructor" (by decide)
  refine ⟨?_, ⟨by decide, ⟨_, rfl, by decide, rfl⟩, rfl, rfl,
    standardize_rooftopComponents⟩, validateAddress_inheritedTier, hconstructor,
    fun googleAccuracy h => ?_⟩
  · intro provider address geocodeResult result rawComponents locationType name standardized
      hvalid hlookup hstatus hresults hextract hloc hstrings hname
    have hrun : ReachesScoring provider address result rawComponents locationType
        standardized :=
      ⟨hvalid, ⟨geocodeResult, hlookup, hstatus, hresults⟩, hextract, hloc, hstrings⟩
    have hcounts := hitCount_le_presentCount (trimmed address) standardized
    refine ⟨_, _, validateAddress_scored provider address result rawComponents locationType
      name standardized hrun hname, rfl, ?_,
      ⟨hitCount (trimmed address) standardized, presentCount standardized, hcounts.1,
        hcounts.2, calculateComponentMatchRatio_eq_counts _ _⟩,
      calculateComponentMatchRatio_range _ _⟩
    rcases mapGoogleLocationTypeToAccuracy_values locationType with
      ⟨hkey, hinherited⟩ | ⟨_, accuracy, haccuracy, hvalues⟩
    · exact Or.inr ⟨hkey, hinherited⟩
    · exact Or.inl ⟨accuracy, haccuracy, hvalues⟩
  · rw [hconstructor] at h
    cases h

/-- Witness for C36: the typo test input, scored with accuracy `1.0` and a ratio
in `[0, 1]`. -/
theorem validateAddress_scoring_arguments_except_inherited_key_witness :
    ∃ response componentMatchRatio,
      validateAddress rooftopProvider (some "1600 amphitheatre pkwy mountain view ca")
        = .ok response ∧
      componentMatchRatio =
        calculateComponentMatchRatio
          (trimmed (some "1600 amphitheatre pkwy mountain view ca")) rooftopStandardized ∧
      ((∃ googleAccuracy : ℚ,
          mapGoogleLocationTypeToAccuracy "ROOFTOP" = .typed googleAccuracy ∧
          (googleAccuracy = 1 ∨ googleAccuracy = 85 / 100 ∨ googleAccuracy = 7 / 10 ∨
            googleAccuracy = 5 / 10 ∨ googleAccuracy = 3 / 10)) ∨
        ("ROOFTOP" ∈ objectPrototypeKeys ∧
          mapGoogleLocationTypeToAccuracy "ROOFTOP" = .inherited "ROOFTOP")) ∧
      (∃ k n : ℕ, k ≤ n ∧ n ≤ 5 ∧
        componentMatchRatio = (if n = 0 then 0 else (k : ℚ) / (n : ℚ))) ∧
      (0 ≤ componentMatchRatio ∧ componentMatchRatio ≤ 1) :=
  validateAddress_scoring_arguments_except_inherited_key.1 rooftopProvider
    (some "1600 amphitheatre pkwy mountain view ca")
    { status := some "OK", results := some [rooftopResult] } rooftopResult
    rooftopComponents "ROOFTOP" "google-geocoding" rooftopStandardized
    (by decide) rfl (by decide) rfl rfl rfl standardize_rooftopComponents rfl

/-! ## Symmetry of the match heuristic -/

/-- C37: `checkExactMatch` is symmetric in its two arguments, also when one of
them is absent. -/
theorem checkExactMatch_symmetric (a b : Option String) :
    checkExactMatch a b = checkExactMatch b a := by
  cases a with
  | none => cases b <;> rfl
  | some x =>
    cases b with
    | none => rfl
    | some y =>
      by_cases hx : x = "" <;> by_cases hy : y = "" <;>
        simp [checkExactMatch, hx, hy, Bool.or_comm]

/-! ## Addresses without letters or digits -/

/-- A character of the lower-cased string comes from a character of the string. -/
lemma mem_toLowerCase (s : List Char) (c : Char) :
    c ∈ toLowerCase s ↔ ∃ d ∈ s, c ∈ lowerChar d := by
  induction s with
  | nil => simp [toLowerCase]
  | cons d ds ih => simp [toLowerCase, ih]

/-- A character of the lower-cased trimmed string is a character of the
lower-cased string. -/
lemma mem_toLowerCase_of_trim (s : List Char) (c : Char) (h : c ∈ toLowerCase (trim s)) :
    c ∈ toLowerCase s := by
  obtain ⟨d, hd, hc⟩ := (mem_toLowerCase _ _).mp h
  exact (mem_toLowerCase _ _).mpr ⟨d, mem_of_mem_trim s d hd, hc⟩

/-- Every string includes the empty string. -/
lemma includes_nil (s : List Char) : includes s [] = true :=
  (includes_iff_contiguous s []).mpr List.nil_infix

/-- An accepted address whose lower-cased form has no character in `a-z` or
`0-9` matches every non-empty formatted address. -/
lemma checkExactMatch_of_no_alphanumeric (s formatted : String)
    (hvalid : isValidNonEmptyString (some s) = true)
    (hnone : ∀ c ∈ toLowerCase s.data, ¬ (('a' ≤ c ∧ c ≤ 'z') ∨ ('0' ≤ c ∧ c ≤ '9')))
    (hformatted : formatted ≠ "") :
    alphanumericLower (trimmed (some s)) = [] ∧
      checkExactMatch (some (trimmed (some s))) (some formatted) = true := by
  have htrim : trim s.data ≠ [] := by
    simp only [isValidNonEmptyString, gt_iff_lt, decide_eq_true_eq, List.length_pos] at hvalid
    exact hvalid
  have hempty : alphanumericLower (trimmed (some s)) = [] := by
    unfold alphanumericLower trimmed
    rw [List.filter_eq_nil_iff]
    intro c hc
    have := hnone c (mem_toLowerCase_of_trim s.data c hc)
    simpa using this
  refine ⟨hempty, ?_⟩
  have hne : trimmed (some s) ≠ "" := mk_ne_empty _ htrim
  simp only [checkExactMatch, hne, hformatted, or_self, if_false, filter_alphanumeric_eq,
    hempty, includes_nil, Bool.true_or]

/-- C38 (as stated) fails: the address consisting of the Kelvin sign
U+212A has no character in `a-z`, `A-Z` or `0-9` and is accepted, the provider
returns a single result with a non-empty formatted address and five non-empty
normalized components, and the status is `corrected`: the Kelvin sign lower-cases
to `k`, which does not occur in the formatted address. -/
theorem validateAddress_kelvin_sign_corrected :
    (∀ c ∈ "\u212A".data,
      ¬ ('a' ≤ c ∧ c ≤ 'z') ∧ ¬ ('A' ≤ c ∧ c ≤ 'Z') ∧ ¬ ('0' ≤ c ∧ c ≤ '9')) ∧
    isValidNonEmptyString (some "\u212A") = true ∧
    bostonProvider.validateAddress (trimmed (some "\u212A"))
      = .ok { status := some "OK", results := some [bostonResult] } ∧
    bostonProvider.extractAddressComponents bostonResult = .ok bostonComponents ∧
    bostonResult.formatted_address = some "1 Main St, Boston, MA 02101, USA" ∧
    (standardize bostonComponents).strings = some bostonStandardized ∧
    hasAllComponents bostonStandardized = true ∧
    checkExactMatch (some (trimmed (some "\u212A"))) bostonResult.formatted_address = false ∧
    ∃ response, validateAddress bostonProvider (some "\u212A") = .ok response ∧
      response.status = "corrected" ∧ response.status ≠ "valid" := by
  have hstrings : (standardize bostonComponents).strings = some bostonStandardized := by
    decide
  have hrun : ReachesScoring bostonProvider (some "\u212A") bostonResult bostonComponents
      "ROOFTOP" bostonStandardized :=
    ⟨by decide, ⟨_, rfl, by decide, rfl⟩, rfl, rfl, hstrings⟩
  have hexact : exactMatchOf (some "\u212A") bostonResult = false := by decide
  have hall : hasAllComponents bostonStandardized = true := by decide
  have hstatus : statusOf (some "\u212A") bostonResult bostonStandardized "ROOFTOP"
      = "corrected" := by
    have hratio := calculateComponentMatchRatio_range (trimmed (some "\u212A"))
      bostonStandardized
    have hconf : (confidenceOf (some "\u212A") bostonResult bostonStandardized
        "ROOFTOP").lt confidenceThreshold = false := by
      rw [confidenceOf_of_typed _ _ _ _ _ mapGoogleLocationTypeToAccuracy_rooftop, hexact,
        hall]
      simp only [calculateConfidence, GOOGLE_ACCURACY, COMPONENT_COMPLETENESS_FULL,
        PARTIAL_MATCH_REDUCED, if_true, if_false, Bool.false_eq_true, confidenceThreshold,
        JSNumber.lt, decide_eq_false_iff_not, not_lt]
      rw [clamp_eq _ (by linarith [hratio.1]) (by linarith [hratio.2])]
      linarith [hratio.1]
    unfold statusOf
    rw [hconf, hexact]
    rfl
  refine ⟨by decide, by decide, rfl, rfl, rfl, hstrings, hall, hexact, _,
    validateAddress_scored bostonProvider (some "\u212A") bostonResult bostonComponents
      "ROOFTOP" "google-geocoding" bostonStandardized hrun rfl, hstatus, ?_⟩
  show statusOf (some "\u212A") bostonResult bostonStandardized "ROOFTOP" ≠ "valid"
  rw [hstatus]
  decide

/-- C38 (amended): For every accepted address whose lower-cased form has no
character in `a-z` or `0-9`, a lookup that resolves with a single result carrying
a non-empty formatted address, and five normalized components that are
non-empty strings, `validateAddress` returns status `valid` (given that the name
operation returns), for every accuracy tier: the address normalizes to the empty
string inside `checkExactMatch`, and the empty string is a substring of every
normalized formatted address. -/
theorem validateAddress_valid_without_alphanumeric (provider : Provider) (s : String)
    (geocodeResult : GeocodeResult) (result : RawResult) (rawComponents : RawComponents)
    (locationType name formatted : String) (standardized : AddressComponents)
    (hvalid : isValidNonEmptyString (some s) = true)
    (hnone : ∀ c ∈ toLowerCase s.data, ¬ (('a' ≤ c ∧ c ≤ 'z') ∨ ('0' ≤ c ∧ c ≤ '9')))
    (hlookup : provider.validateAddress (trimmed (some s)) = .ok geocodeResult)
    (hstatus : geocodeResult.status ≠ some "ZERO_RESULTS")
    (hresults : geocodeResult.results = some [result])
    (hextract : provider.extractAddressComponents result = .ok rawComponents)
    (hloc : provider.getLocationType result = .ok locationType)
    (hname : provider.getProviderName () = .ok name)
    (hformatted : result.formatted_address = some formatted)
    (hnonempty : formatted ≠ "")
    (hstrings : (standardize rawComponents).strings = some standardized)
    (hall : hasAllComponents standardized = true) :
    ∃ response, validateAddress provider (some s) = .ok response ∧
      response.status = "valid" ∧
      alphanumericLower (trimmed (some s)) = [] ∧
      checkExactMatch (some (trimmed (some s))) result.formatted_address = true := by
  have hrun : ReachesScoring provider (some s) result rawComponents locationType
      standardized :=
    ⟨hvalid, ⟨geocodeResult, hlookup, hstatus, hresults⟩, hextract, hloc, hstrings⟩
  obtain ⟨hempty, hmatch⟩ := checkExactMatch_of_no_alphanumeric s formatted hvalid hnone
    hnonempty
  rw [← hformatted] at hmatch
  have hexact : exactMatchOf (some s) result = true := hmatch
  refine ⟨_, validateAddress_scored provider (some s) result rawComponents locationType name
    standardized hrun hname, ?_, hempty, hmatch⟩
  show statusOf (some s) result standardized locationType = "valid"
  unfold statusOf
  rw [confidenceOf_exact_complete_not_lt (some s) result standardized locationType hexact
    hall, hexact, hall]
  rfl

/-- Witness for C38: the address `---` with the rooftop result of the service tests. -/
theorem validateAddress_valid_without_alphanumeric_witness :
    isValidNonEmptyString (some "---") = true ∧
    (∀ c ∈ toLowerCase "---".data, ¬ (('a' ≤ c ∧ c ≤ 'z') ∨ ('0' ≤ c ∧ c ≤ '9'))) ∧
    ∃ response, validateAddress rooftopProvider (some "---") = .ok response ∧
      response.status = "valid" :=
  have hnone : ∀ c ∈ toLowerCase "---".data,
      ¬ (('a' ≤ c ∧ c ≤ 'z') ∨ ('0' ≤ c ∧ c ≤ '9')) := by decide
  ⟨by decide, hnone,
    (validateAddress_valid_without_alphanumeric rooftopProvider "---"
      { status := some "OK", results := some [rooftopResult] } rooftopResult
      rooftopComponents "ROOFTOP" "google-geocoding"
      "1600 Amphitheatre Parkway, Mountain View, CA 94043, USA" rooftopStandardized
      (by decide) hnone rfl (by decide) rfl rfl rfl rfl rfl (by decide)
      standardize_rooftopComponents (by decide)).imp
      (fun _ h => ⟨h.1, h.2.1⟩)⟩

/-! ## Splitting on white space and joining with spaces -/

/-- A white-space character is its own lower-case form. -/
lemma lowerChar_of_whiteSpace (c : Char) (h : isWhiteSpace c = true) : lowerChar c = [c] := by
  have hrange : c.toNat ≠ 0x212A ∧ c.toNat ≠ 0x0130 ∧ ¬ (65 ≤ c.toNat ∧ c.toNat ≤ 90) := by
    simp only [isWhiteSpace, Bool.or_eq_true, Bool.and_eq_true, decide_eq_true_eq] at h
    omega
  simp only [lowerChar]
  rw [if_neg hrange.1, if_neg hrange.2.1, toLower_of_not_upper c hrange.2.2]

/-- A property of both branches of a conditional holds of the conditional. -/
lemma ite_induction {α : Type} (P : α → Prop) (c : Prop) [Decidable c] (a b : α)
    (ha : P a) (hb : P b) : P (if c then a else b) := by
  split
  · exact ha
  · exact hb

/-- The upper-case form of a character that is not white space is not empty and
has no white space. -/
lemma upperChar_of_not_whiteSpace (c : Char) (h : isWhiteSpace c = false) :
    upperChar c ≠ [] ∧ ∀ d ∈ upperChar c, isWhiteSpace d = false := by
  unfold upperChar
  iterate 10
    refine ite_induction (fun l => l ≠ [] ∧ ∀ d ∈ l, isWhiteSpace d = false) _ _ _
      ⟨List.cons_ne_nil _ _, by decide⟩ ?_
  refine ⟨List.cons_ne_nil _ _, ?_⟩
  intro d hd
  rw [List.mem_singleton] at hd
  rw [hd, isWhiteSpace_toUpper, h]

/-- In a separator, leading white space is skipped. -/
lemma splitGo_true_eq (s : List Char) :
    splitGo true s = splitGo false (s.dropWhile isWhiteSpace) := by
  induction s with
  | nil => rfl
  | cons c cs ih =>
    by_cases hws : isWhiteSpace c = true
    · rw [List.dropWhile_cons_of_pos hws, ← ih]
      simp only [splitGo, hws, if_true]
    · rw [List.dropWhile_cons_of_neg hws]
      simp [splitGo, hws]

/-- A white-space character outside a separator closes the current piece. -/
lemma splitGo_false_cons_whiteSpace (c : Char) (cs : List Char)
    (h : isWhiteSpace c = true) : splitGo false (c :: cs) = [] :: splitGo true cs := by
  simp only [splitGo, h, if_true, Bool.false_eq_true, if_false]

/-- A white-space character inside a separator is skipped. -/
lemma splitGo_true_cons_whiteSpace (c : Char) (cs : List Char)
    (h : isWhiteSpace c = true) : splitGo true (c :: cs) = splitGo true cs := by
  simp only [splitGo, h, if_true]

/-- A character that is not white space joins the first piece of the rest. -/
lemma splitGo_cons_of_not_whiteSpace (inSep : Bool) (c : Char) (cs w : List Char)
    (ws : List (List Char)) (h : isWhiteSpace c = false)
    (hrest : splitGo false cs = w :: ws) : splitGo inSep (c :: cs) = (c :: w) :: ws := by
  simp only [splitGo, h, Bool.false_eq_true, if_false, hrest]

/-- A run without white space joins the first piece of what follows. -/
lemma splitGo_append_of_no_whiteSpace (u t w : List Char) (ws : List (List Char))
    (hu : ∀ c ∈ u, isWhiteSpace c = false) (ht : splitGo false t = w :: ws) :
    splitGo false (u ++ t) = (u ++ w) :: ws := by
  induction u with
  | nil => exact ht
  | cons c cs ih =>
    exact splitGo_cons_of_not_whiteSpace false c (cs ++ t) (cs ++ w) ws
      (hu c (List.mem_cons_self c cs))
      (ih (fun x hx => hu x (List.mem_cons_of_mem c hx)))

/-- Every piece is free of white space and made of characters of the string. -/
lemma mem_splitGo (inSep : Bool) (s : List Char) :
    ∀ w ∈ splitGo inSep s, ∀ c ∈ w, isWhiteSpace c = false ∧ c ∈ s := by
  induction s generalizing inSep with
  | nil =>
    intro w hw c hc
    simp only [splitGo, List.mem_singleton] at hw
    rw [hw] at hc
    exact absurd hc (List.not_mem_nil c)
  | cons d ds ih =>
    intro w hw c hc
    by_cases hws : isWhiteSpace d = true
    · have hw' : w = [] ∨ w ∈ splitGo true ds := by
        cases inSep
        · rw [splitGo_false_cons_whiteSpace d ds hws, List.mem_cons] at hw
          exact hw
        · rw [splitGo_true_cons_whiteSpace d ds hws] at hw
          exact Or.inr hw
      rcases hw' with rfl | hw'
      · exact absurd hc (List.not_mem_nil c)
      · exact ⟨(ih true w hw' c hc).1, List.mem_cons_of_mem d (ih true w hw' c hc).2⟩
    · have hd : isWhiteSpace d = false := by simpa using hws
      obtain ⟨v, vs, hsplit⟩ := List.exists_cons_of_ne_nil (splitGo_ne_nil false ds)
      rw [splitGo_cons_of_not_whiteSpace inSep d ds v vs hd hsplit, List.mem_cons] at hw
      rcases hw with rfl | hw
      · rcases List.mem_cons.mp hc with rfl | hc'
        · exact ⟨hd, List.mem_cons_self _ _⟩
        · have := ih false v (by rw [hsplit]; exact List.mem_cons_self v vs) c hc'
          exact ⟨this.1, List.mem_cons_of_mem d this.2⟩
      · have := ih false w (by rw [hsplit]; exact List.mem_cons_of_mem v hw) c hc
        exact ⟨this.1, List.mem_cons_of_mem d this.2⟩

/-- In a separator, a string of white space has the single empty piece. -/
lemma splitGo_true_of_all_whiteSpace (s : List Char)
    (h : ∀ c ∈ s, isWhiteSpace c = true) : splitGo true s = [[]] := by
  rw [splitGo_true_eq, List.dropWhile_eq_nil_iff.mpr h]
  rfl

/-- A non-empty string of white space has two empty pieces. -/
lemma splitGo_false_of_all_whiteSpace (s : List Char) (hne : s ≠ [])
    (h : ∀ c ∈ s, isWhiteSpace c = true) : splitGo false s = [[], []] := by
  cases s with
  | nil => exact absurd rfl hne
  | cons c cs =>
    rw [splitGo_false_cons_whiteSpace c cs (h c (List.mem_cons_self c cs)),
      splitGo_true_of_all_whiteSpace cs (fun x hx => h x (List.mem_cons_of_mem c hx))]

/-- Joining after one more piece. -/
lemma joinSpace_cons_cons (w v : List Char) (vs : List (List Char)) :
    joinSpace (w :: v :: vs) = w ++ ' ' :: joinSpace (v :: vs) := rfl

/-- Joining a list of pieces that ends with the piece `w`. -/
lemma joinSpace_concat (init : List (List Char)) (w : List Char) (hne : init ≠ []) :
    joinSpace (init ++ [w]) = joinSpace init ++ ' ' :: w := by
  induction init with
  | nil => exact absurd rfl hne
  | cons v vs ih =>
    cases vs with
    | nil => rfl
    | cons v' vs' =>
      rw [List.cons_append, List.cons_append, joinSpace_cons_cons, joinSpace_cons_cons,
        ← List.cons_append, ih (List.cons_ne_nil v' vs')]
      simp

/-- Lower-casing distributes over concatenation. -/
lemma toLowerCase_append (s t : List Char) :
    toLowerCase (s ++ t) = toLowerCase s ++ toLowerCase t := by
  induction s with
  | nil => rfl
  | cons c cs ih => simp [toLowerCase, ih]

/-- A string of white space is its own lower-case form. -/
lemma toLowerCase_of_all_whiteSpace (s : List Char)
    (h : ∀ c ∈ s, isWhiteSpace c = true) : toLowerCase s = s := by
  induction s with
  | nil => rfl
  | cons c cs ih =>
    rw [toLowerCase, lowerChar_of_whiteSpace c (h c (List.mem_cons_self c cs)),
      ih (fun x hx => h x (List.mem_cons_of_mem c hx))]
    rfl

/-- The last piece of a string that ends outside white space is not empty. -/
lemma splitGo_concat_of_not_whiteSpace (inSep : Bool) (t : List Char) (x : Char)
    (hx : isWhiteSpace x = false) :
    ∃ init w, splitGo inSep (t ++ [x]) = init ++ [w] ∧ w ≠ [] := by
  induction t generalizing inSep with
  | nil =>
    exact ⟨[], [x], splitGo_cons_of_not_whiteSpace inSep x [] [] [] hx rfl,
      List.cons_ne_nil x []⟩
  | cons d ds ih =>
    by_cases hws : isWhiteSpace d = true
    · obtain ⟨init, w, hsplit, hw⟩ := ih true
      cases inSep
      · exact ⟨[] :: init, w, by
          rw [List.cons_append, splitGo_false_cons_whiteSpace d _ hws, hsplit]
          rfl, hw⟩
      · exact ⟨init, w, by
          rw [List.cons_append, splitGo_true_cons_whiteSpace d _ hws, hsplit], hw⟩
    · have hd : isWhiteSpace d = false := by simpa using hws
      obtain ⟨init, w, hsplit, hw⟩ := ih false
      cases init with
      | nil =>
        exact ⟨[], d :: w, by
          rw [List.cons_append, splitGo_cons_of_not_whiteSpace inSep d _ w [] hd hsplit]
          rfl, List.cons_ne_nil d w⟩
      | cons v vs =>
        exact ⟨(d :: v) :: vs, w, by
          rw [List.cons_append,
            splitGo_cons_of_not_whiteSpace inSep d _ v (vs ++ [w]) hd hsplit]
          rfl, hw⟩

/-- White space after a string that ends outside white space adds one empty
piece. -/
lemma splitGo_append_whiteSpace (inSep : Bool) (t : List Char) (x : Char)
    (run : List Char) (hx : isWhiteSpace x = false) (hne : run ≠ [])
    (hrun : ∀ c ∈ run, isWhiteSpace c = true) :
    splitGo inSep ((t ++ [x]) ++ run) = splitGo inSep (t ++ [x]) ++ [[]] := by
  induction t generalizing inSep with
  | nil =>
    rw [List.nil_append, List.singleton_append,
      splitGo_cons_of_not_whiteSpace inSep x run [] [[]] hx
        (splitGo_false_of_all_whiteSpace run hne hrun),
      splitGo_cons_of_not_whiteSpace inSep x [] [] [] hx rfl]
    rfl
  | cons d ds ih =>
    by_cases hws : isWhiteSpace d = true
    · cases inSep
      · rw [List.cons_append, List.cons_append, splitGo_false_cons_whiteSpace d _ hws,
          splitGo_false_cons_whiteSpace d _ hws, ih true]
        rfl
      · rw [List.cons_append, List.cons_append, splitGo_true_cons_whiteSpace d _ hws,
          splitGo_true_cons_whiteSpace d _ hws, ih true]
    · have hd : isWhiteSpace d = false := by simpa using hws
      obtain ⟨v, vs, hsplit⟩ :=
        List.exists_cons_of_ne_nil (splitGo_ne_nil false (ds ++ [x]))
      have hlong : splitGo false ((ds ++ [x]) ++ run) = v :: (vs ++ [[]]) := by
        rw [ih false, hsplit]
        rfl
      rw [List.cons_append, List.cons_append,
        splitGo_cons_of_not_whiteSpace inSep d _ v (vs ++ [[]]) hd hlong,
        splitGo_cons_of_not_whiteSpace inSep d _ v vs hd hsplit]
      rfl

/-- A string that ends in white space is white space only, or a string that
ends outside white space followed by a non-empty run of white space. -/
lemma whiteSpace_suffix_cases (init : List Char) (c : Char) (hc : isWhiteSpace c = true) :
    (∀ d ∈ init ++ [c], isWhiteSpace d = true) ∨
    ∃ t x run, init ++ [c] = (t ++ [x]) ++ run ∧ isWhiteSpace x = false ∧ run ≠ [] ∧
      ∀ d ∈ run, isWhiteSpace d = true := by
  induction init using List.reverseRecOn generalizing c with
  | nil =>
    left
    intro d hd
    rw [List.nil_append, List.mem_singleton] at hd
    rw [hd, hc]
  | append_singleton rest y ih =>
    by_cases hy : isWhiteSpace y = true
    · rcases ih y hy with hall | ⟨t, x, run, hsplit, hx, hne, hrun⟩
      · left
        intro d hd
        rcases List.mem_append.mp hd with hd' | hd'
        · exact hall d hd'
        · rw [List.mem_singleton] at hd'
          rw [hd', hc]
      · right
        refine ⟨t, x, run ++ [c], ?_, hx, by simp, ?_⟩
        · rw [hsplit, List.append_assoc]
        · intro d hd
          rcases List.mem_append.mp hd with hd' | hd'
          · exact hrun d hd'
          · rw [List.mem_singleton] at hd'
            rw [hd', hc]
    · right
      refine ⟨rest, y, [c], rfl, by simpa using hy, List.cons_ne_nil c [], ?_⟩
      intro d hd
      rw [List.mem_singleton] at hd
      rw [hd, hc]

/-- The first character of a capitalized piece that starts outside white space
is not white space. -/
lemma capitalize_head (x : Char) (w : List Char) (hx : isWhiteSpace x = false) :
    ∃ u us, capitalize (x :: w) = u :: us ∧ isWhiteSpace u = false := by
  obtain ⟨hne, hall⟩ := upperChar_of_not_whiteSpace x hx
  obtain ⟨u, us, hupper⟩ := List.exists_cons_of_ne_nil hne
  refine ⟨u, us ++ w, ?_, hall u (by rw [hupper]; exact List.mem_cons_self u us)⟩
  rw [capitalize, hupper]
  rfl

/-- A capitalized piece without white space has no white space, and is empty
only if the piece is. -/
lemma capitalize_of_no_whiteSpace (w : List Char) (hne : w ≠ [])
    (hw : ∀ c ∈ w, isWhiteSpace c = false) :
    capitalize w ≠ [] ∧ ∀ c ∈ capitalize w, isWhiteSpace c = false := by
  cases w with
  | nil => exact absurd rfl hne
  | cons x xs =>
    obtain ⟨hupper, hall⟩ := upperChar_of_not_whiteSpace x (hw x (List.mem_cons_self x xs))
    refine ⟨?_, ?_⟩
    · rw [capitalize]
      exact fun h => hupper (List.append_eq_nil.mp h).1
    · intro c hc
      rw [capitalize] at hc
      rcases List.mem_append.mp hc with hc' | hc'
      · exact hall c hc'
      · exact hw c (List.mem_cons_of_mem x hc')

/-- Joined pieces start with the first character of the first piece. -/
lemma joinSpace_cons_head (u : Char) (us : List Char) (rest : List (List Char)) :
    ∃ tail, joinSpace ((u :: us) :: rest) = u :: tail := by
  cases rest with
  | nil => exact ⟨us, rfl⟩
  | cons v vs => exact ⟨us ++ ' ' :: joinSpace (v :: vs), rfl⟩

/-- Joined pieces end with the last piece. -/
lemma joinSpace_concat_exists (init : List (List Char)) (w : List Char) :
    ∃ front, joinSpace (init ++ [w]) = front ++ w := by
  by_cases hne : init = []
  · subst hne
    exact ⟨[], rfl⟩
  · exact ⟨joinSpace init ++ [' '], by rw [joinSpace_concat init w hne]; simp⟩

/-- The last character of a string that ends with a non-empty part belongs to
that part. -/
lemma last_mem_of_append (front part rest : List Char) (d : Char) (hne : part ≠ [])
    (h : front ++ part = rest ++ [d]) : d ∈ part := by
  obtain ⟨part', y, rfl⟩ := (List.eq_nil_or_concat part).resolve_left hne
  rw [List.concat_eq_append, ← List.append_assoc] at h
  have := List.append_inj_right' h rfl
  rw [List.cons.injEq] at this
  rw [← this.1]
  simp

/-- A string that starts and ends outside white space is its own trimmed form. -/
lemma trim_eq_self (s : List Char)
    (hhead : ∀ x t, s = x :: t → isWhiteSpace x = false)
    (hlast : ∀ t y, s = t ++ [y] → isWhiteSpace y = false) : trim s = s := by
  rcases List.eq_nil_or_concat s with rfl | ⟨t, y, hs⟩
  · rfl
  · rw [List.concat_eq_append] at hs
    have hy := hlast t y hs
    have hfirst : s.dropWhile isWhiteSpace = s := by
      cases s with
      | nil => rfl
      | cons x xs =>
        exact List.dropWhile_cons_of_neg (by simp [hhead x xs rfl])
    unfold trim
    rw [hfirst, hs, List.reverse_append, List.reverse_singleton, List.singleton_append,
      List.dropWhile_cons_of_neg (by simp [hy])]
    simp

/-- A non-empty trimmed string starts and ends outside white space. -/
lemma trim_ends (s : List Char) (hne : trim s ≠ []) :
    (∃ x t, trim s = x :: t ∧ isWhiteSpace x = false) ∧
    (∃ t y, trim s = t ++ [y] ∧ isWhiteSpace y = false) := by
  have hstart : trim s <+: s.dropWhile isWhiteSpace := by
    unfold trim
    refine ⟨((s.dropWhile isWhiteSpace).reverse.takeWhile isWhiteSpace).reverse, ?_⟩
    rw [← List.reverse_append, List.takeWhile_append_dropWhile, List.reverse_reverse]
  constructor
  · obtain ⟨rest, hrest⟩ := hstart
    cases htrim : trim s with
    | nil => exact absurd htrim hne
    | cons x t =>
      refine ⟨x, t, rfl, ?_⟩
      rw [htrim, List.cons_append] at hrest
      have := List.head_dropWhile_not isWhiteSpace s
        (by rw [← hrest]; exact List.cons_ne_nil _ _)
      simpa [← hrest] using this
  · cases hrev : (s.dropWhile isWhiteSpace).reverse.dropWhile isWhiteSpace with
    | nil =>
      exfalso
      apply hne
      unfold trim
      rw [hrev]
      rfl
    | cons y r =>
      refine ⟨r.reverse, y, ?_, ?_⟩
      · unfold trim
        rw [hrev, List.reverse_cons]
      · have := List.head_dropWhile_not isWhiteSpace (s.dropWhile isWhiteSpace).reverse
          (by rw [hrev]; exact List.cons_ne_nil _ _)
        simpa [hrev] using this

/-- The pieces of a string that ends outside white space are not empty, the
first one excepted when the string starts with white space outside a
separator. -/
lemma splitGo_pieces_ne_nil (inSep : Bool) (t : List Char) (y : Char)
    (hy : isWhiteSpace y = false) :
    ∃ v vs, splitGo inSep (t ++ [y]) = v :: vs ∧ (∀ w ∈ vs, w ≠ []) ∧
      (inSep = true → v ≠ []) ∧
      (∀ x rest, t ++ [y] = x :: rest → isWhiteSpace x = false → v ≠ []) := by
  induction t generalizing inSep with
  | nil =>
    exact ⟨[y], [], splitGo_cons_of_not_whiteSpace inSep y [] [] [] hy rfl,
      fun w hw => absurd hw (List.not_mem_nil w), fun _ => List.cons_ne_nil y [],
      fun _ _ _ _ => List.cons_ne_nil y []⟩
  | cons d ds ih =>
    by_cases hws : isWhiteSpace d = true
    · obtain ⟨v, vs, hsplit, hvs, hv, _⟩ := ih true
      cases inSep
      · refine ⟨[], v :: vs, ?_, ?_, fun h => Bool.noConfusion h, fun x rest hx hxws => ?_⟩
        · rw [List.cons_append, splitGo_false_cons_whiteSpace d _ hws, hsplit]
        · intro w hw
          rcases List.mem_cons.mp hw with rfl | hw'
          · exact hv rfl
          · exact hvs w hw'
        · rw [List.cons_append, List.cons.injEq] at hx
          rw [← hx.1, hws] at hxws
          cases hxws
      · refine ⟨v, vs, ?_, hvs, fun _ => hv rfl, fun _ _ _ _ => hv rfl⟩
        rw [List.cons_append, splitGo_true_cons_whiteSpace d _ hws, hsplit]
    · have hd : isWhiteSpace d = false := by simpa using hws
      obtain ⟨v, vs, hsplit, hvs, _, _⟩ := ih false
      refine ⟨d :: v, vs, ?_, hvs, fun _ => List.cons_ne_nil d v,
        fun _ _ _ _ => List.cons_ne_nil d v⟩
      rw [List.cons_append, splitGo_cons_of_not_whiteSpace inSep d _ v vs hd hsplit]

/-- The pieces of a non-empty trimmed string are not empty. -/
lemma splitWhitespace_trim_pieces (s : List Char) (hne : trim s ≠ []) :
    ∀ w ∈ splitWhitespace (trim s), w ≠ [] := by
  obtain ⟨⟨x, t, hhead, hx⟩, ⟨t', y, hlast, hy⟩⟩ := trim_ends s hne
  obtain ⟨v, vs, hsplit, hvs, _, hv⟩ := splitGo_pieces_ne_nil false t' y hy
  intro w hw
  rw [splitWhitespace, hlast, hsplit] at hw
  rcases List.mem_cons.mp hw with rfl | hw'
  · exact hv x t (by rw [← hlast, hhead]) hx
  · exact hvs w hw'

/-- Splitting undoes joining non-empty pieces that have no white space. -/
lemma splitGo_joinSpace (pieces : List (List Char)) (hne : pieces ≠ [])
    (hpieces : ∀ w ∈ pieces, w ≠ [] ∧ ∀ c ∈ w, isWhiteSpace c = false) :
    splitGo false (joinSpace pieces) = pieces := by
  induction pieces with
  | nil => exact absurd rfl hne
  | cons w rest ih =>
    have hw := hpieces w (List.mem_cons_self w rest)
    cases rest with
    | nil =>
      have := splitGo_append_of_no_whiteSpace w [] [] [] hw.2 rfl
      rw [List.append_nil] at this
      exact this
    | cons v vs =>
      have hrest : ∀ u ∈ v :: vs, u ≠ [] ∧ ∀ c ∈ u, isWhiteSpace c = false :=
        fun u hu => hpieces u (List.mem_cons_of_mem w hu)
      have hv := hrest v (List.mem_cons_self v vs)
      obtain ⟨x, xs, rfl⟩ := List.exists_cons_of_ne_nil hv.1
      obtain ⟨tail, htail⟩ := joinSpace_cons_head x xs vs
      have hx : isWhiteSpace x = false := hv.2 x (List.mem_cons_self x xs)
      have hsep : splitGo false (' ' :: joinSpace ((x :: xs) :: vs))
          = [] :: (x :: xs) :: vs := by
        rw [splitGo_false_cons_whiteSpace ' ' _ (by decide), splitGo_true_eq, htail,
          List.dropWhile_cons_of_neg (by simp [hx]), ← htail,
          ih (List.cons_ne_nil _ _) hrest]
      rw [joinSpace_cons_cons,
        splitGo_append_of_no_whiteSpace w _ [] ((x :: xs) :: vs) hw.2 hsep, List.append_nil]

/-- Joined non-empty pieces without white space start and end outside white
space. -/
lemma trim_joinSpace (pieces : List (List Char))
    (hpieces : ∀ w ∈ pieces, w ≠ [] ∧ ∀ c ∈ w, isWhiteSpace c = false) :
    trim (joinSpace pieces) = joinSpace pieces := by
  apply trim_eq_self
  · intro x t hjoin
    cases pieces with
    | nil => cases hjoin
    | cons w rest =>
      have hw := hpieces w (List.mem_cons_self w rest)
      obtain ⟨u, us, rfl⟩ := List.exists_cons_of_ne_nil hw.1
      obtain ⟨tail, htail⟩ := joinSpace_cons_head u us rest
      rw [htail, List.cons.injEq] at hjoin
      rw [← hjoin.1]
      exact hw.2 u (List.mem_cons_self u us)
  · intro t y hjoin
    rcases List.eq_nil_or_concat pieces with rfl | ⟨init, w, rfl⟩
    · exact absurd hjoin (by simp [joinSpace])
    · rw [List.concat_eq_append] at hjoin hpieces
      have hw := hpieces w (by simp)
      obtain ⟨front, hfront⟩ := joinSpace_concat_exists init w
      rw [hfront] at hjoin
      exact hw.2 y (last_mem_of_append front w t y hw.1 hjoin)

/-- Lower-casing commutes with joining. -/
lemma toLowerCase_joinSpace (pieces : List (List Char)) :
    toLowerCase (joinSpace pieces) = joinSpace (pieces.map toLowerCase) := by
  induction pieces with
  | nil => rfl
  | cons w rest ih =>
    cases rest with
    | nil => rfl
    | cons v vs =>
      rw [joinSpace_cons_cons, toLowerCase_append, toLowerCase, ih]
      rfl

/-- The facts on a letter of `A-Z` used below, checked letter by letter. -/
lemma uppercase_facts (c : Char) (h : 65 ≤ c.toNat ∧ c.toNat ≤ 90) :
    c.toLower.toLower = c.toLower ∧ c.toLower.toNat < 128 := by
  obtain ⟨h1, h2⟩ := h
  rw [← Char.ofNat_toNat c]
  generalize c.toNat = n at h1 h2
  interval_cases n <;> decide

/-- Lower-casing twice is lower-casing. -/
lemma toLower_toLower (c : Char) : c.toLower.toLower = c.toLower := by
  by_cases h : 65 ≤ c.toNat ∧ c.toNat ≤ 90
  · exact (uppercase_facts c h).1
  · rw [toLower_of_not_upper c h, toLower_of_not_upper c h]

/-- Lower-casing keeps a character ASCII. -/
lemma toLower_ascii (c : Char) (hc : c.toNat < 128) : c.toLower.toNat < 128 := by
  by_cases h : 65 ≤ c.toNat ∧ c.toNat ≤ 90
  · exact (uppercase_facts c h).2
  · rw [toLower_of_not_upper c h]
    exact hc

/-- Lower-casing a string of lower-case ASCII characters changes nothing. -/
lemma toLowerCase_of_lower (w : List Char)
    (hw : ∀ c ∈ w, c.toNat < 128 ∧ c.toLower = c) : toLowerCase w = w := by
  rw [toLowerCase_ascii w (fun c hc => (hw c hc).1)]
  conv_rhs => rw [← List.map_id w]
  exact List.map_congr_left (fun c hc => (hw c hc).2)

/-- Lower-casing a capitalized piece of lower-case ASCII characters gives the
piece back. -/
lemma toLowerCase_capitalize (w : List Char)
    (hw : ∀ c ∈ w, c.toNat < 128 ∧ c.toLower = c) : toLowerCase (capitalize w) = w := by
  cases w with
  | nil => rfl
  | cons c cs =>
    have hc := hw c (List.mem_cons_self c cs)
    rw [capitalize, upperChar_ascii c hc.1, List.singleton_append, toLowerCase,
      lowerChar_ascii _ (toUpper_ascii c hc.1), toLower_toUpper, hc.2,
      toLowerCase_of_lower cs (fun x hx => hw x (List.mem_cons_of_mem c hx))]
    rfl

/-- Every abbreviation of the street-type table, lower-cased, is a key of the
table with the same abbreviation; it is not empty and has no white space. -/
lemma streetTypes_abbreviation (word abbr : String) (h : streetTypes word = some abbr) :
    streetTypes (String.mk (toLowerCase abbr.data)) = some abbr ∧
    toLowerCase abbr.data ≠ [] ∧
    (∀ c ∈ toLowerCase abbr.data, isWhiteSpace c = false) ∧
    abbr.data ≠ [] ∧ (∀ c ∈ abbr.data, isWhiteSpace c = false) := by
  have hmem := (streetTypes_eq_some_iff word abbr).mp h
  have hall : ∀ p ∈ streetTypeTable,
      streetTypes (String.mk (toLowerCase p.2.data)) = some p.2 ∧
      toLowerCase p.2.data ≠ [] ∧
      (∀ c ∈ toLowerCase p.2.data, isWhiteSpace c = false) ∧
      p.2.data ≠ [] ∧ (∀ c ∈ p.2.data, isWhiteSpace c = false) := by
    decide
  exact hall (word, abbr) hmem

/-! ## A second pass of `normalizeStreet` -/

/-- The last word of the output of `normalizeStreet`, as a function of the last
word of the lower-cased input. -/
lemma normalizeStreet_value (s : String) (hne : s ≠ "") (init : List (List Char))
    (last : List Char)
    (hsplit : splitWhitespace (trim (toLowerCase s.data)) = init ++ [last]) :
    normalizeStreet (some s) =
      String.mk (joinSpace (init.map capitalize ++ [lastWord last])) := by
  simp only [normalizeStreet, hne, if_false]
  rw [hsplit, normalizeWords_append _ 0 init last (by simp)]

/-- On the ASCII strings whose last word is not the name of an inherited
property, `normalizeStreet` is idempotent. -/
lemma normalizeStreet_idempotent_ascii (s : String)
    (hascii : ∀ c ∈ s.data, c.toNat < 128)
    (hkey : ∀ w ∈ (splitWhitespace (trim (toLowerCase s.data))).getLast?,
      String.mk w ∉ objectPrototypeKeys) :
    normalizeStreet (some (normalizeStreet (some s))) = normalizeStreet (some s) := by
  by_cases hempty : s = ""
  · subst hempty
    rfl
  have hlower : ∀ c ∈ toLowerCase s.data, c.toNat < 128 ∧ c.toLower = c := by
    intro c hc
    rw [toLowerCase_ascii s.data hascii, List.mem_map] at hc
    obtain ⟨d, hd, rfl⟩ := hc
    exact ⟨toLower_ascii d (hascii d hd), toLower_toLower d⟩
  by_cases htrim : trim (toLowerCase s.data) = []
  · have hvalue : normalizeStreet (some s) = "" := by
      simp only [normalizeStreet, hempty, if_false, htrim]
      rfl
    rw [hvalue]
    rfl
  have hpiecesNe := splitWhitespace_trim_pieces (toLowerCase s.data) htrim
  have hpiecesFree : ∀ w ∈ splitWhitespace (trim (toLowerCase s.data)),
      ∀ c ∈ w, isWhiteSpace c = false ∧ c.toNat < 128 ∧ c.toLower = c := by
    intro w hw c hc
    have := mem_splitGo false (trim (toLowerCase s.data)) w hw c hc
    exact ⟨this.1, hlower c (mem_of_mem_trim _ c this.2)⟩
  obtain ⟨init, last, hsplit⟩ := (List.eq_nil_or_concat _).resolve_left
    (splitGo_ne_nil false (trim (toLowerCase s.data)))
  rw [List.concat_eq_append] at hsplit
  have hsplit' : splitWhitespace (trim (toLowerCase s.data)) = init ++ [last] := hsplit
  rw [hsplit'] at hpiecesNe hpiecesFree
  have hinit : ∀ w ∈ init, w ≠ [] ∧ ∀ c ∈ w, isWhiteSpace c = false :=
    fun w hw => ⟨hpiecesNe w (by simp [hw]),
      fun c hc => (hpiecesFree w (by simp [hw]) c hc).1⟩
  have hlastNe : last ≠ [] := hpiecesNe last (by simp)
  have hlastFree : ∀ c ∈ last, isWhiteSpace c = false :=
    fun c hc => (hpiecesFree last (by simp) c hc).1
  have hlastLower : ∀ c ∈ last, c.toNat < 128 ∧ c.toLower = c :=
    fun c hc => (hpiecesFree last (by simp) c hc).2
  have hlastKey : String.mk last ∉ objectPrototypeKeys := by
    apply hkey last
    rw [hsplit']
    simp
  have hvalue := normalizeStreet_value s hempty init last hsplit'
  obtain ⟨final, hfinal, hfinalNe, hfinalLowerNe, hfinalLowerFree, hagain⟩ :
      ∃ final : List Char,
        lastWord last = final ∧
        final ≠ [] ∧ toLowerCase final ≠ [] ∧
        (∀ c ∈ toLowerCase final, isWhiteSpace c = false) ∧
        lastWord (toLowerCase final) = final := by
    cases hlookup : streetTypes (String.mk last) with
    | some abbr =>
      obtain ⟨hfound, h1, h2, h3, _⟩ := streetTypes_abbreviation _ abbr hlookup
      exact ⟨abbr.data, by simp only [lastWord, getProperty_of_some _ _ _ hlookup], h3, h1,
        h2, by simp only [lastWord, getProperty_of_some _ _ _ hfound]⟩
    | none =>
      have hback := toLowerCase_capitalize last hlastLower
      have hmiss : lastWord last = capitalize last := by
        simp only [lastWord, getProperty_of_none _ _ hlookup hlastKey]
      refine ⟨capitalize last, hmiss,
        (capitalize_of_no_whiteSpace last hlastNe hlastFree).1, ?_, ?_, ?_⟩
      · rw [hback]
        exact hlastNe
      · rw [hback]
        exact hlastFree
      · rw [hback, hmiss]
  rw [hfinal] at hvalue
  have hjoinNe : joinSpace (init.map capitalize ++ [final]) ≠ [] := by
    obtain ⟨front, hfront⟩ := joinSpace_concat_exists (init.map capitalize) final
    rw [hfront]
    exact fun h => hfinalNe (List.append_eq_nil.mp h).2
  have hlowerJoin : toLowerCase (joinSpace (init.map capitalize ++ [final]))
      = joinSpace (init ++ [toLowerCase final]) := by
    rw [toLowerCase_joinSpace, List.map_append, List.map_map, List.map_cons, List.map_nil]
    congr 2
    conv_rhs => rw [← List.map_id init]
    exact List.map_congr_left (fun w hw =>
      toLowerCase_capitalize w (fun c hc => (hpiecesFree w (by simp [hw]) c hc).2))
  have hpieces2 : ∀ w ∈ init ++ [toLowerCase final],
      w ≠ [] ∧ ∀ c ∈ w, isWhiteSpace c = false := by
    intro w hw
    rcases List.mem_append.mp hw with hw' | hw'
    · exact hinit w hw'
    · rw [List.mem_singleton] at hw'
      rw [hw']
      exact ⟨hfinalLowerNe, hfinalLowerFree⟩
  have hsplit2 : splitWhitespace (trim (toLowerCase
      (String.mk (joinSpace (init.map capitalize ++ [final]))).data))
      = init ++ [toLowerCase final] := by
    show splitWhitespace (trim (toLowerCase (joinSpace (init.map capitalize ++ [final])))) = _
    rw [hlowerJoin, trim_joinSpace _ hpieces2, splitWhitespace,
      splitGo_joinSpace _ (by simp) hpieces2]
  rw [hvalue, normalizeStreet_value _ (mk_ne_empty _ hjoinNe) init (toLowerCase final) hsplit2,
    hagain]

/-- C39: `normalizeStreet` should be idempotent on ASCII strings.  It is on
every ASCII string whose last word, once lower-cased, is not the name of a
property that `streetTypes` inherits from `Object.prototype`.  On the ASCII
string `constructor` the lookup returns the inherited function, the output is
the text of that function, and a second pass capitalizes it: there the two
passes differ. -/
theorem normalizeStreet_idempotent_except_inherited_key :
    (∀ s : String, (∀ c ∈ s.data, c.toNat < 128) →
      (∀ w ∈ (splitWhitespace (trim (toLowerCase s.data))).getLast?,
        String.mk w ∉ objectPrototypeKeys) →
      normalizeStreet (some (normalizeStreet (some s))) = normalizeStreet (some s)) ∧
    (∀ c ∈ "constructor".data, c.toNat < 128) ∧
    normalizeStreet (some "constructor")
      = "function Object() \x7b [native code] \x7d" ∧
    normalizeStreet (some (normalizeStreet (some "constructor")))
      = "Function Object() \x7b [native Code] \x7d" ∧
    normalizeStreet (some (normalizeStreet (some "constructor")))
      ≠ normalizeStreet (some "constructor") :=
  ⟨normalizeStreet_idempotent_ascii, by decide, by decide, by decide, by decide⟩

/-- Witness for C39: the street `12 main STREET`, on which a second pass changes
nothing. -/
theorem normalizeStreet_idempotent_except_inherited_key_witness :
    (∀ c ∈ "12 main STREET".data, c.toNat < 128) ∧
    (∀ w ∈ (splitWhitespace (trim (toLowerCase "12 main STREET".data))).getLast?,
      String.mk w ∉ objectPrototypeKeys) ∧
    normalizeStreet (some "12 main STREET") = "12 Main St" ∧
    normalizeStreet (some (normalizeStreet (some "12 main STREET")))
      = normalizeStreet (some "12 main STREET") :=
  ⟨by decide, by decide, by decide,
    normalizeStreet_idempotent_except_inherited_key.1 "12 main STREET" (by decide)
      (by decide)⟩

/-! ## White space around a city -/

/-- The title-case path of `normalizeCity`: the lookup finds neither a written
key nor an inherited property. -/
lemma normalizeCity_titleCase (s : String) (hne : s ≠ "")
    (hnotkey : specialCases (String.mk (trim (toLowerCase s.data))) = none)
    (hkey : String.mk (trim (toLowerCase s.data)) ∉ objectPrototypeKeys) :
    normalizeCity (some s) = .typed (titleCase s) := by
  simp only [normalizeCity, hne, if_false, getProperty_of_none _ _ hnotkey hkey, titleCase]

/-- The characters of the title-cased string. -/
lemma titleCase_data (s : String) :
    (titleCase s).data = joinSpace ((splitWhitespace (toLowerCase s.data)).map capitalize) :=
  rfl

/-- C40: `normalizeCity` does not trim on its title-case path. For a city
whose trimmed lower-cased form is not a key of the exception table (and not the
name of a property that the table inherits from `Object.prototype`, so that the
lookup finds nothing): if the city starts with white space, the output is one
space followed by a rest that does not start with white space; if it ends with
white space, the output is a front that does not end with white space followed
by one space. A non-empty city of white space only normalizes to the single
space, so that its field is not empty and `hasAllComponents` holds as soon as
the four other fields are present. -/
theorem normalizeCity_keeps_outer_whiteSpace (s : String) :
    (specialCases (String.mk (trim (toLowerCase s.data))) = none →
      String.mk (trim (toLowerCase s.data)) ∉ objectPrototypeKeys →
      ∀ c rest, s.data = c :: rest → isWhiteSpace c = true →
        ∃ city tail, normalizeCity (some s) = .typed city ∧ city.data = ' ' :: tail ∧
          ∀ d ds, tail = d :: ds → isWhiteSpace d = false) ∧
    (specialCases (String.mk (trim (toLowerCase s.data))) = none →
      String.mk (trim (toLowerCase s.data)) ∉ objectPrototypeKeys →
      ∀ init c, s.data = init ++ [c] → isWhiteSpace c = true →
        ∃ city front, normalizeCity (some s) = .typed city ∧ city.data = front ++ [' '] ∧
          ∀ ds d, front = ds ++ [d] → isWhiteSpace d = false) ∧
    (s ≠ "" → (∀ c ∈ s.data, isWhiteSpace c = true) →
      normalizeCity (some s) = .typed " " ∧
      ∀ (rawComponents : RawComponents) (standardized : AddressComponents),
        rawComponents.city = some s →
        (standardize rawComponents).strings = some standardized →
        standardized.city = " " ∧
        (hasAllComponents standardized = true ↔
          standardized.number ≠ "" ∧ standardized.street ≠ "" ∧
          standardized.state ≠ "" ∧ standardized.zipCode ≠ "")) := by
  refine ⟨fun hnotkey hkey c rest hdata hc => ?_, fun hnotkey hkey init c hdata hc => ?_,
    fun hne hall => ?_⟩
  · have hne : s ≠ "" := by
      intro h
      rw [h] at hdata
      cases hdata
    refine ⟨titleCase s, ?_⟩
    suffices hsuff : ∃ tail, (titleCase s).data = ' ' :: tail ∧
        ∀ d ds, tail = d :: ds → isWhiteSpace d = false by
      obtain ⟨tail, htail⟩ := hsuff
      exact ⟨tail, normalizeCity_titleCase s hne hnotkey hkey, htail⟩
    rw [titleCase_data, hdata, toLowerCase,
      lowerChar_of_whiteSpace c hc, List.singleton_append, splitWhitespace,
      splitGo_false_cons_whiteSpace c _ hc, splitGo_true_eq]
    cases hdrop : (toLowerCase rest).dropWhile isWhiteSpace with
    | nil => exact ⟨[], rfl, fun d ds h => by cases h⟩
    | cons x xs =>
      have hx : isWhiteSpace x = false := by
        have := List.head_dropWhile_not isWhiteSpace (toLowerCase rest)
          (by rw [hdrop]; exact List.cons_ne_nil x xs)
        simpa [hdrop] using this
      obtain ⟨v, vs, hsplit⟩ := List.exists_cons_of_ne_nil (splitGo_ne_nil false xs)
      rw [splitGo_cons_of_not_whiteSpace false x xs v vs hx hsplit]
      obtain ⟨u, us, hcap, hu⟩ := capitalize_head x v hx
      obtain ⟨tail, htail⟩ := joinSpace_cons_head u us (vs.map capitalize)
      refine ⟨u :: tail, ?_, fun d ds h => ?_⟩
      · rw [List.map_cons, List.map_cons, hcap, joinSpace_cons_cons, htail]
        rfl
      · rw [List.cons.injEq] at h
        rw [← h.1]
        exact hu
  · have hne : s ≠ "" := by
      intro h
      rw [h] at hdata
      exact List.cons_ne_nil _ _ ((List.append_eq_nil.mp hdata.symm).2)
    refine ⟨titleCase s, ?_⟩
    suffices hsuff : ∃ front, (titleCase s).data = front ++ [' '] ∧
        ∀ ds d, front = ds ++ [d] → isWhiteSpace d = false by
      obtain ⟨front, hfront⟩ := hsuff
      exact ⟨front, normalizeCity_titleCase s hne hnotkey hkey, hfront⟩
    rw [titleCase_data, hdata, toLowerCase_append,
      toLowerCase, lowerChar_of_whiteSpace c hc, toLowerCase, List.append_nil, splitWhitespace]
    rcases whiteSpace_suffix_cases (toLowerCase init) c hc with
      hall | ⟨t, x, run, hsplit, hx, hrunne, hrun⟩
    · rw [splitGo_false_of_all_whiteSpace _ (by simp) hall]
      exact ⟨[], rfl, fun ds d h => absurd h (by simp)⟩
    · rw [hsplit, splitGo_append_whiteSpace false t x run hx hrunne hrun]
      obtain ⟨pieces, w, hpieces, hw⟩ := splitGo_concat_of_not_whiteSpace false t x hx
      have hwfree : ∀ c ∈ w, isWhiteSpace c = false := fun c hcw =>
        (mem_splitGo false (t ++ [x]) w (by rw [hpieces]; simp) c hcw).1
      obtain ⟨hcapne, hcapfree⟩ := capitalize_of_no_whiteSpace w hw hwfree
      obtain ⟨front, hfront⟩ := joinSpace_concat_exists (pieces.map capitalize) (capitalize w)
      refine ⟨joinSpace ((splitGo false (t ++ [x])).map capitalize), ?_, fun ds d h => ?_⟩
      · rw [List.map_append, List.map_cons, List.map_nil,
          joinSpace_concat _ _ (by
            intro hnil
            exact splitGo_ne_nil false (t ++ [x]) (List.map_eq_nil_iff.mp hnil))]
        rfl
      · rw [hpieces, List.map_append, List.map_cons, List.map_nil, hfront] at h
        exact hcapfree d (last_mem_of_append front (capitalize w) ds d hcapne h)
  · have hdata : s.data ≠ [] := fun h => hne (String.ext h)
    have hlower : toLowerCase s.data = s.data := toLowerCase_of_all_whiteSpace s.data hall
    have htrim : trim s.data = [] := trim_eq_nil_of_all_whiteSpace s.data hall
    have hcity : normalizeCity (some s) = .typed " " := by
      have hnotkey : specialCases (String.mk (trim (toLowerCase s.data))) = none := by
        rw [hlower, htrim]
        rfl
      have hkey : String.mk (trim (toLowerCase s.data)) ∉ objectPrototypeKeys := by
        rw [hlower, htrim]
        decide
      rw [normalizeCity_titleCase s hne hnotkey hkey]
      congr 1
      apply String.ext
      rw [titleCase_data, hlower, splitWhitespace,
        splitGo_false_of_all_whiteSpace s.data hdata hall]
      rfl
    refine ⟨hcity, fun rawComponents standardized hraw hstrings => ?_⟩
    have hfield : standardized.city = " " := by
      have hinv := (standardize_strings_inv rawComponents standardized hstrings).2.2.1
      rw [hraw, hcity] at hinv
      exact (Dynamic.typed.inj hinv).symm
    refine ⟨hfield, ?_⟩
    rw [hasAllComponents_iff, hfield]
    constructor
    · rintro ⟨h1, h2, _, h4, h5⟩
      exact ⟨h1, h2, h4, h5⟩
    · rintro ⟨h1, h2, h4, h5⟩
      exact ⟨h1, h2, by decide, h4, h5⟩

/-- Witness for C40: the cities ` boston ` and a single blank. -/
theorem normalizeCity_keeps_outer_whiteSpace_witness :
    normalizeCity (some " boston ") = .typed " Boston " ∧
    (∃ city tail, normalizeCity (some " boston ") = .typed city ∧ city.data = ' ' :: tail ∧
      ∀ d ds, tail = d :: ds → isWhiteSpace d = false) ∧
    (∃ city front, normalizeCity (some " boston ") = .typed city ∧
      city.data = front ++ [' '] ∧
      ∀ ds d, front = ds ++ [d] → isWhiteSpace d = false) ∧
    normalizeCity (some " ") = .typed " " :=
  ⟨by decide,
    (normalizeCity_keeps_outer_whiteSpace " boston ").1 (by decide) (by decide) ' '
      "boston ".data rfl (by decide),
    (normalizeCity_keeps_outer_whiteSpace " boston ").2.1 (by decide) (by decide)
      " boston".data ' ' rfl (by decide),
    ((normalizeCity_keeps_outer_whiteSpace " ").2.2 (by decide) (by decide)).1⟩

end AddressValidation
